import Mathlib

/-!
# Play sessions: the session service over its in-memory store

A shallow embedding of `internal/services/session/session.go` (the `Service`
methods) running against the store double `memStore` of
`internal/services/session/session_test.go`, with the row types of
`internal/model`.

Conventions of the embedding:

* Go maps are kept as lists of rows, looked up by key. `members`, `bans` and
  `msgs` are flat tables whose rows carry the session id, as in the tables of
  `internal/storage/postgres`.
* Every service method takes the store and returns the store after the call
  together with `Except Err _`; `context.Context` is dropped.
* The values a method draws from its environment (`uuid.NewString()`,
  `time.Now().UTC()`) are explicit arguments `id` and `now`.
* `time.Time` is an integer instant, the zero time being `0`.
* `memStore.seq` is an `int64` that is only ever incremented, once per row
  appended to `msgs`; it is kept as an unbounded integer.
* A run-time panic ends the call with the error `Err.crash`.

Further parts, each introduced where it is defined: `pkg/security`
(`GenerateSecureString` over an explicit random source), `Join` and `Mute`
over a store whose calls can fail, `Join` as a sequence of store calls under a
schedule, and `internal/ws` (`Hub`, `Room`, `Client` as objects at addresses).
-/

namespace Session

/-! ## internal/model -/

/-- Go `model.VisibilityPublic`. -/
def VisibilityPublic : String := "Public"
/-- Go `model.VisibilityPrivate`. -/
def VisibilityPrivate : String := "Private"
/-- Go `model.Active`. -/
def Active : String := "Active"
/-- Go `model.Archived`. -/
def Archived : String := "Archived"
/-- Go `model.Gm`. -/
def Gm : String := "Gm"
/-- Go `model.Player`. -/
def Player : String := "Player"

/-- Go `model.User`; the session service only ever tests a user record for
existence, so only the key is kept. -/
structure User where
  ID : String
deriving DecidableEq, Repr

/-- Go `model.PlaySessionDB`. -/
structure PlaySessionDB where
  ID : String
  OwnerID : String
  Title : String
  Ruleset : String
  Description : String
  Capacity : Int
  Visibility : String
  StartsAt : Option Int
  Status : String
  CreatedAt : Int
deriving DecidableEq, Repr

/-- Go `model.PlaySessionMemberDB`. -/
structure PlaySessionMemberDB where
  SessionID : String
  UserID : String
  Role : String
  Muted : Bool
deriving DecidableEq, Repr

/-- Go `model.CreatePlaySessionDTO`. -/
structure CreatePlaySessionDTO where
  Title : String
  Ruleset : String
  Description : String
  Capacity : Int
  Visibility : String
  StartsAt : Int
deriving DecidableEq, Repr

/-- Go `model.MessageRow`. -/
structure MessageRow where
  ID : String
  UserID : String
  Text : String
  CreatedAt : Int
  SeqID : Int
deriving DecidableEq, Repr

/-- Go `model.ErrInvalidField`. -/
def ErrInvalidField : String := "INVALID_VALUE"

/-- Go `model.MessagesQuery`; a `nil` pointer is `none`. -/
structure MessagesQuery where
  LastMessage : Option Int
  PageSize : Option Int
deriving DecidableEq, Repr

/-- Go `MessagesQuery.Validate`: the map of rejected fields, as a list. -/
def MessagesQuery.Validate (q : MessagesQuery) : List (String × String) :=
  (match q.LastMessage with
    | some n => if n < 0 then [("lastMessage", ErrInvalidField)] else []
    | none => []) ++
  (match q.PageSize with
    | some n => if n < 10 ∨ n > 200 then [("pageSize", ErrInvalidField)] else []
    | none => [])

/-- Go `model.MessageItem`. -/
structure MessageItem where
  ID : String
  UserID : String
  Text : String
  CreatedAt : Int
deriving DecidableEq, Repr

/-- Go `model.MessagesResponse`. -/
structure MessagesResponse where
  Items : List MessageItem
  LastMessage : Int
deriving DecidableEq, Repr

/-! ## The store double `memStore` -/

/-- Go `memStore` (session_test.go). -/
structure memStore where
  users : List User
  activeByUser : List (String × String)
  sessions : List PlaySessionDB
  members : List PlaySessionMemberDB
  bans : List (String × String)
  seq : List (String × Int)
  msgs : List (String × MessageRow)
deriving DecidableEq, Repr

/-- Go `newMem`. -/
def newMem : memStore :=
  { users := [], activeByUser := [], sessions := [], members := [],
    bans := [], seq := [], msgs := [] }

namespace memStore

/-- Go `memStore.addUser`. -/
def addUser (m : memStore) (id : String) : memStore :=
  { m with users := m.users.filter (fun u => u.ID ≠ id) ++ [{ ID := id }] }

/-- Go `memStore.setActive`: an empty session id deletes the entry. -/
def setActive (m : memStore) (u sid : String) : memStore :=
  if sid = "" then
    { m with activeByUser := m.activeByUser.filter (fun e => e.1 ≠ u) }
  else
    { m with activeByUser := m.activeByUser.filter (fun e => e.1 ≠ u) ++ [(u, sid)] }

/-- Go `memStore.IsBannedFromSession`. -/
def IsBannedFromSession (m : memStore) (sid uid : String) : Bool :=
  m.bans.any (fun b => b.1 = sid ∧ b.2 = uid)

/-- Go `memStore.ban`: `m.bans[sid][uid] = true`. -/
def ban (m : memStore) (sid uid : String) : memStore :=
  if m.IsBannedFromSession sid uid then m
  else { m with bans := m.bans ++ [(sid, uid)] }

/-- Go `memStore.CreatePlaySession`. -/
def CreatePlaySession (m : memStore) (ps : PlaySessionDB) : Except String memStore :=
  if m.sessions.any (fun x => x.ID = ps.ID) then .error "dup"
  else .ok { m with sessions := m.sessions ++ [ps] }

/-- Go `memStore.IsPlaySessionMember`. -/
def IsPlaySessionMember (m : memStore) (sid uid : String) : Bool :=
  m.members.any (fun x => x.SessionID = sid ∧ x.UserID = uid)

/-- Go `memStore.AddPlaySessionMember`. -/
def AddPlaySessionMember (m : memStore) (mb : PlaySessionMemberDB) : Except String memStore :=
  if m.IsPlaySessionMember mb.SessionID mb.UserID then .error "dup member"
  else .ok { m with members := m.members ++ [mb] }

/-- Go `memStore.GetPlaySessionByID`. -/
def GetPlaySessionByID (m : memStore) (id : String) : Except String PlaySessionDB :=
  match m.sessions.find? (fun x => x.ID = id) with
  | some ps => .ok ps
  | none => .error "not found"

/-- Go `memStore.CountPlaySessionMembers`: `len(m.members[sid])`. -/
def CountPlaySessionMembers (m : memStore) (sid : String) : Int :=
  ((m.members.filter (fun x => x.SessionID = sid)).length : Int)

/-- Go `memStore.GetUserActiveSessionID`: a missing key reads as `""`. -/
def GetUserActiveSessionID (m : memStore) (uid : String) : String :=
  match m.activeByUser.find? (fun e => e.1 = uid) with
  | some e => e.2
  | none => ""

/-- Go `memStore.SetUserActiveSession`. -/
def SetUserActiveSession (m : memStore) (uid sid : String) : memStore :=
  m.setActive uid sid

/-- Go `memStore.ClearUserActiveSession`. -/
def ClearUserActiveSession (m : memStore) (uid : String) : memStore :=
  m.setActive uid ""

/-- Go `memStore.ClearUserActiveSessionIfMatch`. -/
def ClearUserActiveSessionIfMatch (m : memStore) (uid sid : String) : memStore :=
  if m.GetUserActiveSessionID uid = sid then
    { m with activeByUser := m.activeByUser.filter (fun e => e.1 ≠ uid) }
  else m

/-- Go `memStore.GetUserByID`. -/
def GetUserByID (m : memStore) (id : String) : Except String User :=
  match m.users.find? (fun u => u.ID = id) with
  | some u => .ok u
  | none => .error "not found"

/-- The counter `m.seq[sid]`, a missing key reading as `0`. -/
def seqOf (m : memStore) (sid : String) : Int :=
  match m.seq.find? (fun e => e.1 = sid) with
  | some e => e.2
  | none => 0

/-- Go `memStore.NextSessionSeq`: `m.seq[sid]++; return m.seq[sid]`. -/
def NextSessionSeq (m : memStore) (sid : String) : memStore × Int :=
  let n := m.seqOf sid + 1
  ({ m with seq := m.seq.filter (fun e => e.1 ≠ sid) ++ [(sid, n)] }, n)

/-- Go `memStore.InsertPlaySessionMessage`: append to `m.msgs[sid]`. -/
def InsertPlaySessionMessage (m : memStore) (id sid uid : String) (seq : Int)
    (text : String) (createdAt : Int) : memStore :=
  { m with msgs := m.msgs ++
      [(sid, { ID := id, UserID := uid, Text := text, CreatedAt := createdAt, SeqID := seq })] }

/-- The slice `m.msgs[sid]`. -/
def msgsOf (m : memStore) (sid : String) : List MessageRow :=
  (m.msgs.filter (fun e => e.1 = sid)).map Prod.snd

/-- The loop of Go `memStore.ListPlaySessionMessages` over the rows still to
visit, `out` being the rows kept so far: a row is kept when its seq is above
`afterSeq`, and after each row the loop breaks if `len(out) >= limit`. -/
def listLoop (afterSeq limit : Int) : List MessageRow → List MessageRow → List MessageRow
  | out, [] => out
  | out, r :: rest =>
    let out1 := if r.SeqID > afterSeq then out ++ [r] else out
    if (out1.length : Int) ≥ limit then out1 else listLoop afterSeq limit out1 rest

/-- Go `memStore.ListPlaySessionMessages`; `none` is the run-time panic of
`make([]model.MessageRow, 0, limit)` for a negative `limit` (the limits of
allocation are not modelled). -/
def ListPlaySessionMessages (m : memStore) (sid : String) (afterSeq limit : Int) :
    Option (List MessageRow) :=
  if limit < 0 then none else some (listLoop afterSeq limit [] (m.msgsOf sid))

/-- Go `memStore.DeletePlaySessionMember`. -/
def DeletePlaySessionMember (m : memStore) (sid uid : String) : memStore :=
  { m with members := m.members.filter (fun x => ¬ (x.SessionID = sid ∧ x.UserID = uid)) }

/-- Go `memStore.GetPlaySessionMember`; `none` is `sql.ErrNoRows`. -/
def GetPlaySessionMember (m : memStore) (sid uid : String) : Option PlaySessionMemberDB :=
  match m.members.find? (fun x => x.SessionID = sid ∧ x.UserID = uid) with
  | some mb => some { SessionID := sid, UserID := uid, Role := mb.Role, Muted := mb.Muted }
  | none => none

/-- Go `memStore.SetMemberMuted`. -/
def SetMemberMuted (m : memStore) (sid uid : String) (muted : Bool) : Except String memStore :=
  if m.IsPlaySessionMember sid uid then
    .ok { m with members := m.members.map (fun x =>
      if x.SessionID = sid ∧ x.UserID = uid then { x with Muted := muted } else x) }
  else .error "no member"

/-- Go `memStore.IsMemberMuted`. -/
def IsMemberMuted (m : memStore) (sid uid : String) : Bool :=
  match m.members.find? (fun x => x.SessionID = sid ∧ x.UserID = uid) with
  | some mb => mb.Muted
  | none => false

/-- Go `memStore.InsertPlaySessionBan`. -/
def InsertPlaySessionBan (m : memStore) (sid uid : String) : memStore :=
  m.ban sid uid

/-- Go `memStore.UpdatePlaySessionStatus`. -/
def UpdatePlaySessionStatus (m : memStore) (sid status : String) : Except String memStore :=
  if m.sessions.any (fun x => x.ID = sid) then
    .ok { m with sessions := m.sessions.map (fun x =>
      if x.ID = sid then { x with Status := status } else x) }
  else .error "no session"

/-- Go `memStore.ClearActiveSessionForAll`: every key whose value is `sid`
is deleted. -/
def ClearActiveSessionForAll (m : memStore) (sid : String) : memStore :=
  { m with activeByUser :=
      m.activeByUser.filter (fun e => m.GetUserActiveSessionID e.1 ≠ sid) }

end memStore

/-! ## internal/services/session -/

/-- The sentinel errors of session.go; `store` is any other error handed up
from a store call, with its message, and `crash` is a run-time panic, which
is no `error` value and ends the call. -/
inductive Err where
  | ErrSessionNotFound
  | ErrSessionArchived
  | ErrAlreadyMember
  | ErrCapacityExceeded
  | ErrForbiddenJoin
  | ErrNotMember
  | ErrNoActiveSession
  | ErrMuted
  | ErrNotOwner
  | ErrPlayerNotFound
  | ErrPlayerNotInSession
  | ErrCannotRemoveOwner
  | store (msg : String)
  | crash (msg : String)
deriving DecidableEq, Repr

open Err

namespace Service

/-- Go `Service.CanConnect`; a failing session lookup hands the error of the
store up (with the value `false`). -/
def CanConnect (s : memStore) (sessionID userID : String) : memStore × Except Err Bool :=
  match s.GetPlaySessionByID sessionID with
  | .error e => (s, .error (.store e))
  | .ok ps =>
    let ok := s.IsPlaySessionMember sessionID userID
    if ps.Visibility = VisibilityPrivate ∧ ¬ ok then (s, .ok false)
    else if ps.Visibility = VisibilityPublic ∧ ¬ ok then (s, .ok false)
    else (s, .ok true)

/-- The record `rec` that Go `Service.Create` builds: `StartsAt` is set only
for a non-zero time, the status is `Active`. -/
def createdRecord (id : String) (now : Int) (ownerID : String)
    (dto : CreatePlaySessionDTO) : PlaySessionDB :=
  { ID := id, OwnerID := ownerID, Title := dto.Title, Ruleset := dto.Ruleset,
    Description := dto.Description, Capacity := dto.Capacity,
    Visibility := dto.Visibility,
    StartsAt := if dto.StartsAt ≠ 0 then some dto.StartsAt else none,
    Status := Active, CreatedAt := now }

/-- Go `Service.Create`. -/
def Create (s : memStore) (id : String) (now : Int) (ownerID : String)
    (dto : CreatePlaySessionDTO) : memStore × Except Err String :=
  match s.CreatePlaySession (createdRecord id now ownerID dto) with
  | .error e => (s, .error (.store ("create play session: " ++ e)))
  | .ok s1 =>
    match s1.AddPlaySessionMember
        { SessionID := id, UserID := ownerID, Role := Gm, Muted := false } with
    | .error e => (s1, .error (.store ("add owner as gm: " ++ e)))
    | .ok s2 => (s2, .ok id)

/-- Go `Service.Join`. -/
def Join (s : memStore) (sessionID userID : String) : memStore × Except Err Unit :=
  match s.GetPlaySessionByID sessionID with
  | .error _ => (s, .error ErrSessionNotFound)
  | .ok ps =>
    if ps.Status ≠ Active then (s, .error ErrSessionArchived)
    else if ps.Visibility = VisibilityPrivate ∧ ps.OwnerID ≠ userID then
      (s, .error ErrForbiddenJoin)
    else if s.IsPlaySessionMember sessionID userID then (s, .error ErrAlreadyMember)
    else if s.CountPlaySessionMembers sessionID ≥ ps.Capacity then
      (s, .error ErrCapacityExceeded)
    else if s.IsBannedFromSession sessionID userID then (s, .error ErrForbiddenJoin)
    else
      match s.AddPlaySessionMember
          { SessionID := sessionID, UserID := userID, Role := Player, Muted := false } with
      | .error e => (s, .error (.store e))
      | .ok s1 => (s1.SetUserActiveSession userID sessionID, .ok ())

/-- Go `Service.Leave`. -/
def Leave (s : memStore) (userID : String) : memStore × Except Err String :=
  let sID := s.GetUserActiveSessionID userID
  if sID = "" then (s, .error ErrNoActiveSession)
  else
    match s.GetPlaySessionByID sID with
    | .error _ => (s, .error ErrSessionNotFound)
    | .ok ps =>
      if ps.Status ≠ Active then (s, .error ErrSessionArchived)
      else if ¬ s.IsPlaySessionMember sID userID then (s, .error ErrNotMember)
      else if ps.OwnerID = userID then (s, .error ErrForbiddenJoin)
      else
        ((s.DeletePlaySessionMember sID userID).ClearUserActiveSessionIfMatch userID sID,
          .ok sID)

/-- The item Go `Service.ListMessages` builds from a row. -/
def toItem (r : MessageRow) : MessageItem :=
  { ID := r.ID, UserID := r.UserID, Text := r.Text, CreatedAt := r.CreatedAt }

/-- The cursor loop of Go `Service.ListMessages`:
`if r.SeqID > last { last = r.SeqID }` over the rows. -/
def lastSeq (after : Int) (rows : List MessageRow) : Int :=
  rows.foldl (fun last r => if r.SeqID > last then r.SeqID else last) after

/-- Go `Service.ListMessages`. -/
def ListMessages (s : memStore) (sessionID userID : String) (q : MessagesQuery) :
    memStore × Except Err MessagesResponse :=
  match s.GetPlaySessionByID sessionID with
  | .error _ => (s, .error ErrSessionNotFound)
  | .ok _ =>
    if ¬ s.IsPlaySessionMember sessionID userID then (s, .error ErrNotMember)
    else
      let after : Int := match q.LastMessage with
        | some n => n
        | none => 0
      let size : Int := match q.PageSize with
        | some n => n
        | none => 50
      match s.ListPlaySessionMessages sessionID after size with
      | none => (s, .error (.crash "makeslice: cap out of range"))
      | some rows => (s, .ok { Items := rows.map toItem, LastMessage := lastSeq after rows })

/-- Go `Service.SendMessage`; the result is `(sessionID, seq, sentAt)`. -/
def SendMessage (s : memStore) (id : String) (now : Int) (userID text : String) :
    memStore × Except Err (String × Int × Int) :=
  let sid := s.GetUserActiveSessionID userID
  if sid = "" then (s, .error ErrNoActiveSession)
  else
    match s.GetPlaySessionByID sid with
    | .error _ => (s, .error ErrSessionNotFound)
    | .ok ps =>
      if ps.Status ≠ Active then (s, .error ErrSessionArchived)
      else if ¬ s.IsPlaySessionMember sid userID then (s, .error ErrNotMember)
      else if s.IsMemberMuted sid userID then (s, .error ErrMuted)
      else
        let r := s.NextSessionSeq sid
        (r.1.InsertPlaySessionMessage id sid userID r.2 text now, .ok (sid, r.2, now))

/-- The body shared by Go `Service.Mute` and `Service.Unmute`, which differ
only in the flag handed to `SetMemberMuted`. -/
def setMuted (s : memStore) (gmUserID targetUserID : String) (muted : Bool) :
    memStore × Except Err String :=
  let sid := s.GetUserActiveSessionID gmUserID
  if sid = "" then (s, .error ErrNoActiveSession)
  else
    match s.GetPlaySessionByID sid with
    | .error _ => (s, .error ErrSessionNotFound)
    | .ok ps =>
      if ps.OwnerID ≠ gmUserID then (s, .error ErrNotOwner)
      else
        match s.GetUserByID targetUserID with
        | .error _ => (s, .error ErrPlayerNotFound)
        | .ok _ =>
          match s.GetPlaySessionMember sid targetUserID with
          | none => (s, .error ErrPlayerNotInSession)
          | some m =>
            if m.Role ≠ Player then (s, .error ErrPlayerNotInSession)
            else
              match s.SetMemberMuted sid targetUserID muted with
              | .error e => (s, .error (.store e))
              | .ok s1 => (s1, .ok sid)

/-- Go `Service.Mute`. -/
def Mute (s : memStore) (gmUserID targetUserID : String) : memStore × Except Err String :=
  setMuted s gmUserID targetUserID true

/-- Go `Service.Unmute`. -/
def Unmute (s : memStore) (gmUserID targetUserID : String) : memStore × Except Err String :=
  setMuted s gmUserID targetUserID false

/-- Go `Service.Remove`. -/
def Remove (s : memStore) (gmUserID targetUserID : String) : memStore × Except Err String :=
  let sid := s.GetUserActiveSessionID gmUserID
  if sid = "" then (s, .error ErrNoActiveSession)
  else
    match s.GetPlaySessionByID sid with
    | .error _ => (s, .error ErrSessionNotFound)
    | .ok ps =>
      if ps.OwnerID ≠ gmUserID then (s, .error ErrNotOwner)
      else
        match s.GetUserByID targetUserID with
        | .error _ => (s, .error ErrPlayerNotFound)
        | .ok _ =>
          if targetUserID = ps.OwnerID then (s, .error ErrCannotRemoveOwner)
          else if ¬ s.IsPlaySessionMember sid targetUserID then
            (s, .error ErrPlayerNotInSession)
          else
            ((((s.DeletePlaySessionMember sid targetUserID).InsertPlaySessionBan sid
                targetUserID).ClearUserActiveSessionIfMatch targetUserID sid), .ok sid)

/-- Go `Service.End`. -/
def End (s : memStore) (gmUserID : String) : memStore × Except Err String :=
  let sid := s.GetUserActiveSessionID gmUserID
  if sid = "" then (s, .error ErrNoActiveSession)
  else
    match s.GetPlaySessionByID sid with
    | .error _ => (s, .error ErrSessionNotFound)
    | .ok ps =>
      if ps.Status ≠ Active then (s, .error ErrSessionArchived)
      else if ps.OwnerID ≠ gmUserID then (s, .error ErrNotOwner)
      else
        match s.UpdatePlaySessionStatus sid Archived with
        | .error e => (s, .error (.store e))
        | .ok s1 => (s1.ClearActiveSessionForAll sid, .ok sid)

end Service

/-! ## Sequences of service calls -/

/-- One call of the session service, with the values it draws from its
environment. -/
inductive Op where
  | create (id : String) (now : Int) (ownerID : String) (dto : CreatePlaySessionDTO)
  | join (sessionID userID : String)
  | leave (userID : String)
  | sendMessage (id : String) (now : Int) (userID text : String)
  | mute (gmUserID targetUserID : String)
  | unmute (gmUserID targetUserID : String)
  | remove (gmUserID targetUserID : String)
  | endSession (gmUserID : String)
deriving DecidableEq, Repr

/-- The store after one call (its result dropped). -/
def step (s : memStore) : Op → memStore
  | .create id now o dto => (Service.Create s id now o dto).1
  | .join sid u => (Service.Join s sid u).1
  | .leave u => (Service.Leave s u).1
  | .sendMessage id now u t => (Service.SendMessage s id now u t).1
  | .mute g t => (Service.Mute s g t).1
  | .unmute g t => (Service.Unmute s g t).1
  | .remove g t => (Service.Remove s g t).1
  | .endSession g => (Service.End s g).1

/-- The store after a sequence of calls executed one at a time. -/
def run (s : memStore) (ops : List Op) : memStore :=
  ops.foldl step s

/-! ## Reading the tables

The lookups of the store, as functions of the one table each of them reads. -/

/-- The record `sessions[sid]`, if the key is present. -/
def sessionIn (l : List PlaySessionDB) (sid : String) : Option PlaySessionDB :=
  l.find? (fun x => x.ID = sid)

/-- The row `members[sid][uid]`, if present. -/
def memberIn (l : List PlaySessionMemberDB) (sid uid : String) : Option PlaySessionMemberDB :=
  l.find? (fun x => x.SessionID = sid ∧ x.UserID = uid)

/-- Whether `members[sid][uid]` is present. -/
def isMemberIn (l : List PlaySessionMemberDB) (sid uid : String) : Bool :=
  l.any (fun x => x.SessionID = sid ∧ x.UserID = uid)

/-- The number of rows of `members[sid]`. -/
def countIn (l : List PlaySessionMemberDB) (sid : String) : Int :=
  ((l.filter (fun x => x.SessionID = sid)).length : Int)

/-- Whether `bans[sid][uid]` is set. -/
def bannedIn (l : List (String × String)) (sid uid : String) : Bool :=
  l.any (fun b => b.1 = sid ∧ b.2 = uid)

/-- The value `activeByUser[uid]`, `""` when the key is missing. -/
def pointerIn (l : List (String × String)) (uid : String) : String :=
  match l.find? (fun e => e.1 = uid) with
  | some e => e.2
  | none => ""

/-- The row of `members` with the `muted` flag of `(sid, uid)` set. -/
def withMuted (sid uid : String) (muted : Bool) (x : PlaySessionMemberDB) :
    PlaySessionMemberDB :=
  if x.SessionID = sid ∧ x.UserID = uid then { x with Muted := muted } else x

/-- The record of `sessions` with the status of `sid` set. -/
def withStatus (sid status : String) (x : PlaySessionDB) : PlaySessionDB :=
  if x.ID = sid then { x with Status := status } else x

/-- Whether a call is admissible for the capacity invariant: a `Create` asks
for at least one seat. -/
def Op.hasSeat : Op → Bool
  | .create _ _ _ dto => decide (1 ≤ dto.Capacity)
  | _ => true

/-- The capacity invariant: an existing session has at most `Capacity`
member rows, a missing one has none. -/
def CapInv (s : memStore) : Prop :=
  ∀ sid, match sessionIn s.sessions sid with
    | some ps => countIn s.members sid ≤ ps.Capacity
    | none => countIn s.members sid = 0

/-! ## Concrete stores and call sequences -/

/-- A public table with two seats. -/
def dtoTwo : CreatePlaySessionDTO :=
  { Title := "Run", Ruleset := "dnd5e", Description := "", Capacity := 2,
    Visibility := VisibilityPublic, StartsAt := 0 }

/-- Create a table for two, then three joins. -/
def seatingOps : List Op :=
  [.create "S" 1 "gm" dtoTwo, .join "S" "p1", .join "S" "p2", .join "S" "p3"]

/-- Three registered users; `gm` has created the table `S` for two, `u` has
joined it, and `gm` has been seated at `S` (the tests do so with `setActive`). -/
def seatedStore : memStore :=
  (Service.Join
    (Service.Create (((newMem.addUser "gm").addUser "p1").addUser "u") "S" 1 "gm" dtoTwo).1
    "S" "u").1.setActive "gm" "S"

/-- From `seatedStore`: `gm` has removed `u`, and `p1` has taken the free seat. -/
def bannedFullStore : memStore :=
  (Service.Join (Service.Remove seatedStore "gm" "u").1 "S" "p1").1

/-- The invariant kept once `U` has been removed from `S`: the session
exists, `(S, U)` is on the ban list and `U` has no member row in `S`. -/
def BanInv (S U : String) (s : memStore) : Prop :=
  (sessionIn s.sessions S).isSome = true ∧ bannedIn s.bans S U = true ∧
    isMemberIn s.members S U = false

/-- After the removal of `u` from `S` in `seatedStore`: `u` tries again, `p1`
takes the seat, a `Create` by `u` draws the id `S` again, `u` tries once more. -/
def afterRemovalOps : List Op :=
  [.join "S" "u", .join "S" "p1", .create "S" 2 "u" dtoTwo, .join "S" "u"]

/-- The empty store after `Create` of a public table `S` for two by `gm`. -/
def createdStore : memStore := (Service.Create newMem "S" 1 "gm" dtoTwo).1

/-- The store `createdStore` after `Join(S, p1)`. -/
def joinedStore : memStore := (Service.Join createdStore "S" "p1").1

/-- A sequence of `SendMessage` calls `(id, now, userID, text)` executed one
at a time: the final store and the result of each call, in order. -/
def sendAll (s : memStore) :
    List (String × Int × String × String) → memStore × List (Except Err (String × Int × Int))
  | [] => (s, [])
  | c :: rest =>
    let r := Service.SendMessage s c.1 c.2.1 c.2.2.1 c.2.2.2
    let rr := sendAll r.1 rest
    (rr.1, r.2 :: rr.2)

/-- The `seq` values returned by the successful calls that went to session
`S`, in call order. -/
def seqsFor (S : String) (results : List (Except Err (String × Int × Int))) : List Int :=
  results.filterMap (fun r =>
    match r with
    | .ok (sid, seq, _) => if sid = S then some seq else none
    | .error _ => none)

/-- The list `c + 1, c + 2, ..., c + n` of sequence numbers. -/
def seqRange (c n : Nat) : List Int :=
  (List.range' (c + 1) n).map Int.ofNat

/-- Senders at `seatedStore`: `gm` and `u` are seated at `S`, `p1` is not. -/
def chatCalls : List (String × Int × String × String) :=
  [("m1", 5, "gm", "hi"), ("m2", 6, "p1", "knock"), ("m3", 7, "u", "yo"), ("m4", 8, "gm", "go")]

/-- The owner invariant: the owner of an existing session has a member row
there with role `Gm` and `muted = false`; a missing session has no member. -/
def OwnerInv (s : memStore) : Prop :=
  ∀ sid, match sessionIn s.sessions sid with
    | some ps => ∃ m, memberIn s.members sid ps.OwnerID = some m ∧ m.Role = Gm ∧ m.Muted = false
    | none => ∀ u, isMemberIn s.members sid u = false

/-- Two tables, joins, a leave, messages and the owner's attempts on
themselves. -/
def busyOps : List Op :=
  [.create "S" 1 "gm" dtoTwo, .join "S" "p1", .create "T" 2 "p1" dtoTwo, .join "T" "gm",
   .mute "gm" "gm", .remove "gm" "gm", .leave "gm", .sendMessage "m1" 3 "p1" "hi",
   .endSession "p1", .unmute "p1" "p1"]

/-- The store `seatedStore` after the player `u` has left the table `S`. -/
def leftStore : memStore := (Service.Leave seatedStore "u").1

/-- From `seatedStore`: `gm` has ended the table `S`, after which `gm` and
the player `u` have been seated at `S` again with `setActive`, so that two
pointers reference the ended session. -/
def stalePointerStore : memStore :=
  ((Service.End seatedStore "gm").1.setActive "gm" "S").setActive "u" "S"

/-- The pointer invariant: a non-empty active-session pointer names an
existing session whose status is Active. -/
def PtrInv (s : memStore) : Prop :=
  ∀ u, pointerIn s.activeByUser u ≠ "" →
    ∃ ps, sessionIn s.sessions (pointerIn s.activeByUser u) = some ps ∧ ps.Status = Active

/-- A table is created and joined, a second one is created by the player and
joined by the first owner, messages are sent and a player leaves. -/
def pointerOps : List Op :=
  [.create "S" 1 "gm" dtoTwo, .join "S" "p1", .create "T" 2 "p1" dtoTwo, .join "T" "gm",
   .sendMessage "m1" 3 "p1" "hi", .endSession "gm", .leave "p1", .join "T" "p2"]

/-- From `seatedStore`: `p1` has created a second table `T` and `p2` has
joined it, so that pointers reference two different sessions. -/
def twoTablesStore : memStore :=
  (Service.Join (Service.Create seatedStore "T" 2 "p1" dtoTwo).1 "T" "p2").1

/-- The store `seatedStore` after `Mute(gm, u)`. -/
def mutedStore : memStore := (Service.Mute seatedStore "gm" "u").1

/-- The store `seatedStore` after `gm` and `u` have sent three messages to
the table `S`. -/
def chatStore : memStore :=
  (sendAll seatedStore [("m1", 5, "gm", "hi"), ("m2", 6, "u", "yo"), ("m3", 7, "gm", "go")]).1

/-- A table whose visibility is neither `Public` nor `Private`:
`Service.Create` takes the visibility of the DTO as it comes. -/
def dtoHidden : CreatePlaySessionDTO :=
  { Title := "Run", Ruleset := "dnd5e", Description := "", Capacity := 2,
    Visibility := "Hidden", StartsAt := 0 }

/-- The empty store after `gm` has created the table `H` from `dtoHidden`. -/
def hiddenStore : memStore := (Service.Create newMem "H" 1 "gm" dtoHidden).1

/-- The store `seatedStore` after `End(gm)`: the table `S` is Archived, `gm`
and `u` still have their member rows. -/
def endedStore : memStore := (Service.End seatedStore "gm").1

/-- A private table with two seats. -/
def dtoPrivate : CreatePlaySessionDTO :=
  { Title := "Home", Ruleset := "custom", Description := "", Capacity := 2,
    Visibility := VisibilityPrivate, StartsAt := 0 }

/-- A call of the service, or a call of one of the helper methods with which
the tests prepare the store double: `addUser`, `setActive`, `ban`. -/
inductive StoreOp where
  | call (op : Op)
  | addUser (id : String)
  | setActive (userID sessionID : String)
  | ban (sessionID userID : String)
deriving DecidableEq, Repr

/-- The store after one call of the service or of a helper method. -/
def storeStep (s : memStore) : StoreOp → memStore
  | .call op => step s op
  | .addUser id => s.addUser id
  | .setActive u sid => s.setActive u sid
  | .ban sid u => s.ban sid u

/-- The store after a sequence of such calls. -/
def storeRun (s : memStore) (ops : List StoreOp) : memStore :=
  ops.foldl storeStep s

/-- The messages of every session are held in ascending `seq`, none above the
counter of the session. -/
def MsgInv (s : memStore) : Prop :=
  ∀ S, (s.msgsOf S).Pairwise (fun a b => a.SeqID < b.SeqID) ∧
    ∀ r ∈ s.msgsOf S, r.SeqID ≤ s.seqOf S

/-- No member row names a session that the store does not hold. -/
def NoOrphan (s : memStore) : Prop :=
  ∀ sid, sessionIn s.sessions sid = none → ∀ u, isMemberIn s.members sid u = false

/-- The store holds `S` as a Private session of `o`, and `o` is its only
member. -/
def PrivInv (S o : String) (s : memStore) : Prop :=
  ∃ ps, sessionIn s.sessions S = some ps ∧ ps.Visibility = VisibilityPrivate ∧
    ps.OwnerID = o ∧ ∀ u, isMemberIn s.members S u = true ↔ u = o

/-- Three registered users and no session. -/
def usersStore : memStore := ((newMem.addUser "gm").addUser "p1").addUser "u"

/-- In `usersStore`, `gm` has created the private table `P` and has been
seated at it (as the tests seat the owner, with `setActive`). -/
def privateStore : memStore :=
  (Service.Create usersStore "P" 1 "gm" dtoPrivate).1.setActive "gm" "P"

/-- The store `privateStore` after `End(gm)`. -/
def privateEndedStore : memStore := (Service.End privateStore "gm").1

/-- After the creation of `P`: `p1` and `gm` try to join, `gm` is seated by
hand, `gm` tries to leave, a public table is opened and joined, `p1` tries to
remove `gm`, and `gm` ends `P`. -/
def privateOps : List StoreOp :=
  [.call (.join "P" "p1"), .call (.join "P" "gm"), .setActive "gm" "P",
   .call (.leave "gm"), .call (.create "S" 2 "gm" dtoTwo), .call (.join "S" "p1"),
   .call (.remove "p1" "gm"), .ban "P" "u", .call (.endSession "gm")]

/-! ## pkg/security

The generated bytes are all ASCII, so a Go `[]byte` is a list of characters
and `len` of a charset is its number of characters. `crypto/rand.Reader` is a
sequence of reads, each of which fails or yields a number; `rand.Int(reader,
max)` takes the next read and brings it into `[0, max)`. -/

namespace security

def uppercaseLetters : String := "ACDEFGHJKMPQRTWXYZ"
def lowercaseLetters : String := "acdefghjkpqrtwxyz"
def digits : String := "23479"
/-- The two braces of the Go constant are written as escapes. -/
def specialChars : String := "!@#%^&*_+-=\x7b\x7d.,<>?"

/-- The local `allChars` of Go `GenerateSecureString`. -/
def allChars : String := uppercaseLetters ++ lowercaseLetters ++ digits ++ specialChars

/-- The characters `TestGenerateSecureStringNoAmbiguousCharacters` looks for. -/
def ambiguousChars : String := "0O1Il5Ss$6b8BNUVuvnm()[]|;:"

/-- The random source: `draws k` is the outcome of the read number `k`
(`none`: the read fails), `pos` counts the reads done so far. -/
structure Reader where
  draws : Nat → Option Nat
  pos : Nat

/-- Go `rand.Int(rand.Reader, max)` for `max > 0`. -/
def randInt (rd : Reader) (max : Nat) : Except String (Nat × Reader) :=
  match rd.draws rd.pos with
  | none => .error "read failed"
  | some v => .ok (v % max, { rd with pos := rd.pos + 1 })

/-- Go `getRandomChar`; indexing outside the string is a run-time panic. -/
def getRandomChar (rd : Reader) (chars : String) : Except String (Char × Reader) :=
  if chars.length = 0 then .error "source string is empty"
  else
    match randInt rd chars.length with
    | .error e => .error e
    | .ok (index, rd1) =>
      match chars.data[index]? with
      | none => .error "index out of range"
      | some c => .ok (c, rd1)

/-- The assignment `data[i], data[j] = data[j], data[i]`. -/
def swapBytes (data : List Char) (i j : Nat) : Except String (List Char) :=
  match data[i]?, data[j]? with
  | some di, some dj => .ok ((data.set i dj).set j di)
  | _, _ => .error "index out of range"

/-- The loop of Go `shuffleBytes` from index `i` down to 1. -/
def shuffleFrom (rd : Reader) : Nat → List Char → Except String (List Char × Reader)
  | 0, data => .ok (data, rd)
  | i + 1, data =>
    match randInt rd (i + 1 + 1) with
    | .error e => .error e
    | .ok (j, rd1) =>
      match swapBytes data (i + 1) j with
      | .error e => .error e
      | .ok data1 => shuffleFrom rd1 i data1

/-- Go `shuffleBytes`. -/
def shuffleBytes (rd : Reader) (data : List Char) : Except String (List Char × Reader) :=
  shuffleFrom rd (data.length - 1) data

/-- The loop `for i, category := range categories` of `GenerateSecureString`,
from index `i` on. -/
def fillCategories (rd : Reader) : List String → Nat → List Char →
    Except String (List Char × Reader)
  | [], _, result => .ok (result, rd)
  | category :: rest, i, result =>
    match getRandomChar rd category with
    | .error e => .error e
    | .ok (char, rd1) =>
      if i < result.length then fillCategories rd1 rest (i + 1) (result.set i char)
      else .error "index out of range"

/-- The loop `for i := 4; i < length; i++` of `GenerateSecureString`, from
index `i` on, with `fuel` rounds left. -/
def fillRest (rd : Reader) (length : Nat) : Nat → Nat → List Char →
    Except String (List Char × Reader)
  | 0, _, result => .ok (result, rd)
  | fuel + 1, i, result =>
    if i < length then
      match getRandomChar rd allChars with
      | .error e => .error e
      | .ok (char, rd1) =>
        if i < result.length then fillRest rd1 length fuel (i + 1) (result.set i char)
        else .error "index out of range"
    else .ok (result, rd)

/-- Go `GenerateSecureString`. -/
def GenerateSecureString (rd : Reader) (length : Int) : Except String String :=
  if length < 4 then .error "length has to be at least 4"
  else
    let result := List.replicate length.toNat (Char.ofNat 0)
    let categories := [uppercaseLetters, lowercaseLetters, digits, specialChars]
    match fillCategories rd categories 0 result with
    | .error e => .error e
    | .ok (result1, rd1) =>
      match fillRest rd1 length.toNat (length.toNat - 4) 4 result1 with
      | .error e => .error e
      | .ok (result2, rd2) =>
        match shuffleBytes rd2 result2 with
        | .error e => .error e
        | .ok (result3, _) => .ok (String.mk result3)

/-- The properties of the bytes `GenerateSecureString` keeps once they are all
written: each byte comes from `allChars`, and each category occurs. -/
def GoodBytes (data : List Char) : Prop :=
  (∀ c ∈ data, c ∈ allChars.data) ∧
  (∃ c ∈ data, c ∈ uppercaseLetters.data) ∧ (∃ c ∈ data, c ∈ lowercaseLetters.data) ∧
  (∃ c ∈ data, c ∈ digits.data) ∧ (∃ c ∈ data, c ∈ specialChars.data)

end security

/-- A random source whose read number `k` yields `7 * k + 3`. -/
def steadyDraws : Nat → Option Nat := fun k => some (7 * k + 3)

/-! ## The service over a store that can fail

`Service.Join` and `Service.Mute` above run on `memStore`, whose calls fail
only for a missing or duplicate record. Here the same two functions run on
any implementation of the calls of the Go interface `Storage` they make, each
of which may return an error. -/

/-- An error of a `Storage` call: `isNoRows` says whether
`errors.Is(err, sql.ErrNoRows)` holds, `msg` is its text. -/
structure StorageErr where
  isNoRows : Bool
  msg : String
deriving DecidableEq, Repr

/-- The calls of the Go interface `Storage` that `Join` and `Mute` make, on a
store with states `σ`; a failing call leaves the state as it is. -/
structure Storage (σ : Type) where
  GetPlaySessionByID : σ → String → Except StorageErr PlaySessionDB
  IsPlaySessionMember : σ → String → String → Except StorageErr Bool
  CountPlaySessionMembers : σ → String → Except StorageErr Int
  IsBannedFromSession : σ → String → String → Except StorageErr Bool
  AddPlaySessionMember : σ → PlaySessionMemberDB → Except StorageErr σ
  SetUserActiveSession : σ → String → String → Except StorageErr σ
  GetUserActiveSessionID : σ → String → Except StorageErr String
  GetUserByID : σ → String → Except StorageErr User
  GetPlaySessionMember : σ → String → String → Except StorageErr PlaySessionMemberDB
  SetMemberMuted : σ → String → String → Bool → Except StorageErr σ

namespace ServiceOn

/-- Go `Service.Join` with every error branch; `return err` hands the error of
the store up, and the result of `SetUserActiveSession` is dropped (`_ =`). -/
def Join {σ : Type} (st : Storage σ) (s : σ) (sessionID userID : String) : σ × Except Err Unit :=
  match st.GetPlaySessionByID s sessionID with
  | .error _ => (s, .error ErrSessionNotFound)
  | .ok ps =>
    if ps.Status ≠ Active then (s, .error ErrSessionArchived)
    else if ps.Visibility = VisibilityPrivate ∧ ps.OwnerID ≠ userID then
      (s, .error ErrForbiddenJoin)
    else
      match st.IsPlaySessionMember s sessionID userID with
      | .error e => (s, .error (.store e.msg))
      | .ok isMember =>
        if isMember then (s, .error ErrAlreadyMember)
        else
          match st.CountPlaySessionMembers s sessionID with
          | .error e => (s, .error (.store e.msg))
          | .ok count =>
            if count ≥ ps.Capacity then (s, .error ErrCapacityExceeded)
            else
              match st.IsBannedFromSession s sessionID userID with
              | .error e => (s, .error (.store e.msg))
              | .ok banned =>
                if banned then (s, .error ErrForbiddenJoin)
                else
                  match st.AddPlaySessionMember s
                      { SessionID := sessionID, UserID := userID, Role := Player,
                        Muted := false } with
                  | .error e => (s, .error (.store e.msg))
                  | .ok s1 =>
                    match st.SetUserActiveSession s1 userID sessionID with
                    | .error _ => (s1, .ok ())
                    | .ok s2 => (s2, .ok ())

/-- Go `Service.Mute` with every error branch. -/
def Mute {σ : Type} (st : Storage σ) (s : σ) (gmUserID targetUserID : String) : σ × Except Err String :=
  match st.GetUserActiveSessionID s gmUserID with
  | .error e => (s, .error (.store e.msg))
  | .ok sid =>
    if sid = "" then (s, .error ErrNoActiveSession)
    else
      match st.GetPlaySessionByID s sid with
      | .error _ => (s, .error ErrSessionNotFound)
      | .ok ps =>
        if ps.OwnerID ≠ gmUserID then (s, .error ErrNotOwner)
        else
          match st.GetUserByID s targetUserID with
          | .error _ => (s, .error ErrPlayerNotFound)
          | .ok _ =>
            match st.GetPlaySessionMember s sid targetUserID with
            | .error e =>
              if e.isNoRows then (s, .error ErrPlayerNotInSession)
              else (s, .error (.store e.msg))
            | .ok m =>
              if m.Role ≠ Player then (s, .error ErrPlayerNotInSession)
              else
                match st.SetMemberMuted s sid targetUserID true with
                | .error e => (s, .error (.store e.msg))
                | .ok s1 => (s1, .ok sid)

end ServiceOn

/-- An error of `memStore` other than `sql.ErrNoRows`. -/
def plainErr (msg : String) : StorageErr := { isNoRows := false, msg := msg }

/-- Lift a result of `memStore` to a result of a `Storage` call. -/
def liftStore {α : Type} (r : Except String α) : Except StorageErr α :=
  match r with
  | .error e => .error (plainErr e)
  | .ok a => .ok a

/-- The test double `memStore` as an implementation of `Storage`. -/
def memStorage : Storage memStore where
  GetPlaySessionByID := fun m id => liftStore (m.GetPlaySessionByID id)
  IsPlaySessionMember := fun m sid uid => .ok (m.IsPlaySessionMember sid uid)
  CountPlaySessionMembers := fun m sid => .ok (m.CountPlaySessionMembers sid)
  IsBannedFromSession := fun m sid uid => .ok (m.IsBannedFromSession sid uid)
  AddPlaySessionMember := fun m mb => liftStore (m.AddPlaySessionMember mb)
  SetUserActiveSession := fun m uid sid => .ok (m.SetUserActiveSession uid sid)
  GetUserActiveSessionID := fun m uid => .ok (m.GetUserActiveSessionID uid)
  GetUserByID := fun m id => liftStore (m.GetUserByID id)
  GetPlaySessionMember := fun m sid uid =>
    match m.GetPlaySessionMember sid uid with
    | none => .error { isNoRows := true, msg := "sql: no rows in result set" }
    | some mb => .ok mb
  SetMemberMuted := fun m sid uid muted => liftStore (m.SetMemberMuted sid uid muted)

/-- The error of a database that cannot be reached. -/
def connRefused : StorageErr := plainErr "dial tcp: connection refused"

/-- The store `memStore` behind a connection that fails on every read of the
session table. -/
def sessionsDown : Storage memStore :=
  { memStorage with GetPlaySessionByID := fun _ _ => .error connRefused }

/-- The store `memStore` behind a connection that fails on every read of the
user table. -/
def usersDown : Storage memStore :=
  { memStorage with GetUserByID := fun _ _ => .error connRefused }

/-! ## Concurrent calls of Join

Every method of `memStore` holds the mutex of the store for its whole body, so
a store call is one indivisible step; between two store calls of one `Join`
the calls of other goroutines may run. A running `Join` is its arguments, the
store call it makes next and the session record it has read. -/

/-- The store call a running `Service.Join` makes next; `returned r` once it
has returned `r`. -/
inductive JoinPc where
  | getSession
  | isMember (ps : PlaySessionDB)
  | countMembers (ps : PlaySessionDB)
  | isBanned
  | addMember
  | setActive
  | returned (r : Except Err Unit)

/-- A running call `Join(sessionID, userID)`. -/
structure JoinCall where
  sessionID : String
  userID : String
  pc : JoinPc

/-- The call `Join(sessionID, userID)` before its first store call. -/
def JoinCall.start (sessionID userID : String) : JoinCall :=
  { sessionID := sessionID, userID := userID, pc := .getSession }

/-- One store call of a running Go `Service.Join`, with the tests that follow
it up to the next store call or the return. -/
def JoinCall.step (s : memStore) (c : JoinCall) : memStore × JoinCall :=
  match c.pc with
  | .getSession =>
    match s.GetPlaySessionByID c.sessionID with
    | .error _ => (s, { c with pc := .returned (.error ErrSessionNotFound) })
    | .ok ps =>
      if ps.Status ≠ Active then (s, { c with pc := .returned (.error ErrSessionArchived) })
      else if ps.Visibility = VisibilityPrivate ∧ ps.OwnerID ≠ c.userID then
        (s, { c with pc := .returned (.error ErrForbiddenJoin) })
      else (s, { c with pc := .isMember ps })
  | .isMember ps =>
    if s.IsPlaySessionMember c.sessionID c.userID then
      (s, { c with pc := .returned (.error ErrAlreadyMember) })
    else (s, { c with pc := .countMembers ps })
  | .countMembers ps =>
    if s.CountPlaySessionMembers c.sessionID ≥ ps.Capacity then
      (s, { c with pc := .returned (.error ErrCapacityExceeded) })
    else (s, { c with pc := .isBanned })
  | .isBanned =>
    if s.IsBannedFromSession c.sessionID c.userID then
      (s, { c with pc := .returned (.error ErrForbiddenJoin) })
    else (s, { c with pc := .addMember })
  | .addMember =>
    match s.AddPlaySessionMember
        { SessionID := c.sessionID, UserID := c.userID, Role := Player, Muted := false } with
    | .error e => (s, { c with pc := .returned (.error (.store e)) })
    | .ok s1 => (s1, { c with pc := .setActive })
  | .setActive =>
    (s.SetUserActiveSession c.userID c.sessionID, { c with pc := .returned (.ok ()) })
  | .returned _ => (s, c)

/-- What the call has returned, if it has. -/
def JoinCall.result (c : JoinCall) : Option (Except Err Unit) :=
  match c.pc with
  | .returned r => some r
  | _ => none

/-- A call running alone for `n` store calls. -/
def JoinCall.steps (s : memStore) (c : JoinCall) : Nat → memStore × JoinCall
  | 0 => (s, c)
  | n + 1 => JoinCall.steps (JoinCall.step s c).1 (JoinCall.step s c).2 n

/-- Several running calls under a schedule: each entry of the schedule names
the call that makes its next store call (an entry naming no call is idle). -/
def runSchedule (s : memStore) (calls : List JoinCall) : List Nat → memStore × List JoinCall
  | [] => (s, calls)
  | i :: rest =>
    match calls[i]? with
    | none => runSchedule s calls rest
    | some c => runSchedule (JoinCall.step s c).1 (calls.set i (JoinCall.step s c).2) rest

/-- The players `p1` and `p2` join the table `S` at the same time. -/
def twoJoins : List JoinCall := [JoinCall.start "S" "p1", JoinCall.start "S" "p2"]

/-- The two calls take turns after every store call. -/
def turnsSchedule : List Nat := [0, 1, 0, 1, 0, 1, 0, 1, 0, 1, 0, 1]

/-- The first call runs to its end before the second starts. -/
def serialSchedule : List Nat := [0, 0, 0, 0, 0, 0, 1, 1, 1, 1, 1, 1]

/-! ## internal/ws

The objects of package `ws` live at addresses: a `*Client` and a `*Room` are
numbers, and the state holds the client and room objects by address together
with the map `rooms` of the one `Hub`. A buffered channel is the list of the
values it holds, its capacity and whether it has been closed. The key set of
the map `clients` of a room is a list without repetition, whose order stands
for the order in which `range` visits the keys. A run-time panic (nil pointer,
send on or close of a closed channel) is an error result. A goroutine started
with `go c.Close()` is handed back to the caller as a pending task. -/

namespace ws

/-- Go `Client`: `conn` is kept as whether the socket has been closed, `Send`
as the queued payloads with the capacity and the closed flag of the channel. -/
structure Client where
  connClosed : Bool
  room : Nat
  uid : String
  Send : List String
  sendCap : Nat
  sendClosed : Bool
deriving DecidableEq, Repr

/-- Go `Room`: its id and the keys of its map `clients`. -/
structure Room where
  id : String
  clients : List Nat
deriving DecidableEq, Repr

/-- The client objects, the room objects, the map `Hub.rooms`, and the next
free address. -/
structure State where
  clients : Nat → Option Client
  rooms : Nat → Option Room
  hub : String → Option Nat
  next : Nat

/-- Go `NewHub`: no object yet; address 0 is the nil pointer. -/
def NewHub : State :=
  { clients := fun _ => none, rooms := fun _ => none, hub := fun _ => none, next := 1 }

/-- Write the client object at address `c`. -/
def State.setClient (w : State) (c : Nat) (cl : Client) : State :=
  { w with clients := fun p => if p = c then some cl else w.clients p }

/-- Write the room object at address `r`. -/
def State.setRoom (w : State) (r : Nat) (room : Room) : State :=
  { w with rooms := fun p => if p = r then some room else w.rooms p }

/-- Go `Hub.EnsureRoom`: the registered room, or a new one at a fresh address. -/
def Hub.EnsureRoom (w : State) (id : String) : State × Nat :=
  match w.hub id with
  | some r => (w, r)
  | none =>
    ({ (w.setRoom w.next { id := id, clients := [] }) with
        hub := fun k => if k = id then some w.next else w.hub k,
        next := w.next + 1 }, w.next)

/-- Go `NewClient` for an open socket: a new client object with an empty
channel of capacity 64. -/
def NewClient (w : State) (room : Nat) (userID : String) : State × Nat :=
  ({ (w.setClient w.next
        { connClosed := false, room := room, uid := userID, Send := [], sendCap := 64,
          sendClosed := false }) with next := w.next + 1 }, w.next)

/-- Go `Room.Add`: `r.clients[c] = struct{}{}`. -/
def Room.Add (w : State) (r c : Nat) : Except String State :=
  match w.rooms r with
  | none => .error "nil pointer dereference"
  | some room =>
    .ok (w.setRoom r { room with
      clients := if c ∈ room.clients then room.clients else room.clients ++ [c] })

/-- Go `Room.Remove`: `delete(r.clients, c)`. -/
def Room.Remove (w : State) (r c : Nat) : Except String State :=
  match w.rooms r with
  | none => .error "nil pointer dereference"
  | some room => .ok (w.setRoom r { room with clients := room.clients.filter (fun p => p ≠ c) })

/-- Go `Client.Close`: close the socket (the error of a second close is
dropped), leave the room, close the channel `Send`. -/
def Client.Close (w : State) (c : Nat) : Except String State :=
  match w.clients c with
  | none => .error "nil pointer dereference"
  | some cl =>
    match Room.Remove (w.setClient c { cl with connClosed := true }) cl.room c with
    | .error e => .error e
    | .ok w1 =>
      if cl.sendClosed then .error "close of closed channel"
      else .ok (w1.setClient c { cl with connClosed := true, sendClosed := true })

/-- The loop of Go `Room.Broadcast` over the clients still to visit:
`select { case c.Send <- msg: default: go c.Close() }`. The send goes through
when the channel holds fewer values than its capacity. -/
def Room.broadcastLoop (msg : String) : List Nat → State → List Nat →
    Except String (State × List Nat)
  | [], w, spawned => .ok (w, spawned)
  | c :: rest, w, spawned =>
    match w.clients c with
    | none => .error "nil pointer dereference"
    | some cl =>
      if cl.sendClosed then .error "send on closed channel"
      else if cl.Send.length < cl.sendCap then
        Room.broadcastLoop msg rest (w.setClient c { cl with Send := cl.Send ++ [msg] }) spawned
      else Room.broadcastLoop msg rest w (spawned ++ [c])

/-- Go `Room.Broadcast`: the new state and the clients for which
`go c.Close()` has been started. -/
def Room.Broadcast (w : State) (r : Nat) (msg : String) : Except String (State × List Nat) :=
  match w.rooms r with
  | none => .error "nil pointer dereference"
  | some room => Room.broadcastLoop msg room.clients w []

/-- Call `c.Close()` for each client of the list in turn: the loop of
`Hub.CloseRoom`, and the goroutines started by `Room.Broadcast` once they run. -/
def closeEach : List Nat → State → Except String State
  | [], w => .ok w
  | c :: rest, w =>
    match Client.Close w c with
    | .error e => .error e
    | .ok w1 => closeEach rest w1

/-- Go `Hub.CloseRoom`. -/
def Hub.CloseRoom (w : State) (id : String) : Except String State :=
  match w.hub id with
  | none => .ok w
  | some r =>
    match w.rooms r with
    | none => .error "nil pointer dereference"
    | some room =>
      match closeEach room.clients w with
      | .error e => .error e
      | .ok w1 => .ok { w1 with hub := fun k => if k = id then none else w1.hub k }

/-- Go `Hub.Broadcast`. -/
def Hub.Broadcast (w : State) (roomID payload : String) : Except String (State × List Nat) :=
  match w.hub roomID with
  | none => .ok (w, [])
  | some r => Room.Broadcast w r payload

/-- What `playSessionWSHandler` does with an upgraded socket:
`EnsureRoom`, `NewClient`, `room.Add(client)`. -/
def connect (w : State) (roomID userID : String) : Except String (State × Nat) :=
  let (w1, r) := Hub.EnsureRoom w roomID
  let (w2, c) := NewClient w1 r userID
  match Room.Add w2 r c with
  | .error e => .error e
  | .ok w3 => .ok (w3, c)

/-- The room at address `r` exists, its client list has no repetition, and
each of its clients is a client object of this room whose channel `Send` has
not been closed. -/
def LiveRoom (w : State) (r : Nat) : Prop :=
  ∃ room, w.rooms r = some room ∧ room.clients.Nodup ∧
    ∀ c ∈ room.clients, ∃ cl, w.clients c = some cl ∧ cl.room = r ∧ cl.sendClosed = false

/-- The clients of the room at address `r` (none if there is no such room). -/
def State.subscribers (w : State) (r : Nat) : List Nat :=
  match w.rooms r with
  | some room => room.clients
  | none => []

/-- The channel `Send` of the client at address `c` holds as many values as
its capacity allows. -/
def State.isFull (w : State) (c : Nat) : Bool :=
  match w.clients c with
  | some cl => decide (cl.sendCap ≤ cl.Send.length)
  | none => false

/-- The client object after `Close`. -/
def Client.closed (cl : Client) : Client :=
  { cl with connClosed := true, sendClosed := true }

/-- The client object after a payload has gone into its channel. -/
def Client.queued (cl : Client) (msg : String) : Client :=
  { cl with Send := cl.Send ++ [msg] }

end ws

/-- Three sockets have been accepted: `gm` and `u` at the room `ps:1`, `x` at
the room `ps:2`. The room objects are at the addresses 1 and 4, the clients at
2, 3 and 5. -/
def lobby : ws.State :=
  match ws.connect ws.NewHub "ps:1" "gm" with
  | .error _ => ws.NewHub
  | .ok (w1, _) =>
    match ws.connect w1 "ps:1" "u" with
    | .error _ => ws.NewHub
    | .ok (w2, _) =>
      match ws.connect w2 "ps:2" "x" with
      | .error _ => ws.NewHub
      | .ok (w3, _) => w3

/-- The state `lobby` in which the client `u` has not read its channel for a
while: all 64 places are taken. -/
def slowLobby : ws.State :=
  lobby.setClient 3
    { connClosed := false, room := 1, uid := "u", Send := List.replicate 64 "tick",
      sendCap := 64, sendClosed := false }

/-- The state given, or `d` after a panic. -/
def stateOf (r : Except String ws.State) (d : ws.State) : ws.State :=
  match r with
  | .ok w => w
  | .error _ => d

/-- The state `lobby` after `Close` of the client `gm`. -/
def gmClosed : ws.State := stateOf (ws.Client.Close lobby 2) lobby

/-- The state `lobby` after `CloseRoom("ps:1")`. -/
def roomClosed : ws.State := stateOf (ws.Hub.CloseRoom lobby "ps:1") lobby

namespace ws

/-- What holds of every state built from `NewHub` by the calls of this
package: every object lies below the next free address, every room object is
live, and the registry names room objects. -/
def HubInv (w : State) : Prop :=
  (∀ c cl, w.clients c = some cl → c < w.next) ∧
  (∀ r room, w.rooms r = some room → r < w.next) ∧
  (∀ r room, w.rooms r = some room → LiveRoom w r) ∧
  (∀ k r, w.hub k = some r → ∃ room, w.rooms r = some room)

/-- The calls made on the hub and its clients: a socket is accepted, a
payload is broadcast (and the goroutines the broadcast starts run), a room is
closed, a pump of a client returns and runs its deferred `Close`. -/
inductive HubOp where
  | connect (roomID userID : String)
  | broadcast (roomID payload : String)
  | closeRoom (roomID : String)
  | close (c : Nat)

/-- One call on the hub; an error is a panic. -/
def hubStep (w : State) : HubOp → Except String State
  | .connect roomID userID =>
    match connect w roomID userID with
    | .error e => .error e
    | .ok (w1, _) => .ok w1
  | .broadcast roomID payload =>
    match Hub.Broadcast w roomID payload with
    | .error e => .error e
    | .ok (w1, spawned) => closeEach spawned w1
  | .closeRoom roomID => Hub.CloseRoom w roomID
  | .close c => Client.Close w c

/-- A sequence of calls on the hub, stopping at the first panic. -/
def hubRun (w : State) : List HubOp → Except String State
  | [] => .ok w
  | op :: rest =>
    match hubStep w op with
    | .error e => .error e
    | .ok w1 => hubRun w1 rest

end ws

/-! ## The lookups in terms of the tables -/

theorem GetPlaySessionByID_view (s : memStore) (sid : String) :
    s.GetPlaySessionByID sid =
      match sessionIn s.sessions sid with
      | some ps => .ok ps
      | none => .error "not found" := rfl

theorem IsPlaySessionMember_view (s : memStore) (sid uid : String) :
    s.IsPlaySessionMember sid uid = isMemberIn s.members sid uid := rfl

theorem CountPlaySessionMembers_view (s : memStore) (sid : String) :
    s.CountPlaySessionMembers sid = countIn s.members sid := rfl

theorem GetPlaySessionMember_view (s : memStore) (sid uid : String) :
    s.GetPlaySessionMember sid uid =
      match memberIn s.members sid uid with
      | some mb => some { SessionID := sid, UserID := uid, Role := mb.Role, Muted := mb.Muted }
      | none => none := rfl

theorem IsMemberMuted_view (s : memStore) (sid uid : String) :
    s.IsMemberMuted sid uid =
      match memberIn s.members sid uid with
      | some mb => mb.Muted
      | none => false := rfl

theorem IsBannedFromSession_view (s : memStore) (sid uid : String) :
    s.IsBannedFromSession sid uid = bannedIn s.bans sid uid := rfl

theorem GetUserActiveSessionID_view (s : memStore) (uid : String) :
    s.GetUserActiveSessionID uid = pointerIn s.activeByUser uid := rfl

theorem any_session_view (l : List PlaySessionDB) (sid : String) :
    l.any (fun x => x.ID = sid) = (sessionIn l sid).isSome := by
  unfold sessionIn
  induction l with
  | nil => rfl
  | cons a t ih =>
    by_cases h : a.ID = sid
    · simp [List.find?_cons, h]
    · simp [List.find?_cons, h, ih]

/-! ## The tables under the updates of the store -/

theorem sessionIn_append_one (l : List PlaySessionDB) (r : PlaySessionDB) (sid : String) :
    sessionIn (l ++ [r]) sid =
      match sessionIn l sid with
      | some ps => some ps
      | none => if r.ID = sid then some r else none := by
  unfold sessionIn
  rw [List.find?_append]
  cases l.find? (fun x => x.ID = sid) with
  | some ps => rfl
  | none => by_cases h : r.ID = sid <;> simp [h]

theorem withStatus_ID (sid status : String) (x : PlaySessionDB) :
    (withStatus sid status x).ID = x.ID := by
  unfold withStatus; split <;> rfl

theorem sessionIn_map_withStatus (l : List PlaySessionDB) (sid status sid' : String) :
    sessionIn (l.map (withStatus sid status)) sid' =
      (sessionIn l sid').map (withStatus sid status) := by
  unfold sessionIn
  rw [List.find?_map]
  congr 2
  funext x
  simp [withStatus_ID]

theorem isMemberIn_append_one (l : List PlaySessionMemberDB) (r : PlaySessionMemberDB)
    (sid uid : String) :
    isMemberIn (l ++ [r]) sid uid =
      (isMemberIn l sid uid || decide (r.SessionID = sid ∧ r.UserID = uid)) := by
  simp [isMemberIn]

theorem isMemberIn_delete (l : List PlaySessionMemberDB) (sid uid sid' uid' : String) :
    isMemberIn (l.filter (fun x => ¬ (x.SessionID = sid ∧ x.UserID = uid))) sid' uid' =
      (isMemberIn l sid' uid' && !decide (sid' = sid ∧ uid' = uid)) := by
  rw [Bool.eq_iff_iff]
  simp only [isMemberIn, List.any_eq_true, List.mem_filter, Bool.and_eq_true,
    Bool.not_eq_true', decide_eq_true_eq, decide_eq_false_iff_not]
  constructor
  · rintro ⟨x, ⟨hx, hq⟩, h1, h2⟩
    refine ⟨⟨x, hx, h1, h2⟩, ?_⟩
    rintro ⟨e1, e2⟩
    exact hq ⟨h1.trans e1, h2.trans e2⟩
  · rintro ⟨⟨x, hx, h1, h2⟩, hne⟩
    refine ⟨x, ⟨hx, ?_⟩, h1, h2⟩
    rintro ⟨e1, e2⟩
    exact hne ⟨h1.symm.trans e1, h2.symm.trans e2⟩

theorem withMuted_SessionID (sid uid : String) (b : Bool) (x : PlaySessionMemberDB) :
    (withMuted sid uid b x).SessionID = x.SessionID := by
  unfold withMuted; split <;> rfl

theorem withMuted_UserID (sid uid : String) (b : Bool) (x : PlaySessionMemberDB) :
    (withMuted sid uid b x).UserID = x.UserID := by
  unfold withMuted; split <;> rfl

theorem withMuted_Role (sid uid : String) (b : Bool) (x : PlaySessionMemberDB) :
    (withMuted sid uid b x).Role = x.Role := by
  unfold withMuted; split <;> rfl

theorem isMemberIn_map_withMuted (l : List PlaySessionMemberDB) (sid uid : String) (b : Bool)
    (sid' uid' : String) :
    isMemberIn (l.map (withMuted sid uid b)) sid' uid' = isMemberIn l sid' uid' := by
  unfold isMemberIn
  rw [List.any_map]
  congr 1
  funext x
  simp [withMuted_SessionID, withMuted_UserID]

theorem countIn_append_one (l : List PlaySessionMemberDB) (r : PlaySessionMemberDB)
    (sid : String) :
    countIn (l ++ [r]) sid = countIn l sid + (if r.SessionID = sid then 1 else 0) := by
  unfold countIn
  by_cases h : r.SessionID = sid <;> simp [List.filter_append, List.filter_cons, h]

theorem countIn_delete_le (l : List PlaySessionMemberDB) (sid uid sid' : String) :
    countIn (l.filter (fun x => ¬ (x.SessionID = sid ∧ x.UserID = uid))) sid' ≤ countIn l sid' := by
  unfold countIn
  have h := ((@List.filter_sublist _ (fun x => decide ¬(x.SessionID = sid ∧ x.UserID = uid))
    l).filter (fun x => decide (x.SessionID = sid'))).length_le
  exact_mod_cast h

theorem countIn_map_withMuted (l : List PlaySessionMemberDB) (sid uid : String) (b : Bool)
    (sid' : String) :
    countIn (l.map (withMuted sid uid b)) sid' = countIn l sid' := by
  unfold countIn
  rw [List.filter_map, List.length_map]
  congr 3
  funext x
  simp [withMuted_SessionID]

theorem countIn_nonneg (l : List PlaySessionMemberDB) (sid : String) : 0 ≤ countIn l sid := by
  unfold countIn; exact Int.natCast_nonneg _

theorem isMemberIn_false_of_count_zero (l : List PlaySessionMemberDB) (sid uid : String)
    (h : countIn l sid = 0) : isMemberIn l sid uid = false := by
  unfold countIn at h
  have h0 : (l.filter (fun x => decide (x.SessionID = sid))).length = 0 := by exact_mod_cast h
  have h1 : l.filter (fun x => decide (x.SessionID = sid)) = [] := List.length_eq_zero.mp h0
  rw [List.filter_eq_nil_iff] at h1
  unfold isMemberIn
  rw [List.any_eq_false]
  intro x hx hc
  have := h1 x hx
  simp at hc this
  exact this hc.1

theorem find?_ext {α : Type} (f g : α → Bool) (l : List α)
    (h : ∀ x ∈ l, f x = g x) : l.find? f = l.find? g := by
  induction l with
  | nil => rfl
  | cons a t ih =>
    rw [List.find?_cons, List.find?_cons, h a (List.mem_cons_self _ _),
      ih (fun x hx => h x (List.mem_cons_of_mem _ hx))]

theorem find?_filter_none {α : Type} (p q : α → Bool) (l : List α)
    (h : ∀ x ∈ l, p x = true → q x = false) : (l.filter q).find? p = none := by
  rw [List.find?_eq_none]
  intro x hx hp
  rw [List.mem_filter] at hx
  have := h x hx.1 hp
  rw [hx.2] at this
  exact Bool.noConfusion this

theorem find?_filter_same {α : Type} (p q : α → Bool) (l : List α)
    (h : ∀ x ∈ l, p x = true → q x = true) : (l.filter q).find? p = l.find? p := by
  induction l with
  | nil => rfl
  | cons a t ih =>
    have ht : ∀ x ∈ t, p x = true → q x = true := fun x hx => h x (List.mem_cons_of_mem _ hx)
    cases hq : q a with
    | true => rw [List.filter_cons_of_pos hq, List.find?_cons, List.find?_cons, ih ht]
    | false =>
      have hp : p a = false := by
        cases hpa : p a with
        | false => rfl
        | true => rw [h a (List.mem_cons_self _ _) hpa] at hq; exact Bool.noConfusion hq
      rw [List.filter_cons_of_neg (by simp [hq]), List.find?_cons, hp, ih ht]

theorem isMemberIn_eq_isSome (l : List PlaySessionMemberDB) (sid uid : String) :
    isMemberIn l sid uid = (memberIn l sid uid).isSome := by
  unfold isMemberIn memberIn
  induction l with
  | nil => rfl
  | cons a t ih =>
    by_cases h : a.SessionID = sid ∧ a.UserID = uid
    · simp [List.find?_cons, h]
    · have h' : decide (a.SessionID = sid ∧ a.UserID = uid) = false := by simpa using h
      rw [List.any_cons, List.find?_cons, h', ih]
      rfl

theorem memberIn_keys (l : List PlaySessionMemberDB) (sid uid : String)
    (m : PlaySessionMemberDB) (h : memberIn l sid uid = some m) :
    m ∈ l ∧ m.SessionID = sid ∧ m.UserID = uid := by
  unfold memberIn at h
  have h1 := List.find?_some h
  have h2 := List.mem_of_find?_eq_some h
  simp at h1
  exact ⟨h2, h1⟩

theorem memberIn_append_one (l : List PlaySessionMemberDB) (r : PlaySessionMemberDB)
    (sid uid : String) :
    memberIn (l ++ [r]) sid uid =
      match memberIn l sid uid with
      | some m => some m
      | none => if r.SessionID = sid ∧ r.UserID = uid then some r else none := by
  unfold memberIn
  rw [List.find?_append]
  cases l.find? (fun x => decide (x.SessionID = sid ∧ x.UserID = uid)) with
  | some m => rfl
  | none => by_cases h : r.SessionID = sid ∧ r.UserID = uid <;> simp [h]

theorem memberIn_delete (l : List PlaySessionMemberDB) (sid uid sid' uid' : String) :
    memberIn (l.filter (fun x => ¬ (x.SessionID = sid ∧ x.UserID = uid))) sid' uid' =
      if sid' = sid ∧ uid' = uid then none else memberIn l sid' uid' := by
  unfold memberIn
  by_cases h : sid' = sid ∧ uid' = uid
  · rw [if_pos h]
    apply find?_filter_none
    intro x _ hx
    simp only [decide_eq_true_eq] at hx
    have : x.SessionID = sid ∧ x.UserID = uid := ⟨hx.1.trans h.1, hx.2.trans h.2⟩
    simp [this]
  · rw [if_neg h]
    apply find?_filter_same
    intro x _ hx
    simp only [decide_eq_true_eq] at hx
    have : ¬ (x.SessionID = sid ∧ x.UserID = uid) := by
      rintro ⟨e1, e2⟩; exact h ⟨hx.1.symm.trans e1, hx.2.symm.trans e2⟩
    exact decide_eq_true this

theorem memberIn_map_withMuted (l : List PlaySessionMemberDB) (sid uid : String) (b : Bool)
    (sid' uid' : String) :
    memberIn (l.map (withMuted sid uid b)) sid' uid' =
      (memberIn l sid' uid').map (withMuted sid uid b) := by
  unfold memberIn
  rw [List.find?_map]
  congr 2
  funext x
  simp [withMuted_SessionID, withMuted_UserID]

theorem bannedIn_append_one (l : List (String × String)) (sid uid sid' uid' : String) :
    bannedIn (l ++ [(sid, uid)]) sid' uid' =
      (bannedIn l sid' uid' || decide (sid = sid' ∧ uid = uid')) := by
  simp [bannedIn]

theorem pointerIn_erase (l : List (String × String)) (u u' : String) :
    pointerIn (l.filter (fun e => e.1 ≠ u)) u' = if u' = u then "" else pointerIn l u' := by
  unfold pointerIn
  by_cases h : u' = u
  · rw [if_pos h, find?_filter_none]
    intro x _ hx
    simp only [decide_eq_true_eq] at hx
    simp [hx.trans h]
  · rw [if_neg h, find?_filter_same]
    intro x _ hx
    simp only [decide_eq_true_eq] at hx
    have : x.1 ≠ u := fun e => h (hx.symm.trans e)
    simpa using this

theorem pointerIn_set (l : List (String × String)) (u sid u' : String) :
    pointerIn (l.filter (fun e => e.1 ≠ u) ++ [(u, sid)]) u' =
      if u' = u then sid else pointerIn l u' := by
  have h0 := pointerIn_erase l u u'
  unfold pointerIn at h0 ⊢
  rw [List.find?_append]
  by_cases h : u' = u
  · rw [if_pos h] at h0
    rw [if_pos h]
    have : (l.filter (fun e => decide (e.1 ≠ u))).find? (fun e => decide (e.1 = u')) = none := by
      rw [List.find?_eq_none]
      intro x hx hx'
      simp at hx hx'
      exact hx.2 (hx'.trans h)
    rw [this]
    simp [h]
  · rw [if_neg h] at h0
    rw [if_neg h, ← h0]
    cases (l.filter (fun e => decide (e.1 ≠ u))).find? (fun e => decide (e.1 = u')) with
    | some e => rfl
    | none =>
      have : ¬ u = u' := fun e => h e.symm
      simp [this]

theorem pointerIn_clearAll (l : List (String × String)) (sid u : String) :
    pointerIn (l.filter (fun e => pointerIn l e.1 ≠ sid)) u =
      if pointerIn l u = sid then "" else pointerIn l u := by
  by_cases h : pointerIn l u = sid
  · rw [if_pos h]
    show (match (l.filter (fun e => decide (pointerIn l e.1 ≠ sid))).find?
      (fun e => decide (e.1 = u)) with
      | some e => e.2
      | none => "") = ""
    rw [find?_filter_none]
    intro x _ hx
    simp only [decide_eq_true_eq] at hx
    simp [hx, h]
  · rw [if_neg h]
    show (match (l.filter (fun e => decide (pointerIn l e.1 ≠ sid))).find?
      (fun e => decide (e.1 = u)) with
      | some e => e.2
      | none => "") = pointerIn l u
    rw [find?_filter_same]
    · rfl
    · intro x _ hx
      simp only [decide_eq_true_eq] at hx
      simp [hx, h]

theorem GetPlaySessionByID_ok_iff (s : memStore) (sid : String) (ps : PlaySessionDB) :
    s.GetPlaySessionByID sid = .ok ps ↔ sessionIn s.sessions sid = some ps := by
  rw [GetPlaySessionByID_view]
  cases sessionIn s.sessions sid with
  | none => simp
  | some q => simp

theorem sessionIn_ID (l : List PlaySessionDB) (sid : String) (ps : PlaySessionDB)
    (h : sessionIn l sid = some ps) : ps.ID = sid := by
  unfold sessionIn at h
  simpa using List.find?_some h

/-! ## What each call does to the store -/

theorem Create_effect (s : memStore) (id : String) (now : Int) (o : String)
    (dto : CreatePlaySessionDTO) :
    (∃ e, Service.Create s id now o dto = (s, .error e)) ∨
    (sessionIn s.sessions id = none ∧
      ((isMemberIn s.members id o = true ∧ ∃ e, Service.Create s id now o dto =
          ({ s with sessions := s.sessions ++ [Service.createdRecord id now o dto] }, .error e)) ∨
       (isMemberIn s.members id o = false ∧ Service.Create s id now o dto =
          ({ s with sessions := s.sessions ++ [Service.createdRecord id now o dto],
                    members := s.members ++
                      [({ SessionID := id, UserID := o, Role := Gm, Muted := false } :
                         PlaySessionMemberDB)] }, .ok id)))) := by
  unfold Service.Create memStore.CreatePlaySession memStore.AddPlaySessionMember
  simp only [any_session_view, IsPlaySessionMember_view]
  have hid : (Service.createdRecord id now o dto).ID = id := rfl
  rw [hid]
  cases hps : sessionIn s.sessions id with
  | some ps => left; exact ⟨_, rfl⟩
  | none =>
    right
    refine ⟨rfl, ?_⟩
    cases hm : isMemberIn s.members id o with
    | true => left; simp [hm]
    | false => right; simp [hm]

theorem Join_effect (s : memStore) (S U : String) :
    (∃ e, Service.Join s S U = (s, .error e)) ∨
    ∃ ps, sessionIn s.sessions S = some ps ∧ ps.Status = Active ∧
      isMemberIn s.members S U = false ∧ countIn s.members S < ps.Capacity ∧
      bannedIn s.bans S U = false ∧
      Service.Join s S U =
        (({ s with members := s.members ++
            [({ SessionID := S, UserID := U, Role := Player, Muted := false } :
               PlaySessionMemberDB)] }).setActive U S, .ok ()) := by
  unfold Service.Join memStore.AddPlaySessionMember memStore.SetUserActiveSession
  simp only [GetPlaySessionByID_view, IsPlaySessionMember_view, CountPlaySessionMembers_view,
    IsBannedFromSession_view]
  cases hps : sessionIn s.sessions S with
  | none => left; exact ⟨_, rfl⟩
  | some ps =>
    simp only []
    split_ifs with h1 h2 h3 h4 h5
    · left; exact ⟨_, rfl⟩
    · left; exact ⟨_, rfl⟩
    · left; exact ⟨_, rfl⟩
    · left; exact ⟨_, rfl⟩
    · left; exact ⟨_, rfl⟩
    · right
      refine ⟨ps, rfl, ?_, ?_, ?_, ?_, ?_⟩
      · simpa using h1
      · simpa using h3
      · simpa using h4
      · simpa using h5
      · simp [h3]

theorem Leave_effect (s : memStore) (u : String) :
    (∃ e, Service.Leave s u = (s, .error e)) ∨
    ∃ ps, s.GetUserActiveSessionID u ≠ "" ∧
      sessionIn s.sessions (s.GetUserActiveSessionID u) = some ps ∧ ps.Status = Active ∧
      isMemberIn s.members (s.GetUserActiveSessionID u) u = true ∧ ps.OwnerID ≠ u ∧
      Service.Leave s u =
        ({ s with
            members := s.members.filter (fun x =>
              ¬ (x.SessionID = s.GetUserActiveSessionID u ∧ x.UserID = u)),
            activeByUser := s.activeByUser.filter (fun e => e.1 ≠ u) },
          .ok (s.GetUserActiveSessionID u)) := by
  unfold Service.Leave
  simp only [GetPlaySessionByID_view, IsPlaySessionMember_view]
  by_cases h0 : s.GetUserActiveSessionID u = ""
  · left; rw [if_pos h0]; exact ⟨_, rfl⟩
  rw [if_neg h0]
  cases hps : sessionIn s.sessions (s.GetUserActiveSessionID u) with
  | none => left; exact ⟨_, rfl⟩
  | some ps =>
    simp only []
    by_cases h1 : ps.Status ≠ Active
    · left; rw [if_pos h1]; exact ⟨_, rfl⟩
    rw [if_neg h1]
    by_cases h2 : ¬ isMemberIn s.members (s.GetUserActiveSessionID u) u = true
    · left; rw [if_pos h2]; exact ⟨_, rfl⟩
    rw [if_neg h2]
    by_cases h3 : ps.OwnerID = u
    · left; rw [if_pos h3]; exact ⟨_, rfl⟩
    rw [if_neg h3]
    right
    refine ⟨ps, h0, rfl, not_not.mp h1, not_not.mp h2, h3, ?_⟩
    simp [memStore.ClearUserActiveSessionIfMatch, memStore.DeletePlaySessionMember,
      GetUserActiveSessionID_view]

theorem SendMessage_effect (s : memStore) (id : String) (now : Int) (u text : String) :
    (∃ e, Service.SendMessage s id now u text = (s, .error e)) ∨
    ∃ ps, s.GetUserActiveSessionID u ≠ "" ∧
      sessionIn s.sessions (s.GetUserActiveSessionID u) = some ps ∧ ps.Status = Active ∧
      isMemberIn s.members (s.GetUserActiveSessionID u) u = true ∧
      s.IsMemberMuted (s.GetUserActiveSessionID u) u = false ∧
      Service.SendMessage s id now u text =
        ({ s with
            seq := s.seq.filter (fun e => e.1 ≠ s.GetUserActiveSessionID u) ++
              [(s.GetUserActiveSessionID u, s.seqOf (s.GetUserActiveSessionID u) + 1)],
            msgs := s.msgs ++ [(s.GetUserActiveSessionID u,
              ({ ID := id, UserID := u, Text := text, CreatedAt := now,
                 SeqID := s.seqOf (s.GetUserActiveSessionID u) + 1 } : MessageRow))] },
          .ok (s.GetUserActiveSessionID u, s.seqOf (s.GetUserActiveSessionID u) + 1, now)) := by
  unfold Service.SendMessage
  simp only [GetPlaySessionByID_view, IsPlaySessionMember_view]
  by_cases h0 : s.GetUserActiveSessionID u = ""
  · left; rw [if_pos h0]; exact ⟨_, rfl⟩
  rw [if_neg h0]
  cases hps : sessionIn s.sessions (s.GetUserActiveSessionID u) with
  | none => left; exact ⟨_, rfl⟩
  | some ps =>
    simp only []
    by_cases h1 : ps.Status ≠ Active
    · left; rw [if_pos h1]; exact ⟨_, rfl⟩
    rw [if_neg h1]
    by_cases h2 : ¬ isMemberIn s.members (s.GetUserActiveSessionID u) u = true
    · left; rw [if_pos h2]; exact ⟨_, rfl⟩
    rw [if_neg h2]
    by_cases h3 : s.IsMemberMuted (s.GetUserActiveSessionID u) u = true
    · left; rw [if_pos h3]; exact ⟨_, rfl⟩
    rw [if_neg h3]
    right
    exact ⟨ps, h0, rfl, not_not.mp h1, not_not.mp h2, by simpa using h3, rfl⟩

theorem setMuted_effect (s : memStore) (gm t : String) (b : Bool) :
    (∃ e, Service.setMuted s gm t b = (s, .error e)) ∨
    ∃ ps m, s.GetUserActiveSessionID gm ≠ "" ∧
      sessionIn s.sessions (s.GetUserActiveSessionID gm) = some ps ∧ ps.OwnerID = gm ∧
      memberIn s.members (s.GetUserActiveSessionID gm) t = some m ∧ m.Role = Player ∧
      Service.setMuted s gm t b =
        ({ s with members := s.members.map (withMuted (s.GetUserActiveSessionID gm) t b) },
          .ok (s.GetUserActiveSessionID gm)) := by
  unfold Service.setMuted
  simp only [GetPlaySessionByID_view, GetPlaySessionMember_view]
  by_cases h0 : s.GetUserActiveSessionID gm = ""
  · left; rw [if_pos h0]; exact ⟨_, rfl⟩
  rw [if_neg h0]
  cases hps : sessionIn s.sessions (s.GetUserActiveSessionID gm) with
  | none => left; exact ⟨_, rfl⟩
  | some ps =>
    simp only []
    by_cases h1 : ps.OwnerID ≠ gm
    · left; rw [if_pos h1]; exact ⟨_, rfl⟩
    rw [if_neg h1]
    cases hu : s.GetUserByID t with
    | error e => left; exact ⟨_, rfl⟩
    | ok usr =>
      simp only []
      cases hm : memberIn s.members (s.GetUserActiveSessionID gm) t with
      | none => left; exact ⟨_, rfl⟩
      | some m =>
        simp only []
        by_cases h2 : m.Role ≠ Player
        · left; rw [if_pos h2]; exact ⟨_, rfl⟩
        rw [if_neg h2]
        right
        refine ⟨ps, m, h0, rfl, not_not.mp h1, rfl, not_not.mp h2, ?_⟩
        have hmem : isMemberIn s.members (s.GetUserActiveSessionID gm) t = true := by
          rw [isMemberIn_eq_isSome, hm]; rfl
        unfold memStore.SetMemberMuted
        rw [IsPlaySessionMember_view, hmem]
        rfl

/-- The store after a successful `Remove` of `t` from session `sid`. -/
theorem Remove_effect (s : memStore) (gm t : String) :
    (∃ e, Service.Remove s gm t = (s, .error e)) ∨
    ∃ ps, s.GetUserActiveSessionID gm ≠ "" ∧
      sessionIn s.sessions (s.GetUserActiveSessionID gm) = some ps ∧ ps.OwnerID = gm ∧
      t ≠ ps.OwnerID ∧ isMemberIn s.members (s.GetUserActiveSessionID gm) t = true ∧
      Service.Remove s gm t =
        ((((s.DeletePlaySessionMember (s.GetUserActiveSessionID gm) t).InsertPlaySessionBan
            (s.GetUserActiveSessionID gm) t).ClearUserActiveSessionIfMatch t
            (s.GetUserActiveSessionID gm)), .ok (s.GetUserActiveSessionID gm)) := by
  unfold Service.Remove
  simp only [GetPlaySessionByID_view, IsPlaySessionMember_view]
  by_cases h0 : s.GetUserActiveSessionID gm = ""
  · left; rw [if_pos h0]; exact ⟨_, rfl⟩
  rw [if_neg h0]
  cases hps : sessionIn s.sessions (s.GetUserActiveSessionID gm) with
  | none => left; exact ⟨_, rfl⟩
  | some ps =>
    simp only []
    by_cases h1 : ps.OwnerID ≠ gm
    · left; rw [if_pos h1]; exact ⟨_, rfl⟩
    rw [if_neg h1]
    cases hu : s.GetUserByID t with
    | error e => left; exact ⟨_, rfl⟩
    | ok usr =>
      simp only []
      by_cases h2 : t = ps.OwnerID
      · left; rw [if_pos h2]; exact ⟨_, rfl⟩
      rw [if_neg h2]
      by_cases h3 : ¬ isMemberIn s.members (s.GetUserActiveSessionID gm) t = true
      · left; rw [if_pos h3]; exact ⟨_, rfl⟩
      rw [if_neg h3]
      right
      exact ⟨ps, h0, rfl, not_not.mp h1, h2, not_not.mp h3, rfl⟩

theorem End_effect (s : memStore) (gm : String) :
    (∃ e, Service.End s gm = (s, .error e)) ∨
    ∃ ps, s.GetUserActiveSessionID gm ≠ "" ∧
      sessionIn s.sessions (s.GetUserActiveSessionID gm) = some ps ∧ ps.Status = Active ∧
      ps.OwnerID = gm ∧
      Service.End s gm =
        ({ s with
            sessions := s.sessions.map (withStatus (s.GetUserActiveSessionID gm) Archived),
            activeByUser := s.activeByUser.filter (fun e =>
              pointerIn s.activeByUser e.1 ≠ s.GetUserActiveSessionID gm) },
          .ok (s.GetUserActiveSessionID gm)) := by
  unfold Service.End
  simp only [GetPlaySessionByID_view]
  by_cases h0 : s.GetUserActiveSessionID gm = ""
  · left; rw [if_pos h0]; exact ⟨_, rfl⟩
  rw [if_neg h0]
  cases hps : sessionIn s.sessions (s.GetUserActiveSessionID gm) with
  | none => left; exact ⟨_, rfl⟩
  | some ps =>
    simp only []
    by_cases h1 : ps.Status ≠ Active
    · left; rw [if_pos h1]; exact ⟨_, rfl⟩
    rw [if_neg h1]
    by_cases h2 : ps.OwnerID ≠ gm
    · left; rw [if_pos h2]; exact ⟨_, rfl⟩
    rw [if_neg h2]
    right
    refine ⟨ps, h0, rfl, not_not.mp h1, not_not.mp h2, ?_⟩
    have hany : s.sessions.any (fun x => x.ID = s.GetUserActiveSessionID gm) = true := by
      rw [any_session_view, hps]; rfl
    unfold memStore.UpdatePlaySessionStatus
    rw [hany]
    rfl

/-! ## Fields untouched by the pointer and ban updates -/

theorem setActive_fields (m : memStore) (u sid : String) :
    (m.setActive u sid).users = m.users ∧ (m.setActive u sid).sessions = m.sessions ∧
    (m.setActive u sid).members = m.members ∧ (m.setActive u sid).bans = m.bans ∧
    (m.setActive u sid).seq = m.seq ∧ (m.setActive u sid).msgs = m.msgs := by
  unfold memStore.setActive
  split <;> exact ⟨rfl, rfl, rfl, rfl, rfl, rfl⟩

theorem setActive_pointer (m : memStore) (u sid u' : String) :
    (m.setActive u sid).GetUserActiveSessionID u' =
      if u' = u then sid else m.GetUserActiveSessionID u' := by
  unfold memStore.setActive
  by_cases h : sid = ""
  · rw [if_pos h, GetUserActiveSessionID_view, GetUserActiveSessionID_view]
    show pointerIn (m.activeByUser.filter (fun e => e.1 ≠ u)) u' = _
    rw [pointerIn_erase, h]
  · rw [if_neg h, GetUserActiveSessionID_view, GetUserActiveSessionID_view]
    show pointerIn (m.activeByUser.filter (fun e => e.1 ≠ u) ++ [(u, sid)]) u' = _
    rw [pointerIn_set]

theorem ClearIfMatch_fields (m : memStore) (u sid : String) :
    (m.ClearUserActiveSessionIfMatch u sid).users = m.users ∧
    (m.ClearUserActiveSessionIfMatch u sid).sessions = m.sessions ∧
    (m.ClearUserActiveSessionIfMatch u sid).members = m.members ∧
    (m.ClearUserActiveSessionIfMatch u sid).bans = m.bans ∧
    (m.ClearUserActiveSessionIfMatch u sid).seq = m.seq ∧
    (m.ClearUserActiveSessionIfMatch u sid).msgs = m.msgs := by
  unfold memStore.ClearUserActiveSessionIfMatch
  split <;> exact ⟨rfl, rfl, rfl, rfl, rfl, rfl⟩

theorem ClearIfMatch_pointer (m : memStore) (u sid u' : String) :
    (m.ClearUserActiveSessionIfMatch u sid).GetUserActiveSessionID u' =
      if u' = u ∧ m.GetUserActiveSessionID u = sid then ""
      else m.GetUserActiveSessionID u' := by
  unfold memStore.ClearUserActiveSessionIfMatch
  by_cases h : m.GetUserActiveSessionID u = sid
  · rw [if_pos h]
    show pointerIn (m.activeByUser.filter (fun e => e.1 ≠ u)) u' = _
    rw [pointerIn_erase]
    by_cases hu : u' = u
    · rw [if_pos hu, if_pos ⟨hu, h⟩]
    · rw [if_neg hu, if_neg (fun hc => hu hc.1)]; rfl
  · rw [if_neg h, if_neg (fun hc => h hc.2)]

theorem ban_fields (m : memStore) (sid u : String) :
    (m.ban sid u).users = m.users ∧ (m.ban sid u).sessions = m.sessions ∧
    (m.ban sid u).members = m.members ∧ (m.ban sid u).activeByUser = m.activeByUser ∧
    (m.ban sid u).seq = m.seq ∧ (m.ban sid u).msgs = m.msgs := by
  unfold memStore.ban
  split <;> exact ⟨rfl, rfl, rfl, rfl, rfl, rfl⟩

theorem ban_banned (m : memStore) (sid u sid' u' : String) :
    (m.ban sid u).IsBannedFromSession sid' u' =
      (m.IsBannedFromSession sid' u' || decide (sid = sid' ∧ u = u')) := by
  unfold memStore.ban
  cases h : m.IsBannedFromSession sid u with
  | true =>
    simp only [if_true]
    by_cases hk : sid = sid' ∧ u = u'
    · rw [← hk.1, ← hk.2, h]; rfl
    · simp [hk]
  | false =>
    simp only [Bool.false_eq_true, if_false]
    show bannedIn (m.bans ++ [(sid, u)]) sid' u' = _
    rw [bannedIn_append_one]; rfl

/-- The tables of the store after a successful `Remove`. -/
theorem removed_fields (s : memStore) (sid t : String) :
    (((s.DeletePlaySessionMember sid t).InsertPlaySessionBan sid
        t).ClearUserActiveSessionIfMatch t sid).sessions = s.sessions ∧
    (((s.DeletePlaySessionMember sid t).InsertPlaySessionBan sid
        t).ClearUserActiveSessionIfMatch t sid).members =
      s.members.filter (fun x => ¬ (x.SessionID = sid ∧ x.UserID = t)) ∧
    (((s.DeletePlaySessionMember sid t).InsertPlaySessionBan sid
        t).ClearUserActiveSessionIfMatch t sid).users = s.users ∧
    (((s.DeletePlaySessionMember sid t).InsertPlaySessionBan sid
        t).ClearUserActiveSessionIfMatch t sid).seq = s.seq ∧
    (((s.DeletePlaySessionMember sid t).InsertPlaySessionBan sid
        t).ClearUserActiveSessionIfMatch t sid).msgs = s.msgs := by
  have h1 := ClearIfMatch_fields ((s.DeletePlaySessionMember sid t).InsertPlaySessionBan sid t) t sid
  have h2 := ban_fields (s.DeletePlaySessionMember sid t) sid t
  unfold memStore.InsertPlaySessionBan at h1 ⊢
  refine ⟨?_, ?_, ?_, ?_, ?_⟩
  · rw [h1.2.1, h2.2.1]; rfl
  · rw [h1.2.2.1, h2.2.2.1]; rfl
  · rw [h1.1, h2.1]; rfl
  · rw [h1.2.2.2.2.1, h2.2.2.2.2.1]; rfl
  · rw [h1.2.2.2.2.2, h2.2.2.2.2.2]; rfl

/-! ## The capacity invariant -/

theorem CapInv_newMem : CapInv newMem := by
  intro sid; rfl

theorem CapInv_of_tables (s s' : memStore) (h : CapInv s)
    (hs : s'.sessions = s.sessions) (hm : ∀ sid, countIn s'.members sid ≤ countIn s.members sid) :
    CapInv s' := by
  intro sid
  have h0 := h sid
  rw [hs]
  cases hps : sessionIn s.sessions sid with
  | some ps =>
    rw [hps] at h0
    exact le_trans (hm sid) h0
  | none =>
    rw [hps] at h0
    have h1 := hm sid
    have h2 := countIn_nonneg s'.members sid
    show countIn s'.members sid = 0
    change countIn s.members sid = 0 at h0
    omega

theorem CapInv_step (s : memStore) (op : Op) (h : CapInv s) (hop : op.hasSeat = true) :
    CapInv (step s op) := by
  cases op with
  | create id now o dto =>
    show CapInv (Service.Create s id now o dto).1
    have hcap : 1 ≤ dto.Capacity := by simpa [Op.hasSeat] using hop
    rcases Create_effect s id now o dto with ⟨e, he⟩ | ⟨hnone, ⟨_, e, he⟩ | ⟨_, he⟩⟩
    · rw [he]; exact h
    · rw [he]
      intro sid
      have h0 := h sid
      show match sessionIn (s.sessions ++ [Service.createdRecord id now o dto]) sid with
        | some ps => countIn s.members sid ≤ ps.Capacity
        | none => countIn s.members sid = 0
      rw [sessionIn_append_one]
      cases hps : sessionIn s.sessions sid with
      | some ps => rw [hps] at h0; exact h0
      | none =>
        rw [hps] at h0
        change countIn s.members sid = 0 at h0
        have hid : (Service.createdRecord id now o dto).ID = id := rfl
        by_cases hk : id = sid
        · subst hk
          rw [if_pos hid]
          show countIn s.members id ≤ dto.Capacity
          rw [h0]; omega
        · rw [hid, if_neg hk]; exact h0
    · rw [he]
      intro sid
      have h0 := h sid
      have hid0 := h id
      rw [hnone] at hid0
      change countIn s.members id = 0 at hid0
      show match sessionIn (s.sessions ++ [Service.createdRecord id now o dto]) sid with
        | some ps => countIn (s.members ++ [_]) sid ≤ ps.Capacity
        | none => countIn (s.members ++ [_]) sid = 0
      rw [sessionIn_append_one, countIn_append_one]
      have hid : (Service.createdRecord id now o dto).ID = id := rfl
      cases hps : sessionIn s.sessions sid with
      | some ps =>
        rw [hps] at h0
        have hne : id ≠ sid := by
          intro e; rw [e] at hnone; rw [hnone] at hps; exact Option.noConfusion hps
        simp only [hne, if_false]
        change countIn s.members sid ≤ ps.Capacity at h0
        show countIn s.members sid + 0 ≤ ps.Capacity
        omega
      | none =>
        rw [hps] at h0
        change countIn s.members sid = 0 at h0
        by_cases hk : id = sid
        · subst hk
          rw [if_pos hid]
          show countIn s.members id + (if id = id then 1 else 0) ≤ dto.Capacity
          rw [h0, if_pos rfl]; omega
        · rw [hid, if_neg hk]
          show countIn s.members sid + (if id = sid then 1 else 0) = 0
          rw [h0, if_neg hk]; rfl
  | join S U =>
    show CapInv (Service.Join s S U).1
    rcases Join_effect s S U with ⟨e, he⟩ | ⟨ps, hps, _, _, hlt, _, he⟩
    · rw [he]; exact h
    · rw [he]
      intro sid
      have h0 := h sid
      have hf := setActive_fields ({ s with members := s.members ++
            [({ SessionID := S, UserID := U, Role := Player, Muted := false } :
               PlaySessionMemberDB)] }) U S
      simp only [hf.2.1, hf.2.2.1]
      rw [countIn_append_one]
      by_cases hk : S = sid
      · rw [← hk, hps]
        simp only [if_true]
        omega
      · simp only [hk, if_false, add_zero]
        exact h0
  | leave u =>
    show CapInv (Service.Leave s u).1
    rcases Leave_effect s u with ⟨e, he⟩ | ⟨ps, _, _, _, _, _, he⟩
    · rw [he]; exact h
    · rw [he]
      exact CapInv_of_tables s _ h rfl (fun sid => countIn_delete_le _ _ _ _)
  | sendMessage id now u t =>
    show CapInv (Service.SendMessage s id now u t).1
    rcases SendMessage_effect s id now u t with ⟨e, he⟩ | ⟨ps, _, _, _, _, _, he⟩
    · rw [he]; exact h
    · rw [he]
      exact CapInv_of_tables s _ h rfl (fun sid => le_refl _)
  | mute g t =>
    show CapInv (Service.setMuted s g t true).1
    rcases setMuted_effect s g t true with ⟨e, he⟩ | ⟨ps, m, _, _, _, _, _, he⟩
    · rw [he]; exact h
    · rw [he]
      exact CapInv_of_tables s _ h rfl (fun sid => le_of_eq (countIn_map_withMuted _ _ _ _ _))
  | unmute g t =>
    show CapInv (Service.setMuted s g t false).1
    rcases setMuted_effect s g t false with ⟨e, he⟩ | ⟨ps, m, _, _, _, _, _, he⟩
    · rw [he]; exact h
    · rw [he]
      exact CapInv_of_tables s _ h rfl (fun sid => le_of_eq (countIn_map_withMuted _ _ _ _ _))
  | remove g t =>
    show CapInv (Service.Remove s g t).1
    rcases Remove_effect s g t with ⟨e, he⟩ | ⟨ps, _, _, _, _, _, he⟩
    · rw [he]; exact h
    · rw [he]
      have hf := removed_fields s (s.GetUserActiveSessionID g) t
      apply CapInv_of_tables s _ h hf.1
      intro sid
      rw [hf.2.1]
      exact countIn_delete_le _ _ _ _
  | endSession g =>
    show CapInv (Service.End s g).1
    rcases End_effect s g with ⟨e, he⟩ | ⟨ps, _, _, _, _, he⟩
    · rw [he]; exact h
    · rw [he]
      intro sid
      have h0 := h sid
      show match sessionIn (s.sessions.map (withStatus (s.GetUserActiveSessionID g) Archived)) sid with
        | some ps => countIn s.members sid ≤ ps.Capacity
        | none => countIn s.members sid = 0
      rw [sessionIn_map_withStatus]
      cases hps : sessionIn s.sessions sid with
      | some q =>
        rw [hps] at h0
        have : (withStatus (s.GetUserActiveSessionID g) Archived q).Capacity = q.Capacity := by
          unfold withStatus; split <;> rfl
        show countIn s.members sid ≤ (withStatus (s.GetUserActiveSessionID g) Archived q).Capacity
        rw [this]; exact h0
      | none => rw [hps] at h0; exact h0

theorem CapInv_run (ops : List Op) : ∀ (s : memStore), CapInv s →
    (∀ op ∈ ops, op.hasSeat = true) → CapInv (run s ops) := by
  induction ops with
  | nil => intro s h _; exact h
  | cons op rest ih =>
    intro s h hops
    show CapInv (run (step s op) rest)
    exact ih _ (CapInv_step s op h (hops op (List.mem_cons_self _ _)))
      (fun o ho => hops o (List.mem_cons_of_mem _ ho))

/-- C1. Capacity is never exceeded: after every step of a sequence of service
calls started from the empty store, in which every `Create` asks for at least
one seat, each session the store holds has at most `Capacity` member rows. -/
theorem members_le_capacity (ops : List Op) (hops : ∀ op ∈ ops, op.hasSeat = true)
    (k : Nat) (sid : String) (ps : PlaySessionDB)
    (hps : (run newMem (ops.take k)).GetPlaySessionByID sid = .ok ps) :
    (run newMem (ops.take k)).CountPlaySessionMembers sid ≤ ps.Capacity := by
  have hinv := CapInv_run (ops.take k) newMem CapInv_newMem
    (fun op ho => hops op (List.mem_of_mem_take ho))
  have h0 := hinv sid
  rw [GetPlaySessionByID_ok_iff] at hps
  rw [hps] at h0
  exact h0

/-- The capacity invariant at a concrete sequence: a table for two, three
joins. -/
theorem members_le_capacity_witness :
    (∀ op ∈ seatingOps, op.hasSeat = true) ∧
    (run newMem (seatingOps.take 4)).GetPlaySessionByID "S" =
      .ok (Service.createdRecord "S" 1 "gm" dtoTwo) ∧
    (run newMem (seatingOps.take 4)).CountPlaySessionMembers "S" ≤
      (Service.createdRecord "S" 1 "gm" dtoTwo).Capacity :=
  ⟨by decide, rfl, members_le_capacity seatingOps (by decide) 4 "S" _ rfl⟩

/-! ## Join of a banned user -/

/-- What `Join` returns for a banned user. For an Active session `S` and a
user `U` on its ban list, `Join(S, U)` fails and leaves the store as it was
(no member row, no pointer). The error is `ForbiddenJoin` for a Private
session joined by a non-owner; otherwise `AlreadyMember` when `U` has a member
row, otherwise `CapacityExceeded` when the session is full, and
`ForbiddenJoin` only after these: the ban list is read last. -/
theorem join_banned_fails (s : memStore) (S U : String) (ps : PlaySessionDB)
    (hps : s.GetPlaySessionByID S = .ok ps) (hact : ps.Status = Active)
    (hban : s.IsBannedFromSession S U = true) :
    Service.Join s S U =
      (s, .error
        (if ps.Visibility = VisibilityPrivate ∧ ps.OwnerID ≠ U then ErrForbiddenJoin
         else if s.IsPlaySessionMember S U = true then ErrAlreadyMember
         else if s.CountPlaySessionMembers S ≥ ps.Capacity then ErrCapacityExceeded
         else ErrForbiddenJoin)) := by
  unfold Service.Join
  rw [hps]
  simp only []
  rw [if_neg (not_not.mpr hact)]
  by_cases h2 : ps.Visibility = VisibilityPrivate ∧ ps.OwnerID ≠ U
  · rw [if_pos h2, if_pos h2]
  rw [if_neg h2, if_neg h2]
  by_cases h3 : s.IsPlaySessionMember S U = true
  · rw [if_pos h3, if_pos h3]
  rw [if_neg h3, if_neg h3]
  by_cases h4 : s.CountPlaySessionMembers S ≥ ps.Capacity
  · rw [if_pos h4, if_pos h4]
  rw [if_neg h4, if_neg h4, if_pos hban]

/-- The order of the tests at a concrete store: `u` is banned from the full
table. -/
theorem join_banned_fails_witness :
    Service.Join bannedFullStore "S" "u" = (bannedFullStore, .error ErrCapacityExceeded) :=
  join_banned_fails bannedFullStore "S" "u" (Service.createdRecord "S" 1 "gm" dtoTwo)
    rfl rfl rfl

/-- C2, on the code. In `bannedFullStore` the session `S` is Active and
Public, `u` is on its ban list (put there by `Remove`) and has no member row,
both seats are taken, and `Join(S, u)` fails with `CapacityExceeded`, not with
`ForbiddenJoin`: `Service.Join` compares the member count with the capacity
before it reads the ban list. -/
theorem join_banned_full_not_forbidden :
    bannedFullStore.GetPlaySessionByID "S" = .ok (Service.createdRecord "S" 1 "gm" dtoTwo) ∧
    (Service.createdRecord "S" 1 "gm" dtoTwo).Status = Active ∧
    bannedFullStore.IsBannedFromSession "S" "u" = true ∧
    (Service.Join bannedFullStore "S" "u").2 = .error ErrCapacityExceeded ∧
    (Service.Join bannedFullStore "S" "u").2 ≠ .error ErrForbiddenJoin := by
  refine ⟨rfl, rfl, rfl, rfl, ?_⟩
  intro h
  have h2 : (Service.Join bannedFullStore "S" "u").2 = .error ErrCapacityExceeded := rfl
  rw [h2] at h
  cases h

/-! ## A removed user stays out -/

theorem BanInv_of_tables (S U : String) (s s' : memStore) (h : BanInv S U s)
    (hs : s'.sessions = s.sessions) (hb : s'.bans = s.bans)
    (hm : isMemberIn s'.members S U = true → isMemberIn s.members S U = true) :
    BanInv S U s' := by
  refine ⟨by rw [hs]; exact h.1, by rw [hb]; exact h.2.1, ?_⟩
  cases hc : isMemberIn s'.members S U with
  | false => rfl
  | true =>
    have h1 := hm hc
    rw [h.2.2] at h1
    exact Bool.noConfusion h1

theorem BanInv_step (S U : String) (s : memStore) (op : Op) (h : BanInv S U s) :
    BanInv S U (step s op) := by
  obtain ⟨hS, hB, hM⟩ := h
  cases op with
  | create id now o dto =>
    show BanInv S U (Service.Create s id now o dto).1
    rcases Create_effect s id now o dto with ⟨e, he⟩ | ⟨hnone, ⟨_, e, he⟩ | ⟨_, he⟩⟩
    · rw [he]; exact ⟨hS, hB, hM⟩
    · rw [he]
      refine ⟨?_, hB, hM⟩
      show (sessionIn (s.sessions ++ [Service.createdRecord id now o dto]) S).isSome = true
      rw [sessionIn_append_one]
      cases hps : sessionIn s.sessions S with
      | none => rw [hps] at hS; exact absurd hS (by simp)
      | some ps => rfl
    · rw [he]
      have hne : id ≠ S := by
        intro e; rw [e] at hnone; rw [hnone] at hS; exact absurd hS (by simp)
      refine ⟨?_, hB, ?_⟩
      · show (sessionIn (s.sessions ++ [Service.createdRecord id now o dto]) S).isSome = true
        rw [sessionIn_append_one]
        cases hps : sessionIn s.sessions S with
        | none => rw [hps] at hS; exact absurd hS (by simp)
        | some ps => rfl
      · show isMemberIn (s.members ++ [_]) S U = false
        rw [isMemberIn_append_one, hM]
        simp [hne]
  | join S' U' =>
    show BanInv S U (Service.Join s S' U').1
    rcases Join_effect s S' U' with ⟨e, he⟩ | ⟨ps, hps, _, _, hlt, hnb, he⟩
    · rw [he]; exact ⟨hS, hB, hM⟩
    · rw [he]
      have hf := setActive_fields ({ s with members := s.members ++
            [({ SessionID := S', UserID := U', Role := Player, Muted := false } :
               PlaySessionMemberDB)] }) U' S'
      have hne : ¬ (S' = S ∧ U' = U) := by
        rintro ⟨e1, e2⟩
        rw [e1, e2, hB] at hnb
        exact Bool.noConfusion hnb
      refine ⟨by rw [hf.2.1]; exact hS, by rw [hf.2.2.2.1]; exact hB, ?_⟩
      rw [hf.2.2.1]
      show isMemberIn (s.members ++ [_]) S U = false
      rw [isMemberIn_append_one, hM]
      simp only [Bool.false_or, decide_eq_false_iff_not]
      exact hne
  | leave u =>
    show BanInv S U (Service.Leave s u).1
    rcases Leave_effect s u with ⟨e, he⟩ | ⟨ps, _, _, _, _, _, he⟩
    · rw [he]; exact ⟨hS, hB, hM⟩
    · rw [he]
      refine BanInv_of_tables S U s _ ⟨hS, hB, hM⟩ rfl rfl ?_
      intro hc
      change isMemberIn (s.members.filter _) S U = true at hc
      rw [isMemberIn_delete, hM] at hc
      exact absurd hc (by simp)
  | sendMessage id now u t =>
    show BanInv S U (Service.SendMessage s id now u t).1
    rcases SendMessage_effect s id now u t with ⟨e, he⟩ | ⟨ps, _, _, _, _, _, he⟩
    · rw [he]; exact ⟨hS, hB, hM⟩
    · rw [he]; exact ⟨hS, hB, hM⟩
  | mute g t =>
    show BanInv S U (Service.setMuted s g t true).1
    rcases setMuted_effect s g t true with ⟨e, he⟩ | ⟨ps, m, _, _, _, _, _, he⟩
    · rw [he]; exact ⟨hS, hB, hM⟩
    · rw [he]
      refine ⟨hS, hB, ?_⟩
      show isMemberIn (s.members.map _) S U = false
      rw [isMemberIn_map_withMuted]; exact hM
  | unmute g t =>
    show BanInv S U (Service.setMuted s g t false).1
    rcases setMuted_effect s g t false with ⟨e, he⟩ | ⟨ps, m, _, _, _, _, _, he⟩
    · rw [he]; exact ⟨hS, hB, hM⟩
    · rw [he]
      refine ⟨hS, hB, ?_⟩
      show isMemberIn (s.members.map _) S U = false
      rw [isMemberIn_map_withMuted]; exact hM
  | remove g t =>
    show BanInv S U (Service.Remove s g t).1
    rcases Remove_effect s g t with ⟨e, he⟩ | ⟨ps, _, _, _, _, _, he⟩
    · rw [he]; exact ⟨hS, hB, hM⟩
    · rw [he]
      have hf := removed_fields s (s.GetUserActiveSessionID g) t
      refine ⟨by rw [hf.1]; exact hS, ?_, ?_⟩
      · have hc := ClearIfMatch_fields ((s.DeletePlaySessionMember (s.GetUserActiveSessionID g)
          t).InsertPlaySessionBan (s.GetUserActiveSessionID g) t) t (s.GetUserActiveSessionID g)
        rw [hc.2.2.2.1]
        have hb := ban_banned (s.DeletePlaySessionMember (s.GetUserActiveSessionID g) t)
          (s.GetUserActiveSessionID g) t S U
        rw [IsBannedFromSession_view, IsBannedFromSession_view] at hb
        unfold memStore.InsertPlaySessionBan
        rw [hb]
        show (bannedIn s.bans S U || _) = true
        rw [hB]; rfl
      · rw [hf.2.1, isMemberIn_delete, hM]; rfl
  | endSession g =>
    show BanInv S U (Service.End s g).1
    rcases End_effect s g with ⟨e, he⟩ | ⟨ps, _, _, _, _, he⟩
    · rw [he]; exact ⟨hS, hB, hM⟩
    · rw [he]
      refine ⟨?_, hB, hM⟩
      show (sessionIn (s.sessions.map _) S).isSome = true
      rw [sessionIn_map_withStatus]
      cases hps : sessionIn s.sessions S with
      | none => rw [hps] at hS; exact absurd hS (by simp)
      | some q => rfl

theorem BanInv_run (S U : String) (ops : List Op) : ∀ (s : memStore), BanInv S U s →
    BanInv S U (run s ops) := by
  induction ops with
  | nil => intro s h; exact h
  | cons op rest ih =>
    intro s h
    show BanInv S U (run (step s op) rest)
    exact ih _ (BanInv_step S U s op h)

theorem BanInv_after_Remove (s s' : memStore) (gm U S : String)
    (h : Service.Remove s gm U = (s', .ok S)) : BanInv S U s' := by
  rcases Remove_effect s gm U with ⟨e, he⟩ | ⟨ps, _, hps, _, _, _, he⟩
  · rw [he] at h; cases h
  · rw [he] at h
    have h1 : s' = _ := (Prod.mk.inj h).1.symm
    have h2 : S = s.GetUserActiveSessionID gm := (Except.ok.inj (Prod.mk.inj h).2).symm
    subst h1
    rw [h2]
    have hf := removed_fields s (s.GetUserActiveSessionID gm) U
    refine ⟨by rw [hf.1, hps]; rfl, ?_, ?_⟩
    · have hc := ClearIfMatch_fields ((s.DeletePlaySessionMember (s.GetUserActiveSessionID gm)
        U).InsertPlaySessionBan (s.GetUserActiveSessionID gm) U) U (s.GetUserActiveSessionID gm)
      rw [hc.2.2.2.1]
      have hb := ban_banned (s.DeletePlaySessionMember (s.GetUserActiveSessionID gm) U)
        (s.GetUserActiveSessionID gm) U (s.GetUserActiveSessionID gm) U
      rw [IsBannedFromSession_view, IsBannedFromSession_view] at hb
      unfold memStore.InsertPlaySessionBan
      rw [hb]
      simp
    · rw [hf.2.1, isMemberIn_delete]
      simp

theorem Join_fails_of_banned (s : memStore) (S U : String)
    (hB : s.IsBannedFromSession S U = true) : ∃ e, Service.Join s S U = (s, .error e) := by
  rcases Join_effect s S U with h | ⟨ps, _, _, _, _, hnb, _⟩
  · exact h
  · rw [IsBannedFromSession_view] at hB
    rw [hB] at hnb
    exact Bool.noConfusion hnb

/-- C3. Once `Remove(gm, U)` has succeeded for session `S`, after every
further sequence of service calls `(S, U)` is still on the ban list, `U` has
no member row in `S`, and `Join(S, U)` fails and leaves the store as it is. -/
theorem removed_user_never_rejoins (s s' : memStore) (gm U S : String)
    (h : Service.Remove s gm U = (s', .ok S)) (ops : List Op) :
    (run s' ops).IsBannedFromSession S U = true ∧
    (run s' ops).IsPlaySessionMember S U = false ∧
    ∃ e, Service.Join (run s' ops) S U = (run s' ops, .error e) := by
  have hinv := BanInv_run S U ops s' (BanInv_after_Remove s s' gm U S h)
  exact ⟨hinv.2.1, hinv.2.2, Join_fails_of_banned _ S U hinv.2.1⟩

/-- C3 at a concrete store: `gm` removes `u`, then four more calls. -/
theorem removed_user_never_rejoins_witness :
    Service.Remove seatedStore "gm" "u" = ((Service.Remove seatedStore "gm" "u").1, .ok "S") ∧
    (run (Service.Remove seatedStore "gm" "u").1 afterRemovalOps).IsBannedFromSession
      "S" "u" = true ∧
    (run (Service.Remove seatedStore "gm" "u").1 afterRemovalOps).IsPlaySessionMember
      "S" "u" = false ∧
    ∃ e, Service.Join (run (Service.Remove seatedStore "gm" "u").1 afterRemovalOps) "S" "u" =
      (run (Service.Remove seatedStore "gm" "u").1 afterRemovalOps, .error e) :=
  ⟨rfl, removed_user_never_rejoins seatedStore _ "gm" "u" "S" rfl afterRemovalOps⟩

/-! ## The owner after Create -/

/-- `Service.Create` sets no active-session pointer. -/
theorem Create_keeps_pointers (s : memStore) (id : String) (now : Int) (o : String)
    (dto : CreatePlaySessionDTO) :
    (Service.Create s id now o dto).1.activeByUser = s.activeByUser := by
  rcases Create_effect s id now o dto with ⟨e, he⟩ | ⟨_, ⟨_, e, he⟩ | ⟨_, he⟩⟩ <;> rw [he]

/-- C4, on the code. From the empty store, `Create` (capacity 2, Public) by
`gm` returns `S` and `Join(S, p1)` succeeds, but `gm` has no active-session
pointer: `SendMessage(gm, "hi")` fails with `NoActiveSession`, and the message
of `p1` is the first of the session, `seq = 1`. -/
theorem owner_not_seated_after_create :
    Service.Create newMem "S" 1 "gm" dtoTwo = (createdStore, .ok "S") ∧
    Service.Join createdStore "S" "p1" = (joinedStore, .ok ()) ∧
    joinedStore.GetUserActiveSessionID "gm" = "" ∧
    Service.SendMessage joinedStore "m1" 2 "gm" "hi" =
      (joinedStore, .error ErrNoActiveSession) ∧
    (Service.SendMessage joinedStore "m2" 3 "p1" "yo").2 = .ok ("S", 1, 3) :=
  ⟨rfl, rfl, rfl, rfl, rfl⟩

/-! ## Sequence numbers -/

theorem seqOf_next (s : memStore) (sid S : String) (n : Int) (ms : List (String × MessageRow)) :
    ({ s with seq := s.seq.filter (fun e => e.1 ≠ sid) ++ [(sid, n)], msgs := ms } :
      memStore).seqOf S = if S = sid then n else s.seqOf S := by
  unfold memStore.seqOf
  show (match (s.seq.filter (fun e => decide (e.1 ≠ sid)) ++ [(sid, n)]).find?
      (fun e => decide (e.1 = S)) with
    | some e => e.2
    | none => 0) = _
  rw [List.find?_append]
  by_cases h : S = sid
  · rw [if_pos h, find?_filter_none]
    · simp [h]
    · intro x _ hx
      simp only [decide_eq_true_eq] at hx
      simp [hx.trans h]
  · rw [if_neg h, find?_filter_same]
    · cases s.seq.find? (fun e => decide (e.1 = S)) with
      | some e => rfl
      | none =>
        have : ¬ sid = S := fun e => h e.symm
        simp [this]
    · intro x _ hx
      simp only [decide_eq_true_eq] at hx
      have : x.1 ≠ sid := fun e => h (hx.symm.trans e)
      exact decide_eq_true this

theorem msgsOf_append (s : memStore) (sid S : String) (row : MessageRow)
    (q : List (String × Int)) :
    ({ s with seq := q, msgs := s.msgs ++ [(sid, row)] } : memStore).msgsOf S =
      if sid = S then s.msgsOf S ++ [row] else s.msgsOf S := by
  unfold memStore.msgsOf
  show ((s.msgs ++ [(sid, row)]).filter (fun e => decide (e.1 = S))).map Prod.snd = _
  rw [List.filter_append]
  by_cases h : sid = S
  · simp [h]
  · simp [h]

/-- One `SendMessage` as seen from session `S`: it fails and changes nothing,
or it goes to the sender's session with the next number of that session. -/
theorem SendMessage_seq (s : memStore) (id : String) (now : Int) (u text S : String) :
    (∃ e, Service.SendMessage s id now u text = (s, .error e)) ∨
    ∃ s' sid row, Service.SendMessage s id now u text = (s', .ok (sid, s.seqOf sid + 1, now)) ∧
      row.SeqID = s.seqOf sid + 1 ∧
      s'.seqOf S = (if S = sid then s.seqOf S + 1 else s.seqOf S) ∧
      s'.msgsOf S = (if sid = S then s.msgsOf S ++ [row] else s.msgsOf S) := by
  rcases SendMessage_effect s id now u text with h | ⟨ps, _, _, _, _, _, he⟩
  · exact Or.inl h
  · right
    refine ⟨_, _, MessageRow.mk id u text now (s.seqOf (s.GetUserActiveSessionID u) + 1),
      he, rfl, ?_, ?_⟩
    · rw [seqOf_next]
      by_cases h : S = s.GetUserActiveSessionID u
      · rw [if_pos h, if_pos h, h]
      · rw [if_neg h, if_neg h]
    · exact msgsOf_append s _ S _ _

theorem sendAll_seq (S : String) (calls : List (String × Int × String × String)) :
    ∀ (s : memStore) (c : Nat), s.seqOf S = (c : Int) →
      seqsFor S (sendAll s calls).2 = seqRange c (seqsFor S (sendAll s calls).2).length ∧
      ((sendAll s calls).1.msgsOf S).map (fun r => r.SeqID) =
        (s.msgsOf S).map (fun r => r.SeqID) ++
          seqRange c (seqsFor S (sendAll s calls).2).length := by
  induction calls with
  | nil =>
    intro s c _
    simp [sendAll, seqsFor, seqRange]
  | cons call rest ih =>
    intro s c hc
    rcases SendMessage_seq s call.1 call.2.1 call.2.2.1 call.2.2.2 S with
      ⟨e, he⟩ | ⟨s', sid, row, he, hrow, hseq, hmsgs⟩
    · have h1 : sendAll s (call :: rest) = ((sendAll s rest).1, .error e :: (sendAll s rest).2) := by
        show ((sendAll (Service.SendMessage s call.1 call.2.1 call.2.2.1 call.2.2.2).1 rest).1,
          (Service.SendMessage s call.1 call.2.1 call.2.2.1 call.2.2.2).2 ::
          (sendAll (Service.SendMessage s call.1 call.2.1 call.2.2.1 call.2.2.2).1 rest).2) = _
        rw [he]
      have h2 : seqsFor S (.error e :: (sendAll s rest).2) = seqsFor S (sendAll s rest).2 := rfl
      rw [h1]
      show seqsFor S (.error e :: (sendAll s rest).2) = _ ∧ _
      rw [h2]
      exact ih s c hc
    · have h1 : sendAll s (call :: rest) =
          ((sendAll s' rest).1, .ok (sid, s.seqOf sid + 1, call.2.1) :: (sendAll s' rest).2) := by
        show ((sendAll (Service.SendMessage s call.1 call.2.1 call.2.2.1 call.2.2.2).1 rest).1,
          (Service.SendMessage s call.1 call.2.1 call.2.2.1 call.2.2.2).2 ::
          (sendAll (Service.SendMessage s call.1 call.2.1 call.2.2.1 call.2.2.2).1 rest).2) = _
        rw [he]
      rw [h1]
      by_cases hk : sid = S
      · subst hk
        rw [if_pos rfl] at hseq hmsgs
        have hc' : s'.seqOf sid = ((c + 1 : Nat) : Int) := by rw [hseq, hc]; push_cast; rfl
        obtain ⟨ih1, ih2⟩ := ih s' (c + 1) hc'
        have h2 : seqsFor sid (.ok (sid, s.seqOf sid + 1, call.2.1) :: (sendAll s' rest).2) =
            (s.seqOf sid + 1) :: seqsFor sid (sendAll s' rest).2 := by
          simp [seqsFor]
        have h3 : ∀ n, seqRange c (n + 1) = (s.seqOf sid + 1) :: seqRange (c + 1) n := by
          intro n
          unfold seqRange
          rw [List.range'_succ, List.map_cons, hc]
          rfl
        show seqsFor sid (.ok (sid, s.seqOf sid + 1, call.2.1) :: (sendAll s' rest).2) = _ ∧
          ((sendAll s' rest).1.msgsOf sid).map (fun r => r.SeqID) = _
        rw [h2, List.length_cons, h3]
        refine ⟨by rw [← ih1], ?_⟩
        rw [ih2, hmsgs, List.map_append, List.map_cons, List.map_nil, hrow, List.append_assoc]
        rfl
      · rw [if_neg hk] at hmsgs
        rw [if_neg (fun e => hk e.symm)] at hseq
        obtain ⟨ih1, ih2⟩ := ih s' c (by rw [hseq, hc])
        have h2 : seqsFor S (.ok (sid, s.seqOf sid + 1, call.2.1) :: (sendAll s' rest).2) =
            seqsFor S (sendAll s' rest).2 := by
          simp [seqsFor, hk]
        show seqsFor S (.ok (sid, s.seqOf sid + 1, call.2.1) :: (sendAll s' rest).2) = _ ∧
          ((sendAll s' rest).1.msgsOf S).map (fun r => r.SeqID) = _
        rw [h2, ← hmsgs]
        exact ⟨ih1, ih2⟩

/-- C5. For every session `S` whose counter stands at 0 and which has no
message yet, and every sequence of `SendMessage` calls executed one at a time
(failing calls included): the successful calls to `S` return `seq = 1, 2, ...,
n` in call order, and the messages persisted for `S` carry exactly the seq
values `1, 2, ..., n`, in that order. -/
theorem seq_gap_free (s : memStore) (S : String)
    (calls : List (String × Int × String × String))
    (h0 : s.seqOf S = 0) (hm : s.msgsOf S = []) :
    seqsFor S (sendAll s calls).2 = seqRange 0 (seqsFor S (sendAll s calls).2).length ∧
    ((sendAll s calls).1.msgsOf S).map (fun r => r.SeqID) =
      seqRange 0 (seqsFor S (sendAll s calls).2).length := by
  have h := sendAll_seq S calls s 0 (by rw [h0]; rfl)
  rw [hm] at h
  exact ⟨h.1, by rw [h.2]; rfl⟩

/-- C5 at a concrete store: four calls, one of them by a user who is not
seated; the three others get 1, 2, 3. -/
theorem seq_gap_free_witness :
    seqsFor "S" (sendAll seatedStore chatCalls).2 = [1, 2, 3] ∧
    ((sendAll seatedStore chatCalls).1.msgsOf "S").map (fun r => r.SeqID) = [1, 2, 3] := by
  have h := seq_gap_free seatedStore "S" chatCalls rfl rfl
  have hn : (seqsFor "S" (sendAll seatedStore chatCalls).2).length = 3 := rfl
  rw [hn] at h
  exact h

/-! ## Join of a public session -/

/-- C6. For an Active Public session `S` and a user `U` who is neither a
member of `S` nor banned from it: below capacity `Join(S, U)` succeeds, adds
exactly the row `(S, U, Player, muted = false)`, makes `S` the active session
of `U` and changes nothing else; at capacity it fails with `CapacityExceeded`
and the store is unchanged. -/
theorem join_public (s : memStore) (S U : String) (ps : PlaySessionDB)
    (hps : s.GetPlaySessionByID S = .ok ps) (hact : ps.Status = Active)
    (hpub : ps.Visibility = VisibilityPublic)
    (hmem : s.IsPlaySessionMember S U = false) (hban : s.IsBannedFromSession S U = false) :
    (s.CountPlaySessionMembers S < ps.Capacity →
      (Service.Join s S U).2 = .ok () ∧
      (Service.Join s S U).1.members = s.members ++
        [({ SessionID := S, UserID := U, Role := Player, Muted := false } :
          PlaySessionMemberDB)] ∧
      (Service.Join s S U).1.GetUserActiveSessionID U = S ∧
      (∀ u, u ≠ U →
        (Service.Join s S U).1.GetUserActiveSessionID u = s.GetUserActiveSessionID u) ∧
      (Service.Join s S U).1.users = s.users ∧
      (Service.Join s S U).1.sessions = s.sessions ∧
      (Service.Join s S U).1.bans = s.bans ∧
      (Service.Join s S U).1.seq = s.seq ∧
      (Service.Join s S U).1.msgs = s.msgs) ∧
    (¬ s.CountPlaySessionMembers S < ps.Capacity →
      Service.Join s S U = (s, .error ErrCapacityExceeded)) := by
  have hvis : ¬ (ps.Visibility = VisibilityPrivate ∧ ps.OwnerID ≠ U) := by
    rw [hpub]; intro h; exact absurd h.1 (by decide)
  have hm' : ¬ s.IsPlaySessionMember S U = true := by rw [hmem]; exact Bool.false_ne_true
  have hb' : ¬ s.IsBannedFromSession S U = true := by rw [hban]; exact Bool.false_ne_true
  constructor
  · intro hlt
    have hcap : ¬ s.CountPlaySessionMembers S ≥ ps.Capacity := not_le.mpr hlt
    have he : Service.Join s S U =
        (({ s with members := s.members ++
            [({ SessionID := S, UserID := U, Role := Player, Muted := false } :
               PlaySessionMemberDB)] }).setActive U S, .ok ()) := by
      unfold Service.Join memStore.AddPlaySessionMember memStore.SetUserActiveSession
      rw [hps]
      simp only []
      rw [if_neg (not_not.mpr hact), if_neg hvis, if_neg hm', if_neg hcap, if_neg hb',
        if_neg hm']
    have hf := setActive_fields ({ s with members := s.members ++
            [({ SessionID := S, UserID := U, Role := Player, Muted := false } :
               PlaySessionMemberDB)] }) U S
    have hp := setActive_pointer ({ s with members := s.members ++
            [({ SessionID := S, UserID := U, Role := Player, Muted := false } :
               PlaySessionMemberDB)] }) U S
    rw [he]
    refine ⟨rfl, hf.2.2.1, ?_, ?_, hf.1, hf.2.1, hf.2.2.2.1, hf.2.2.2.2.1, hf.2.2.2.2.2⟩
    · show (memStore.setActive _ U S).GetUserActiveSessionID U = S
      rw [hp U, if_pos rfl]
    · intro u hu
      show (memStore.setActive _ U S).GetUserActiveSessionID u = _
      rw [hp u, if_neg hu]
      rfl
  · intro hge
    have hcap : s.CountPlaySessionMembers S ≥ ps.Capacity := not_lt.mp hge
    unfold Service.Join
    rw [hps]
    simp only []
    rw [if_neg (not_not.mpr hact), if_neg hvis, if_neg hm', if_pos hcap]

/-- C6 at a concrete store: `p1` takes the free seat of the table `S`. -/
theorem join_public_witness :
    (Service.Join createdStore "S" "p1").2 = .ok () ∧
    (Service.Join createdStore "S" "p1").1.members = createdStore.members ++
      [({ SessionID := "S", UserID := "p1", Role := Player, Muted := false } :
        PlaySessionMemberDB)] ∧
    (Service.Join createdStore "S" "p1").1.GetUserActiveSessionID "p1" = "S" :=
  have h := (join_public createdStore "S" "p1" (Service.createdRecord "S" 1 "gm" dtoTwo)
    rfl rfl rfl rfl rfl).1 (by decide)
  ⟨h.1, h.2.1, h.2.2.1⟩

/-! ## The owner's member row -/

theorem OwnerInv_newMem : OwnerInv newMem := by
  intro sid u; rfl

theorem memberIn_none_of_not_member (l : List PlaySessionMemberDB) (sid u : String)
    (h : isMemberIn l sid u = false) : memberIn l sid u = none := by
  rw [isMemberIn_eq_isSome] at h
  cases hm : memberIn l sid u with
  | none => rfl
  | some m => rw [hm] at h; exact Bool.noConfusion h

theorem OwnerInv_delete (s : memStore) (sid0 t : String) (ps0 : PlaySessionDB)
    (h : OwnerInv s) (hps0 : sessionIn s.sessions sid0 = some ps0) (hne : t ≠ ps0.OwnerID)
    (s' : memStore) (hs : s'.sessions = s.sessions)
    (hm : s'.members = s.members.filter (fun x => ¬ (x.SessionID = sid0 ∧ x.UserID = t))) :
    OwnerInv s' := by
  intro sid
  have h0 := h sid
  rw [hs, hm]
  cases hps : sessionIn s.sessions sid with
  | some ps =>
    rw [hps] at h0
    obtain ⟨m, h1, h2, h3⟩ := h0
    refine ⟨m, ?_, h2, h3⟩
    rw [memberIn_delete, if_neg, h1]
    rintro ⟨e1, e2⟩
    rw [e1, hps0] at hps
    exact hne ((Option.some.inj hps) ▸ e2.symm)
  | none =>
    rw [hps] at h0
    intro u
    show isMemberIn (s.members.filter _) sid u = false
    rw [isMemberIn_delete, h0 u]; rfl

theorem OwnerInv_setMuted (s : memStore) (g t : String) (b : Bool) (h : OwnerInv s) :
    OwnerInv (Service.setMuted s g t b).1 := by
  rcases setMuted_effect s g t b with ⟨e, he⟩ | ⟨ps, m0, _, hps, _, hm0, hrole, he⟩
  · rw [he]; exact h
  · rw [he]
    intro sid
    have h0 := h sid
    show match sessionIn s.sessions sid with
      | some ps => ∃ m, memberIn (s.members.map (withMuted (s.GetUserActiveSessionID g) t b))
          sid ps.OwnerID = some m ∧ m.Role = Gm ∧ m.Muted = false
      | none => ∀ u, isMemberIn (s.members.map (withMuted (s.GetUserActiveSessionID g) t b))
          sid u = false
    cases hq : sessionIn s.sessions sid with
    | some q =>
      rw [hq] at h0
      obtain ⟨m, h1, h2, h3⟩ := h0
      have hk := memberIn_keys _ _ _ _ h1
      have hne : ¬ (m.SessionID = s.GetUserActiveSessionID g ∧ m.UserID = t) := by
        rintro ⟨e1, e2⟩
        rw [← hk.2.1, ← hk.2.2, e1, e2, hm0] at h1
        have : m0 = m := Option.some.inj h1
        rw [this, h2] at hrole
        exact absurd hrole (by decide)
      refine ⟨m, ?_, h2, h3⟩
      rw [memberIn_map_withMuted, h1]
      show some (withMuted (s.GetUserActiveSessionID g) t b m) = some m
      unfold withMuted
      rw [if_neg hne]
    | none =>
      rw [hq] at h0
      intro u
      rw [isMemberIn_map_withMuted]
      exact h0 u

theorem OwnerInv_step (s : memStore) (op : Op) (h : OwnerInv s) : OwnerInv (step s op) := by
  cases op with
  | create id now o dto =>
    show OwnerInv (Service.Create s id now o dto).1
    rcases Create_effect s id now o dto with ⟨e, he⟩ | ⟨hnone, ⟨hmem, e, he⟩ | ⟨_, he⟩⟩
    · rw [he]; exact h
    · have h0 := h id
      rw [hnone] at h0
      rw [h0 o] at hmem
      exact Bool.noConfusion hmem
    · rw [he]
      intro sid
      have h0 := h sid
      show match sessionIn (s.sessions ++ [Service.createdRecord id now o dto]) sid with
        | some ps => ∃ m, memberIn (s.members ++ [_]) sid ps.OwnerID = some m ∧
            m.Role = Gm ∧ m.Muted = false
        | none => ∀ u, isMemberIn (s.members ++ [_]) sid u = false
      rw [sessionIn_append_one]
      have hid : (Service.createdRecord id now o dto).ID = id := rfl
      cases hps : sessionIn s.sessions sid with
      | some ps =>
        rw [hps] at h0
        obtain ⟨m, h1, h2, h3⟩ := h0
        refine ⟨m, ?_, h2, h3⟩
        rw [memberIn_append_one, h1]
      | none =>
        rw [hps] at h0
        by_cases hk : id = sid
        · subst hk
          rw [if_pos hid]
          refine ⟨PlaySessionMemberDB.mk id o Gm false, ?_, rfl, rfl⟩
          show memberIn (s.members ++ [_]) id o = _
          rw [memberIn_append_one, memberIn_none_of_not_member _ _ _ (h0 o)]
          simp
        · rw [hid, if_neg hk]
          intro u
          show isMemberIn (s.members ++ [_]) sid u = false
          rw [isMemberIn_append_one, h0 u]
          simp [hk]
  | join S U =>
    show OwnerInv (Service.Join s S U).1
    rcases Join_effect s S U with ⟨e, he⟩ | ⟨ps, hps, _, _, _, _, he⟩
    · rw [he]; exact h
    · rw [he]
      intro sid
      have h0 := h sid
      have hf := setActive_fields ({ s with members := s.members ++
            [({ SessionID := S, UserID := U, Role := Player, Muted := false } :
               PlaySessionMemberDB)] }) U S
      simp only [hf.2.1, hf.2.2.1]
      cases hq : sessionIn s.sessions sid with
      | some q =>
        rw [hq] at h0
        obtain ⟨m, h1, h2, h3⟩ := h0
        refine ⟨m, ?_, h2, h3⟩
        rw [memberIn_append_one, h1]
      | none =>
        rw [hq] at h0
        intro u
        have hne : S ≠ sid := by
          intro e; rw [e, hq] at hps; exact Option.noConfusion hps
        show isMemberIn (s.members ++ [_]) sid u = false
        rw [isMemberIn_append_one, h0 u]
        simp [hne]
  | leave u =>
    show OwnerInv (Service.Leave s u).1
    rcases Leave_effect s u with ⟨e, he⟩ | ⟨ps, _, hps, _, _, hown, he⟩
    · rw [he]; exact h
    · rw [he]
      exact OwnerInv_delete s _ u ps h hps (fun e => hown e.symm) _ rfl rfl
  | sendMessage id now u t =>
    show OwnerInv (Service.SendMessage s id now u t).1
    rcases SendMessage_effect s id now u t with ⟨e, he⟩ | ⟨ps, _, _, _, _, _, he⟩
    · rw [he]; exact h
    · rw [he]; exact h
  | mute g t =>
    show OwnerInv (Service.setMuted s g t true).1
    exact OwnerInv_setMuted s g t true h
  | unmute g t =>
    show OwnerInv (Service.setMuted s g t false).1
    exact OwnerInv_setMuted s g t false h
  | remove g t =>
    show OwnerInv (Service.Remove s g t).1
    rcases Remove_effect s g t with ⟨e, he⟩ | ⟨ps, _, hps, _, hne, _, he⟩
    · rw [he]; exact h
    · rw [he]
      have hf := removed_fields s (s.GetUserActiveSessionID g) t
      exact OwnerInv_delete s _ t ps h hps hne _ hf.1 hf.2.1
  | endSession g =>
    show OwnerInv (Service.End s g).1
    rcases End_effect s g with ⟨e, he⟩ | ⟨ps, _, _, _, _, he⟩
    · rw [he]; exact h
    · rw [he]
      intro sid
      have h0 := h sid
      show match sessionIn (s.sessions.map (withStatus (s.GetUserActiveSessionID g) Archived)) sid with
        | some ps => ∃ m, memberIn s.members sid ps.OwnerID = some m ∧
            m.Role = Gm ∧ m.Muted = false
        | none => ∀ u, isMemberIn s.members sid u = false
      rw [sessionIn_map_withStatus]
      cases hq : sessionIn s.sessions sid with
      | some q =>
        rw [hq] at h0
        have : (withStatus (s.GetUserActiveSessionID g) Archived q).OwnerID = q.OwnerID := by
          unfold withStatus; split <;> rfl
        show ∃ m, memberIn s.members sid
          (withStatus (s.GetUserActiveSessionID g) Archived q).OwnerID = some m ∧ _
        rw [this]; exact h0
      | none => rw [hq] at h0; exact h0

theorem OwnerInv_run (ops : List Op) : ∀ (s : memStore), OwnerInv s → OwnerInv (run s ops) := by
  induction ops with
  | nil => intro s h; exact h
  | cons op rest ih =>
    intro s h
    show OwnerInv (run (step s op) rest)
    exact ih _ (OwnerInv_step s op h)

/-- C7. After every sequence of service calls from the empty store, the owner
of every session the store holds has a member row in that session with role
`Gm` and `muted = false`. -/
theorem owner_row_is_gm (ops : List Op) (sid : String) (ps : PlaySessionDB)
    (hps : (run newMem ops).GetPlaySessionByID sid = .ok ps) :
    (run newMem ops).GetPlaySessionMember sid ps.OwnerID =
      some { SessionID := sid, UserID := ps.OwnerID, Role := Gm, Muted := false } := by
  have h0 := OwnerInv_run ops newMem OwnerInv_newMem sid
  rw [GetPlaySessionByID_ok_iff] at hps
  rw [hps] at h0
  obtain ⟨m, h1, h2, h3⟩ := h0
  rw [GetPlaySessionMember_view, h1]
  show some _ = some _
  rw [h2, h3]

/-- C7 at a concrete sequence: the owner of `S` keeps the `Gm` row. -/
theorem owner_row_is_gm_witness :
    (run newMem busyOps).GetPlaySessionByID "S" =
      .ok (Service.createdRecord "S" 1 "gm" dtoTwo) ∧
    (run newMem busyOps).GetPlaySessionMember "S" "gm" =
      some { SessionID := "S", UserID := "gm", Role := Gm, Muted := false } :=
  ⟨rfl, owner_row_is_gm busyOps "S" (Service.createdRecord "S" 1 "gm" dtoTwo) rfl⟩

/-! ## The owner cannot be moderated -/

/-- C8. For a session `S` whose owner `o` has a user record, a member row
with role `Gm` and an active-session pointer at `S`: `Remove(o, o)` fails with
`CannotRemoveOwner`, `Mute(o, o)` and `Unmute(o, o)` fail with
`PlayerNotInSession`, and the store is unchanged each time. -/
theorem owner_is_protected (s : memStore) (S o : String) (ps : PlaySessionDB) (usr : User)
    (m : PlaySessionMemberDB)
    (hS : S ≠ "") (hptr : s.GetUserActiveSessionID o = S)
    (hps : s.GetPlaySessionByID S = .ok ps) (hown : ps.OwnerID = o)
    (husr : s.GetUserByID o = .ok usr)
    (hm : s.GetPlaySessionMember S o = some m) (hrole : m.Role = Gm) :
    Service.Remove s o o = (s, .error ErrCannotRemoveOwner) ∧
    Service.Mute s o o = (s, .error ErrPlayerNotInSession) ∧
    Service.Unmute s o o = (s, .error ErrPlayerNotInSession) := by
  have hP : ¬ s.GetUserActiveSessionID o = "" := by rw [hptr]; exact hS
  have hrole' : m.Role ≠ Player := by rw [hrole]; decide
  have hmute : ∀ b, Service.setMuted s o o b = (s, .error ErrPlayerNotInSession) := by
    intro b
    unfold Service.setMuted
    simp only []
    rw [if_neg hP, hptr, hps]
    simp only []
    rw [if_neg (not_not.mpr hown), husr]
    simp only []
    rw [hm]
    simp only []
    rw [if_pos hrole']
  refine ⟨?_, hmute true, hmute false⟩
  unfold Service.Remove
  simp only []
  rw [if_neg hP, hptr, hps]
  simp only []
  rw [if_neg (not_not.mpr hown), husr]
  simp only []
  rw [if_pos hown.symm]

/-- C8 at a concrete store: `gm`, seated at the own table `S`. -/
theorem owner_is_protected_witness :
    Service.Remove seatedStore "gm" "gm" = (seatedStore, .error ErrCannotRemoveOwner) ∧
    Service.Mute seatedStore "gm" "gm" = (seatedStore, .error ErrPlayerNotInSession) ∧
    Service.Unmute seatedStore "gm" "gm" = (seatedStore, .error ErrPlayerNotInSession) :=
  owner_is_protected seatedStore "S" "gm" (Service.createdRecord "S" 1 "gm" dtoTwo)
    { ID := "gm" } { SessionID := "S", UserID := "gm", Role := Gm, Muted := false }
    (by decide) rfl rfl rfl rfl rfl rfl

/-! ## Only the owner moderates -/

/-- C10. For an actor whose active-session pointer references an existing
session `S` owned by somebody else, and every target: `Mute`, `Unmute` and
`Remove` fail with `NotOwner` and leave the store unchanged, `End` fails with
`NotOwner` when `S` is Active, and `End` leaves the store unchanged whatever
the status of `S`. -/
theorem only_owner_moderates (s : memStore) (S actor target : String) (ps : PlaySessionDB)
    (hS : S ≠ "") (hptr : s.GetUserActiveSessionID actor = S)
    (hps : s.GetPlaySessionByID S = .ok ps) (hown : ps.OwnerID ≠ actor) :
    Service.Mute s actor target = (s, .error ErrNotOwner) ∧
    Service.Unmute s actor target = (s, .error ErrNotOwner) ∧
    Service.Remove s actor target = (s, .error ErrNotOwner) ∧
    (ps.Status = Active → Service.End s actor = (s, .error ErrNotOwner)) ∧
    (Service.End s actor).1 = s := by
  have hP : ¬ s.GetUserActiveSessionID actor = "" := by rw [hptr]; exact hS
  have hmute : ∀ b, Service.setMuted s actor target b = (s, .error ErrNotOwner) := by
    intro b
    unfold Service.setMuted
    simp only []
    rw [if_neg hP, hptr, hps]
    simp only []
    rw [if_pos hown]
  refine ⟨hmute true, hmute false, ?_, ?_, ?_⟩
  · unfold Service.Remove
    simp only []
    rw [if_neg hP, hptr, hps]
    simp only []
    rw [if_pos hown]
  · intro hact
    unfold Service.End
    simp only []
    rw [if_neg hP, hptr, hps]
    simp only []
    rw [if_neg (not_not.mpr hact), if_pos hown]
  · unfold Service.End
    simp only []
    rw [if_neg hP, hptr, hps]
    simp only []
    by_cases hact : ps.Status ≠ Active
    · rw [if_pos hact]
    · rw [if_neg hact, if_pos hown]

/-- C10 at a concrete store: the player `u`, seated at the table of `gm`. -/
theorem only_owner_moderates_witness :
    Service.Mute seatedStore "u" "gm" = (seatedStore, .error ErrNotOwner) ∧
    Service.Unmute seatedStore "u" "gm" = (seatedStore, .error ErrNotOwner) ∧
    Service.Remove seatedStore "u" "gm" = (seatedStore, .error ErrNotOwner) ∧
    Service.End seatedStore "u" = (seatedStore, .error ErrNotOwner) :=
  have h := only_owner_moderates seatedStore "S" "u" "gm"
    (Service.createdRecord "S" 1 "gm" dtoTwo) (by decide) rfl rfl (by decide)
  ⟨h.1, h.2.1, h.2.2.1, h.2.2.2.1 rfl⟩

/-! ## Leave -/

/-- C9. `Leave(u)` fails with `NoActiveSession` if `u` has no active-session
pointer, else `SessionNotFound` if the session it names is absent, else
`SessionArchived` if that session is not Active, else `NotMember` if `u` has no
member row in it, else `ForbiddenJoin` if `u` is its owner, the store being
unchanged in all these cases; otherwise it returns the session id, deletes the
member row of `u` in that session and no other, empties the pointer of `u`,
and changes nothing else. -/
theorem leave_spec (s : memStore) (u : String) :
    (s.GetUserActiveSessionID u = "" →
      Service.Leave s u = (s, .error ErrNoActiveSession)) ∧
    (s.GetUserActiveSessionID u ≠ "" →
      (∀ e, s.GetPlaySessionByID (s.GetUserActiveSessionID u) = .error e →
        Service.Leave s u = (s, .error ErrSessionNotFound)) ∧
      (∀ ps, s.GetPlaySessionByID (s.GetUserActiveSessionID u) = .ok ps →
        (ps.Status ≠ Active → Service.Leave s u = (s, .error ErrSessionArchived)) ∧
        (ps.Status = Active → s.IsPlaySessionMember (s.GetUserActiveSessionID u) u = false →
          Service.Leave s u = (s, .error ErrNotMember)) ∧
        (ps.Status = Active → s.IsPlaySessionMember (s.GetUserActiveSessionID u) u = true →
          ps.OwnerID = u → Service.Leave s u = (s, .error ErrForbiddenJoin)) ∧
        (ps.Status = Active → s.IsPlaySessionMember (s.GetUserActiveSessionID u) u = true →
          ps.OwnerID ≠ u →
          (Service.Leave s u).2 = .ok (s.GetUserActiveSessionID u) ∧
          (Service.Leave s u).1.members = s.members.filter (fun x =>
            ¬ (x.SessionID = s.GetUserActiveSessionID u ∧ x.UserID = u)) ∧
          (Service.Leave s u).1.IsPlaySessionMember (s.GetUserActiveSessionID u) u = false ∧
          (∀ sid' u', ¬ (sid' = s.GetUserActiveSessionID u ∧ u' = u) →
            (Service.Leave s u).1.GetPlaySessionMember sid' u' =
              s.GetPlaySessionMember sid' u') ∧
          (Service.Leave s u).1.GetUserActiveSessionID u = "" ∧
          (∀ u', u' ≠ u →
            (Service.Leave s u).1.GetUserActiveSessionID u' = s.GetUserActiveSessionID u') ∧
          (Service.Leave s u).1.users = s.users ∧
          (Service.Leave s u).1.sessions = s.sessions ∧
          (Service.Leave s u).1.bans = s.bans ∧
          (Service.Leave s u).1.seq = s.seq ∧
          (Service.Leave s u).1.msgs = s.msgs))) := by
  constructor
  · intro h0
    unfold Service.Leave
    simp only []
    rw [if_pos h0]
  intro h0
  constructor
  · intro e he
    unfold Service.Leave
    simp only []
    rw [if_neg h0, he]
  intro ps hps
  refine ⟨?_, ?_, ?_, ?_⟩
  · intro h1
    unfold Service.Leave
    simp only []
    rw [if_neg h0, hps]
    simp only []
    rw [if_pos h1]
  · intro h1 h2
    unfold Service.Leave
    simp only []
    rw [if_neg h0, hps]
    simp only []
    rw [if_neg (not_not.mpr h1), if_pos (by rw [h2]; exact Bool.false_ne_true)]
  · intro h1 h2 h3
    unfold Service.Leave
    simp only []
    rw [if_neg h0, hps]
    simp only []
    rw [if_neg (not_not.mpr h1), if_neg (not_not.mpr h2), if_pos h3]
  · intro h1 h2 h3
    rcases Leave_effect s u with ⟨e, he⟩ | ⟨ps', _, _, _, _, _, he⟩
    · exfalso
      have : Service.Leave s u = _ := he
      unfold Service.Leave at this
      simp only [] at this
      rw [if_neg h0, hps] at this
      simp only [] at this
      rw [if_neg (not_not.mpr h1), if_neg (not_not.mpr h2), if_neg h3] at this
      have h5 := (Prod.mk.inj this).2
      cases h5
    · rw [he]
      refine ⟨rfl, rfl, ?_, ?_, ?_, ?_, rfl, rfl, rfl, rfl, rfl⟩
      · show isMemberIn (s.members.filter _) _ _ = false
        rw [isMemberIn_delete]
        simp
      · intro sid' u' hne
        rw [GetPlaySessionMember_view, GetPlaySessionMember_view]
        show (match memberIn (s.members.filter _) sid' u' with
          | some mb => some _
          | none => none) = _
        rw [memberIn_delete, if_neg hne]
      · show pointerIn (s.activeByUser.filter _) u = ""
        rw [pointerIn_erase, if_pos rfl]
      · intro u' hu
        show pointerIn (s.activeByUser.filter _) u' = _
        rw [pointerIn_erase, if_neg hu]
        rfl

/-- C9 at a concrete store: the player `u` leaves the table `S`, the owner
`gm` may not. -/
theorem leave_spec_witness :
    Service.Leave seatedStore "u" = (leftStore, .ok "S") ∧
    leftStore.IsPlaySessionMember "S" "u" = false ∧
    leftStore.GetUserActiveSessionID "u" = "" ∧
    leftStore.GetPlaySessionMember "S" "gm" = seatedStore.GetPlaySessionMember "S" "gm" ∧
    Service.Leave seatedStore "gm" = (seatedStore, .error ErrForbiddenJoin) ∧
    Service.Leave leftStore "u" = (leftStore, .error ErrNoActiveSession) := by
  have hu := ((leave_spec seatedStore "u").2 (by decide)).2
    (Service.createdRecord "S" 1 "gm" dtoTwo) rfl
  have hg := ((leave_spec seatedStore "gm").2 (by decide)).2
    (Service.createdRecord "S" 1 "gm" dtoTwo) rfl
  have h4 := hu.2.2.2 rfl rfl (by decide)
  exact ⟨rfl, h4.2.2.1, h4.2.2.2.2.1, h4.2.2.2.1 "S" "gm" (by decide), hg.2.2.1 rfl rfl rfl,
    (leave_spec leftStore "u").1 rfl⟩

/-! ## Calls on an ended session -/

/-- C11. For an existing session `S` whose status is not Active: `Join(S, u)`
fails with `SessionArchived` for every user `u`, and `Leave`, `SendMessage`
and `End` called by a user whose active-session pointer references `S` fail
with `SessionArchived`; the store is unchanged each time. -/
theorem ended_session_rejects (s : memStore) (S : String) (ps : PlaySessionDB)
    (hps : s.GetPlaySessionByID S = .ok ps) (hst : ps.Status ≠ Active) :
    (∀ u, Service.Join s S u = (s, .error ErrSessionArchived)) ∧
    (∀ u, S ≠ "" → s.GetUserActiveSessionID u = S →
      Service.Leave s u = (s, .error ErrSessionArchived) ∧
      (∀ id now text, Service.SendMessage s id now u text = (s, .error ErrSessionArchived)) ∧
      Service.End s u = (s, .error ErrSessionArchived)) := by
  constructor
  · intro u
    unfold Service.Join
    rw [hps]
    simp only []
    rw [if_pos hst]
  · intro u hS hptr
    have hP : ¬ s.GetUserActiveSessionID u = "" := by rw [hptr]; exact hS
    refine ⟨?_, ?_, ?_⟩
    · unfold Service.Leave
      simp only []
      rw [if_neg hP, hptr, hps]
      simp only []
      rw [if_pos hst]
    · intro id now text
      unfold Service.SendMessage
      simp only []
      rw [if_neg hP, hptr, hps]
      simp only []
      rw [if_pos hst]
    · unfold Service.End
      simp only []
      rw [if_neg hP, hptr, hps]
      simp only []
      rw [if_pos hst]

/-- C11 at a concrete store: the ended table `S`, with `u` still seated. -/
theorem ended_session_rejects_witness :
    Service.Join stalePointerStore "S" "p1" = (stalePointerStore, .error ErrSessionArchived) ∧
    Service.Leave stalePointerStore "u" = (stalePointerStore, .error ErrSessionArchived) ∧
    Service.SendMessage stalePointerStore "m1" 9 "u" "hi" =
      (stalePointerStore, .error ErrSessionArchived) ∧
    Service.End stalePointerStore "gm" = (stalePointerStore, .error ErrSessionArchived) :=
  have h := ended_session_rejects stalePointerStore "S"
    (withStatus "S" Archived (Service.createdRecord "S" 1 "gm" dtoTwo)) rfl (by decide)
  ⟨h.1 "p1", (h.2 "u" (by decide) rfl).1, (h.2 "u" (by decide) rfl).2.1 "m1" 9 "hi",
    (h.2 "gm" (by decide) rfl).2.2⟩

/-- C12, on the code. In `stalePointerStore` the session `S` is Archived, it
is owned by `gm` and the pointer of `gm` references it. `Mute(gm, u)` succeeds
and sets the muted flag of `u`, `Unmute(gm, u)` succeeds, and `Remove(gm, u)`
succeeds, deletes the member row of `u` and bans `u`: none fails with
`SessionArchived`. -/
theorem moderation_on_ended_session_succeeds :
    stalePointerStore.GetPlaySessionByID "S" =
      .ok (withStatus "S" Archived (Service.createdRecord "S" 1 "gm" dtoTwo)) ∧
    (withStatus "S" Archived (Service.createdRecord "S" 1 "gm" dtoTwo)).Status = Archived ∧
    (withStatus "S" Archived (Service.createdRecord "S" 1 "gm" dtoTwo)).OwnerID = "gm" ∧
    stalePointerStore.GetUserActiveSessionID "gm" = "S" ∧
    (Service.Mute stalePointerStore "gm" "u").2 = .ok "S" ∧
    stalePointerStore.IsMemberMuted "S" "u" = false ∧
    (Service.Mute stalePointerStore "gm" "u").1.IsMemberMuted "S" "u" = true ∧
    (Service.Unmute stalePointerStore "gm" "u").2 = .ok "S" ∧
    (Service.Remove stalePointerStore "gm" "u").2 = .ok "S" ∧
    stalePointerStore.IsPlaySessionMember "S" "u" = true ∧
    (Service.Remove stalePointerStore "gm" "u").1.IsPlaySessionMember "S" "u" = false ∧
    stalePointerStore.IsBannedFromSession "S" "u" = false ∧
    (Service.Remove stalePointerStore "gm" "u").1.IsBannedFromSession "S" "u" = true :=
  ⟨rfl, rfl, rfl, rfl, rfl, rfl, rfl, rfl, rfl, rfl, rfl, rfl, rfl⟩

/-! ## The status of a session -/

/-- What one call does to the record of a session that exists: it is still
there, with the same status unless the call is an `End` that archives it. -/
theorem step_status (s : memStore) (op : Op) (sid : String) (ps : PlaySessionDB)
    (hps : sessionIn s.sessions sid = some ps) :
    ∃ ps', sessionIn (step s op).sessions sid = some ps' ∧
      (ps'.Status = ps.Status ∨
        ((∃ g, op = .endSession g) ∧ ps.Status = Active ∧ ps'.Status = Archived)) := by
  cases op with
  | create id now o dto =>
    show ∃ ps', sessionIn (Service.Create s id now o dto).1.sessions sid = some ps' ∧ _
    rcases Create_effect s id now o dto with ⟨e, he⟩ | ⟨_, ⟨_, e, he⟩ | ⟨_, he⟩⟩
    · rw [he]; exact ⟨ps, hps, Or.inl rfl⟩
    · rw [he]
      refine ⟨ps, ?_, Or.inl rfl⟩
      show sessionIn (s.sessions ++ [_]) sid = some ps
      rw [sessionIn_append_one, hps]
    · rw [he]
      refine ⟨ps, ?_, Or.inl rfl⟩
      show sessionIn (s.sessions ++ [_]) sid = some ps
      rw [sessionIn_append_one, hps]
  | join S U =>
    show ∃ ps', sessionIn (Service.Join s S U).1.sessions sid = some ps' ∧ _
    rcases Join_effect s S U with ⟨e, he⟩ | ⟨q, _, _, _, _, _, he⟩
    · rw [he]; exact ⟨ps, hps, Or.inl rfl⟩
    · rw [he]
      have hf := setActive_fields ({ s with members := s.members ++
            [({ SessionID := S, UserID := U, Role := Player, Muted := false } :
               PlaySessionMemberDB)] }) U S
      refine ⟨ps, ?_, Or.inl rfl⟩
      rw [hf.2.1]; exact hps
  | leave u =>
    show ∃ ps', sessionIn (Service.Leave s u).1.sessions sid = some ps' ∧ _
    rcases Leave_effect s u with ⟨e, he⟩ | ⟨q, _, _, _, _, _, he⟩
    · rw [he]; exact ⟨ps, hps, Or.inl rfl⟩
    · rw [he]; exact ⟨ps, hps, Or.inl rfl⟩
  | sendMessage id now u t =>
    show ∃ ps', sessionIn (Service.SendMessage s id now u t).1.sessions sid = some ps' ∧ _
    rcases SendMessage_effect s id now u t with ⟨e, he⟩ | ⟨q, _, _, _, _, _, he⟩
    · rw [he]; exact ⟨ps, hps, Or.inl rfl⟩
    · rw [he]; exact ⟨ps, hps, Or.inl rfl⟩
  | mute g t =>
    show ∃ ps', sessionIn (Service.setMuted s g t true).1.sessions sid = some ps' ∧ _
    rcases setMuted_effect s g t true with ⟨e, he⟩ | ⟨q, m, _, _, _, _, _, he⟩
    · rw [he]; exact ⟨ps, hps, Or.inl rfl⟩
    · rw [he]; exact ⟨ps, hps, Or.inl rfl⟩
  | unmute g t =>
    show ∃ ps', sessionIn (Service.setMuted s g t false).1.sessions sid = some ps' ∧ _
    rcases setMuted_effect s g t false with ⟨e, he⟩ | ⟨q, m, _, _, _, _, _, he⟩
    · rw [he]; exact ⟨ps, hps, Or.inl rfl⟩
    · rw [he]; exact ⟨ps, hps, Or.inl rfl⟩
  | remove g t =>
    show ∃ ps', sessionIn (Service.Remove s g t).1.sessions sid = some ps' ∧ _
    rcases Remove_effect s g t with ⟨e, he⟩ | ⟨q, _, _, _, _, _, he⟩
    · rw [he]; exact ⟨ps, hps, Or.inl rfl⟩
    · rw [he]
      have hf := removed_fields s (s.GetUserActiveSessionID g) t
      refine ⟨ps, ?_, Or.inl rfl⟩
      rw [hf.1]; exact hps
  | endSession g =>
    show ∃ ps', sessionIn (Service.End s g).1.sessions sid = some ps' ∧ _
    rcases End_effect s g with ⟨e, he⟩ | ⟨q, _, hq, hact, _, he⟩
    · rw [he]; exact ⟨ps, hps, Or.inl rfl⟩
    · rw [he]
      refine ⟨withStatus (s.GetUserActiveSessionID g) Archived ps, ?_, ?_⟩
      · show sessionIn (s.sessions.map _) sid = _
        rw [sessionIn_map_withStatus, hps]; rfl
      · by_cases hk : ps.ID = s.GetUserActiveSessionID g
        · right
          have hsid := sessionIn_ID _ _ _ hps
          have : q = ps := by
            rw [← hk, hsid, hps] at hq
            exact (Option.some.inj hq).symm
          refine ⟨⟨g, rfl⟩, this ▸ hact, ?_⟩
          unfold withStatus
          rw [if_pos hk]
        · left
          unfold withStatus
          rw [if_neg hk]

theorem run_archived (ops : List Op) : ∀ (s : memStore) (sid : String) (ps : PlaySessionDB),
    sessionIn s.sessions sid = some ps → ps.Status = Archived →
    ∃ ps', sessionIn (run s ops).sessions sid = some ps' ∧ ps'.Status = Archived := by
  induction ops with
  | nil => intro s sid ps h1 h2; exact ⟨ps, h1, h2⟩
  | cons op rest ih =>
    intro s sid ps h1 h2
    obtain ⟨ps', h3, h4⟩ := step_status s op sid ps h1
    have h5 : ps'.Status = Archived := by
      rcases h4 with h4 | ⟨_, _, h4⟩
      · rw [h4, h2]
      · exact h4
    exact ih (step s op) sid ps' h3 h5

/-- C13. Archival is terminal. A session that `Create` has just made is
Active; a call leaves the status of every existing session as it was, unless
the call is an `End`, which can only turn Active into Archived; and a session
that is Archived is Archived after every further sequence of calls. -/
theorem archival_is_terminal :
    (∀ (s : memStore) (id : String) (now : Int) (o : String) (dto : CreatePlaySessionDTO)
        (id' : String),
      (Service.Create s id now o dto).2 = .ok id' →
      ∃ ps, (Service.Create s id now o dto).1.GetPlaySessionByID id' = .ok ps ∧
        ps.Status = Active) ∧
    (∀ (s : memStore) (op : Op) (sid : String) (ps : PlaySessionDB),
      s.GetPlaySessionByID sid = .ok ps →
      ∃ ps', (step s op).GetPlaySessionByID sid = .ok ps' ∧
        (ps'.Status = ps.Status ∨
          ((∃ g, op = .endSession g) ∧ ps.Status = Active ∧ ps'.Status = Archived))) ∧
    (∀ (s : memStore) (ops : List Op) (sid : String) (ps : PlaySessionDB),
      s.GetPlaySessionByID sid = .ok ps → ps.Status = Archived →
      ∃ ps', (run s ops).GetPlaySessionByID sid = .ok ps' ∧ ps'.Status = Archived) := by
  refine ⟨?_, ?_, ?_⟩
  · intro s id now o dto id' h
    rcases Create_effect s id now o dto with ⟨e, he⟩ | ⟨hnone, ⟨_, e, he⟩ | ⟨_, he⟩⟩
    · rw [he] at h; cases h
    · rw [he] at h; cases h
    · rw [he] at h ⊢
      have hid : id' = id := (Except.ok.inj h).symm
      refine ⟨Service.createdRecord id now o dto, ?_, rfl⟩
      rw [GetPlaySessionByID_ok_iff, hid]
      show sessionIn (s.sessions ++ [_]) id = _
      rw [sessionIn_append_one, hnone]
      exact if_pos rfl
  · intro s op sid ps hps
    rw [GetPlaySessionByID_ok_iff] at hps
    obtain ⟨ps', h1, h2⟩ := step_status s op sid ps hps
    exact ⟨ps', (GetPlaySessionByID_ok_iff _ _ _).mpr h1, h2⟩
  · intro s ops sid ps hps hst
    rw [GetPlaySessionByID_ok_iff] at hps
    obtain ⟨ps', h1, h2⟩ := run_archived ops s sid ps hps hst
    exact ⟨ps', (GetPlaySessionByID_ok_iff _ _ _).mpr h1, h2⟩

/-- C13 at a concrete store: the table `S`, ended by `gm`, stays Archived
through a further join, message, mute and end. -/
theorem archival_is_terminal_witness :
    ∃ ps', (run (Service.End seatedStore "gm").1
        [.join "S" "p1", .sendMessage "m1" 9 "u" "hi", .mute "gm" "u",
         .endSession "gm"]).GetPlaySessionByID "S" = .ok ps' ∧ ps'.Status = Archived :=
  archival_is_terminal.2.2 (Service.End seatedStore "gm").1 _ "S"
    (withStatus "S" Archived (Service.createdRecord "S" 1 "gm" dtoTwo)) rfl rfl

/-! ## The active-session pointers -/

theorem removed_pointer (s : memStore) (sid t u : String) :
    (((s.DeletePlaySessionMember sid t).InsertPlaySessionBan sid
        t).ClearUserActiveSessionIfMatch t sid).GetUserActiveSessionID u =
      if u = t ∧ s.GetUserActiveSessionID t = sid then "" else s.GetUserActiveSessionID u := by
  have h2 := (ban_fields (s.DeletePlaySessionMember sid t) sid t).2.2.2.1
  have hp : ∀ v, ((s.DeletePlaySessionMember sid t).InsertPlaySessionBan sid
      t).GetUserActiveSessionID v = s.GetUserActiveSessionID v := by
    intro v
    unfold memStore.InsertPlaySessionBan
    rw [GetUserActiveSessionID_view, h2]
    rfl
  rw [ClearIfMatch_pointer, hp, hp]

theorem PtrInv_newMem : PtrInv newMem := by
  intro u h
  exact absurd rfl h

theorem PtrInv_step (s : memStore) (op : Op) (h : PtrInv s) : PtrInv (step s op) := by
  cases op with
  | create id now o dto =>
    show PtrInv (Service.Create s id now o dto).1
    rcases Create_effect s id now o dto with ⟨e, he⟩ | ⟨_, ⟨_, e, he⟩ | ⟨_, he⟩⟩
    · rw [he]; exact h
    · rw [he]
      intro u hu
      obtain ⟨ps, h1, h2⟩ := h u hu
      refine ⟨ps, ?_, h2⟩
      show sessionIn (s.sessions ++ [_]) _ = some ps
      rw [sessionIn_append_one]
      show (match sessionIn s.sessions (pointerIn s.activeByUser u) with
        | some ps => some ps
        | none => _) = some ps
      rw [h1]
    · rw [he]
      intro u hu
      obtain ⟨ps, h1, h2⟩ := h u hu
      refine ⟨ps, ?_, h2⟩
      show sessionIn (s.sessions ++ [_]) _ = some ps
      rw [sessionIn_append_one]
      show (match sessionIn s.sessions (pointerIn s.activeByUser u) with
        | some ps => some ps
        | none => _) = some ps
      rw [h1]
  | join S U =>
    show PtrInv (Service.Join s S U).1
    rcases Join_effect s S U with ⟨e, he⟩ | ⟨q, hq, hact, _, _, _, he⟩
    · rw [he]; exact h
    · rw [he]
      have hf := setActive_fields ({ s with members := s.members ++
            [({ SessionID := S, UserID := U, Role := Player, Muted := false } :
               PlaySessionMemberDB)] }) U S
      have hp := setActive_pointer ({ s with members := s.members ++
            [({ SessionID := S, UserID := U, Role := Player, Muted := false } :
               PlaySessionMemberDB)] }) U S
      intro u hu
      have hpu := hp u
      rw [GetUserActiveSessionID_view] at hpu
      show ∃ ps, sessionIn (memStore.setActive _ U S).sessions
        (pointerIn (memStore.setActive _ U S).activeByUser u) = some ps ∧ _
      change pointerIn (memStore.setActive _ U S).activeByUser u ≠ "" at hu
      rw [hpu] at hu ⊢
      rw [hf.2.1]
      by_cases hk : u = U
      · rw [if_pos hk]
        exact ⟨q, hq, hact⟩
      · rw [if_neg hk] at hu ⊢
        exact h u hu
  | leave u =>
    show PtrInv (Service.Leave s u).1
    rcases Leave_effect s u with ⟨e, he⟩ | ⟨q, _, _, _, _, _, he⟩
    · rw [he]; exact h
    · rw [he]
      intro v hv
      change pointerIn (s.activeByUser.filter _) v ≠ "" at hv
      show ∃ ps, sessionIn s.sessions (pointerIn (s.activeByUser.filter _) v) = some ps ∧ _
      rw [pointerIn_erase] at hv ⊢
      by_cases hk : v = u
      · rw [if_pos hk] at hv; exact absurd rfl hv
      · rw [if_neg hk] at hv ⊢
        exact h v hv
  | sendMessage id now u t =>
    show PtrInv (Service.SendMessage s id now u t).1
    rcases SendMessage_effect s id now u t with ⟨e, he⟩ | ⟨q, _, _, _, _, _, he⟩
    · rw [he]; exact h
    · rw [he]; exact h
  | mute g t =>
    show PtrInv (Service.setMuted s g t true).1
    rcases setMuted_effect s g t true with ⟨e, he⟩ | ⟨q, m, _, _, _, _, _, he⟩
    · rw [he]; exact h
    · rw [he]; exact h
  | unmute g t =>
    show PtrInv (Service.setMuted s g t false).1
    rcases setMuted_effect s g t false with ⟨e, he⟩ | ⟨q, m, _, _, _, _, _, he⟩
    · rw [he]; exact h
    · rw [he]; exact h
  | remove g t =>
    show PtrInv (Service.Remove s g t).1
    rcases Remove_effect s g t with ⟨e, he⟩ | ⟨q, _, _, _, _, _, he⟩
    · rw [he]; exact h
    · rw [he]
      have hf := removed_fields s (s.GetUserActiveSessionID g) t
      intro v hv
      have hp := removed_pointer s (s.GetUserActiveSessionID g) t v
      rw [GetUserActiveSessionID_view] at hp
      show ∃ ps, sessionIn (memStore.ClearUserActiveSessionIfMatch _ t _).sessions
        (pointerIn (memStore.ClearUserActiveSessionIfMatch _ t _).activeByUser v) = some ps ∧ _
      change pointerIn (memStore.ClearUserActiveSessionIfMatch _ t _).activeByUser v ≠ "" at hv
      rw [hp] at hv ⊢
      rw [hf.1]
      by_cases hk : v = t ∧ s.GetUserActiveSessionID t = s.GetUserActiveSessionID g
      · rw [if_pos hk] at hv; exact absurd rfl hv
      · rw [if_neg hk] at hv ⊢
        exact h v hv
  | endSession g =>
    show PtrInv (Service.End s g).1
    rcases End_effect s g with ⟨e, he⟩ | ⟨q, _, hq, hact, _, he⟩
    · rw [he]; exact h
    · rw [he]
      intro v hv
      change pointerIn (s.activeByUser.filter _) v ≠ "" at hv
      show ∃ ps, sessionIn (s.sessions.map _) (pointerIn (s.activeByUser.filter _) v) =
        some ps ∧ _
      rw [pointerIn_clearAll] at hv ⊢
      by_cases hk : pointerIn s.activeByUser v = s.GetUserActiveSessionID g
      · rw [if_pos hk] at hv; exact absurd rfl hv
      · rw [if_neg hk] at hv ⊢
        obtain ⟨ps, h1, h2⟩ := h v hv
        have hid := sessionIn_ID _ _ _ h1
        refine ⟨ps, ?_, h2⟩
        rw [sessionIn_map_withStatus, h1]
        show some (withStatus _ Archived ps) = some ps
        unfold withStatus
        rw [if_neg (by rw [hid]; exact hk)]

theorem PtrInv_run (ops : List Op) : ∀ (s : memStore), PtrInv s → PtrInv (run s ops) := by
  induction ops with
  | nil => intro s h; exact h
  | cons op rest ih =>
    intro s h
    show PtrInv (run (step s op) rest)
    exact ih _ (PtrInv_step s op h)

/-- C16. After every sequence of service calls executed one at a time from
the empty store, a user's active-session pointer, when it is not empty, names
an existing session whose status is Active. -/
theorem pointer_names_active_session (ops : List Op) (u : String)
    (hu : (run newMem ops).GetUserActiveSessionID u ≠ "") :
    ∃ ps, (run newMem ops).GetPlaySessionByID ((run newMem ops).GetUserActiveSessionID u) =
        .ok ps ∧ ps.Status = Active := by
  obtain ⟨ps, h1, h2⟩ := PtrInv_run ops newMem PtrInv_newMem u hu
  exact ⟨ps, (GetPlaySessionByID_ok_iff _ _ _).mpr h1, h2⟩

/-- C16 at a concrete sequence: after `gm` has ended a foreign table in
vain and `p1` has left `S`, `gm` is seated at the Active table `T`. -/
theorem pointer_names_active_session_witness :
    (run newMem pointerOps).GetUserActiveSessionID "gm" = "T" ∧
    ∃ ps, (run newMem pointerOps).GetPlaySessionByID
        ((run newMem pointerOps).GetUserActiveSessionID "gm") = .ok ps ∧ ps.Status = Active :=
  ⟨rfl, pointer_names_active_session pointerOps "gm" (by decide)⟩

/-! ## End -/

/-- C14. `End(a)` fails with `NoActiveSession` if `a` has no active-session
pointer, else `SessionNotFound` if the session it names is absent, else
`SessionArchived` if that session is not Active, else `NotOwner` if `a` is not
its owner, the store being unchanged in all these cases; otherwise it returns
the session id, sets the status of that session to Archived and leaves its
other fields and all other sessions as they were, empties the pointer of every
user whose pointer referenced it, and leaves the other pointers and the
member, ban and message rows unchanged. -/
theorem end_spec (s : memStore) (a : String) :
    (s.GetUserActiveSessionID a = "" →
      Service.End s a = (s, .error ErrNoActiveSession)) ∧
    (s.GetUserActiveSessionID a ≠ "" →
      (∀ e, s.GetPlaySessionByID (s.GetUserActiveSessionID a) = .error e →
        Service.End s a = (s, .error ErrSessionNotFound)) ∧
      (∀ ps, s.GetPlaySessionByID (s.GetUserActiveSessionID a) = .ok ps →
        (ps.Status ≠ Active → Service.End s a = (s, .error ErrSessionArchived)) ∧
        (ps.Status = Active → ps.OwnerID ≠ a →
          Service.End s a = (s, .error ErrNotOwner)) ∧
        (ps.Status = Active → ps.OwnerID = a →
          (Service.End s a).2 = .ok (s.GetUserActiveSessionID a) ∧
          (Service.End s a).1.GetPlaySessionByID (s.GetUserActiveSessionID a) =
            .ok { ps with Status := Archived } ∧
          (∀ sid', sid' ≠ s.GetUserActiveSessionID a →
            (Service.End s a).1.GetPlaySessionByID sid' = s.GetPlaySessionByID sid') ∧
          (∀ u, (Service.End s a).1.GetUserActiveSessionID u =
            if s.GetUserActiveSessionID u = s.GetUserActiveSessionID a then ""
            else s.GetUserActiveSessionID u) ∧
          (Service.End s a).1.members = s.members ∧
          (Service.End s a).1.bans = s.bans ∧
          (Service.End s a).1.msgs = s.msgs ∧
          (Service.End s a).1.seq = s.seq ∧
          (Service.End s a).1.users = s.users))) := by
  constructor
  · intro h0
    unfold Service.End
    simp only []
    rw [if_pos h0]
  intro h0
  constructor
  · intro e he
    unfold Service.End
    simp only []
    rw [if_neg h0, he]
  intro ps hps
  refine ⟨?_, ?_, ?_⟩
  · intro h1
    unfold Service.End
    simp only []
    rw [if_neg h0, hps]
    simp only []
    rw [if_pos h1]
  · intro h1 h2
    unfold Service.End
    simp only []
    rw [if_neg h0, hps]
    simp only []
    rw [if_neg (not_not.mpr h1), if_pos h2]
  · intro h1 h2
    have hps' := (GetPlaySessionByID_ok_iff _ _ _).mp hps
    rcases End_effect s a with ⟨e, he⟩ | ⟨ps', _, _, _, _, he⟩
    · exfalso
      have : Service.End s a = _ := he
      unfold Service.End at this
      simp only [] at this
      rw [if_neg h0, hps] at this
      simp only [] at this
      rw [if_neg (not_not.mpr h1), if_neg (not_not.mpr h2)] at this
      have hany : s.sessions.any (fun x => x.ID = s.GetUserActiveSessionID a) = true := by
        rw [any_session_view, hps']; rfl
      unfold memStore.UpdatePlaySessionStatus at this
      rw [hany] at this
      have h5 := (Prod.mk.inj this).2
      cases h5
    · rw [he]
      have hid := sessionIn_ID _ _ _ hps'
      refine ⟨rfl, ?_, ?_, ?_, rfl, rfl, rfl, rfl, rfl⟩
      · rw [GetPlaySessionByID_ok_iff]
        show sessionIn (s.sessions.map _) _ = _
        rw [sessionIn_map_withStatus, hps']
        show some (withStatus _ Archived ps) = _
        unfold withStatus
        rw [if_pos hid]
      · intro sid' hne
        rw [GetPlaySessionByID_view, GetPlaySessionByID_view]
        show (match sessionIn (s.sessions.map _) sid' with
          | some ps => Except.ok ps
          | none => Except.error "not found") = _
        rw [sessionIn_map_withStatus]
        cases hq : sessionIn s.sessions sid' with
        | none => rfl
        | some q =>
          have hqid := sessionIn_ID _ _ _ hq
          show Except.ok (withStatus _ Archived q) = Except.ok q
          unfold withStatus
          rw [if_neg (by rw [hqid]; exact hne)]
      · intro u
        rw [GetUserActiveSessionID_view]
        show pointerIn (s.activeByUser.filter _) u = _
        rw [pointerIn_clearAll]
        rfl

/-- C14 at a concrete store: `gm` ends `S`; the players of `S` lose their
pointer, those of the other table `T` keep theirs. -/
theorem end_spec_witness :
    (Service.End twoTablesStore "gm").2 = .ok "S" ∧
    (Service.End twoTablesStore "gm").1.GetPlaySessionByID "S" =
      .ok { Service.createdRecord "S" 1 "gm" dtoTwo with Status := Archived } ∧
    (Service.End twoTablesStore "gm").1.GetUserActiveSessionID "u" = "" ∧
    (Service.End twoTablesStore "gm").1.GetUserActiveSessionID "p2" = "T" := by
  have h := ((end_spec twoTablesStore "gm").2 (by decide)).2
    (Service.createdRecord "S" 1 "gm" dtoTwo) rfl
  have h3 := h.2.2 rfl rfl
  exact ⟨h3.1, h3.2.1, (h3.2.2.2.1 "u").trans rfl, (h3.2.2.2.1 "p2").trans rfl⟩

/-! ## Remove -/

/-- C15. When `Remove(gm, t)` succeeds and returns `S`: `S` is the session
`gm` is seated at and owns, `t` has no member row in `S`, `(S, t)` is on the
ban list, the pointer of `t` is empty if it referenced `S` and unchanged
otherwise, and every other member row, ban and pointer, and every message,
session, user and counter is unchanged. -/
theorem remove_frame (s s' : memStore) (gm t S : String)
    (h : Service.Remove s gm t = (s', .ok S)) :
    S = s.GetUserActiveSessionID gm ∧
    (∃ ps, s.GetPlaySessionByID S = .ok ps ∧ ps.OwnerID = gm) ∧
    s'.IsPlaySessionMember S t = false ∧
    s'.IsBannedFromSession S t = true ∧
    s'.GetUserActiveSessionID t =
      (if s.GetUserActiveSessionID t = S then "" else s.GetUserActiveSessionID t) ∧
    (∀ u, u ≠ t → s'.GetUserActiveSessionID u = s.GetUserActiveSessionID u) ∧
    s'.members = s.members.filter (fun x => ¬ (x.SessionID = S ∧ x.UserID = t)) ∧
    (∀ sid' u', ¬ (sid' = S ∧ u' = t) →
      s'.GetPlaySessionMember sid' u' = s.GetPlaySessionMember sid' u') ∧
    (∀ sid' u', ¬ (sid' = S ∧ u' = t) →
      s'.IsBannedFromSession sid' u' = s.IsBannedFromSession sid' u') ∧
    s'.msgs = s.msgs ∧ s'.sessions = s.sessions ∧ s'.users = s.users ∧ s'.seq = s.seq := by
  rcases Remove_effect s gm t with ⟨e, he⟩ | ⟨ps, _, hps, hown, _, _, he⟩
  · rw [he] at h; cases h
  · rw [he] at h
    have h1 : s' = _ := (Prod.mk.inj h).1.symm
    have h2 : S = s.GetUserActiveSessionID gm := (Except.ok.inj (Prod.mk.inj h).2).symm
    subst h1
    rw [← h2] at hps ⊢
    have hf := removed_fields s S t
    have hc := ClearIfMatch_fields ((s.DeletePlaySessionMember S t).InsertPlaySessionBan S t) t S
    have hb : ∀ sid' u', (((s.DeletePlaySessionMember S t).InsertPlaySessionBan S
        t).ClearUserActiveSessionIfMatch t S).IsBannedFromSession sid' u' =
        (s.IsBannedFromSession sid' u' || decide (S = sid' ∧ t = u')) := by
      intro sid' u'
      rw [IsBannedFromSession_view, hc.2.2.2.1]
      have := ban_banned (s.DeletePlaySessionMember S t) S t sid' u'
      rw [IsBannedFromSession_view] at this
      unfold memStore.InsertPlaySessionBan
      rw [this]
      rfl
    refine ⟨rfl, ⟨ps, (GetPlaySessionByID_ok_iff _ _ _).mpr hps, hown⟩, ?_, ?_, ?_, ?_, hf.2.1,
      ?_, ?_, hf.2.2.2.2, hf.1, hf.2.2.1, hf.2.2.2.1⟩
    · rw [IsPlaySessionMember_view, hf.2.1, isMemberIn_delete]
      simp
    · rw [hb]; simp
    · rw [removed_pointer]
      by_cases hk : s.GetUserActiveSessionID t = S
      · rw [if_pos ⟨rfl, hk⟩, if_pos hk]
      · rw [if_neg (fun hc => hk hc.2), if_neg hk]
    · intro u hu
      rw [removed_pointer, if_neg (fun hc => hu hc.1)]
    · intro sid' u' hne
      rw [GetPlaySessionMember_view, GetPlaySessionMember_view, hf.2.1, memberIn_delete,
        if_neg hne]
    · intro sid' u' hne
      rw [hb]
      have : ¬ (S = sid' ∧ t = u') := fun hc => hne ⟨hc.1.symm, hc.2.symm⟩
      simp [this]

/-- C15 at a concrete store: `gm` removes `u` from `S`; `p2` at the other
table is untouched. -/
theorem remove_frame_witness :
    (Service.Remove twoTablesStore "gm" "u").1.IsPlaySessionMember "S" "u" = false ∧
    (Service.Remove twoTablesStore "gm" "u").1.IsBannedFromSession "S" "u" = true ∧
    (Service.Remove twoTablesStore "gm" "u").1.GetUserActiveSessionID "u" = "" ∧
    (Service.Remove twoTablesStore "gm" "u").1.GetUserActiveSessionID "p2" = "T" ∧
    (Service.Remove twoTablesStore "gm" "u").1.GetPlaySessionMember "T" "p2" =
      twoTablesStore.GetPlaySessionMember "T" "p2" := by
  have h := remove_frame twoTablesStore _ "gm" "u" "S" rfl
  exact ⟨h.2.2.1, h.2.2.2.1, h.2.2.2.2.1.trans rfl, (h.2.2.2.2.2.1 "p2" (by decide)).trans rfl,
    h.2.2.2.2.2.2.2.1 "T" "p2" (by decide)⟩

/-! ## SendMessage -/

/-- C17. `SendMessage(u, text)` fails with `NoActiveSession` if `u` has no
active-session pointer, else `SessionNotFound` if the session it names is
absent, else `SessionArchived` if that session is not Active, else `NotMember`
if `u` has no member row in it, else `Muted` if the member row of `u` is
muted; and whenever it fails, with these or any error, the store is unchanged:
no sequence number is allocated and no message is inserted. -/
theorem send_rejections (s : memStore) (id : String) (now : Int) (u text : String) :
    (s.GetUserActiveSessionID u = "" →
      Service.SendMessage s id now u text = (s, .error ErrNoActiveSession)) ∧
    (s.GetUserActiveSessionID u ≠ "" →
      (∀ e, s.GetPlaySessionByID (s.GetUserActiveSessionID u) = .error e →
        Service.SendMessage s id now u text = (s, .error ErrSessionNotFound)) ∧
      (∀ ps, s.GetPlaySessionByID (s.GetUserActiveSessionID u) = .ok ps →
        (ps.Status ≠ Active →
          Service.SendMessage s id now u text = (s, .error ErrSessionArchived)) ∧
        (ps.Status = Active → s.IsPlaySessionMember (s.GetUserActiveSessionID u) u = false →
          Service.SendMessage s id now u text = (s, .error ErrNotMember)) ∧
        (ps.Status = Active → s.IsPlaySessionMember (s.GetUserActiveSessionID u) u = true →
          s.IsMemberMuted (s.GetUserActiveSessionID u) u = true →
          Service.SendMessage s id now u text = (s, .error ErrMuted)))) ∧
    (∀ e, (Service.SendMessage s id now u text).2 = .error e →
      (Service.SendMessage s id now u text).1 = s ∧
      (Service.SendMessage s id now u text).1.seqOf (s.GetUserActiveSessionID u) =
        s.seqOf (s.GetUserActiveSessionID u) ∧
      (Service.SendMessage s id now u text).1.msgs = s.msgs) := by
  refine ⟨?_, ?_, ?_⟩
  · intro h0
    unfold Service.SendMessage
    simp only []
    rw [if_pos h0]
  · intro h0
    constructor
    · intro e he
      unfold Service.SendMessage
      simp only []
      rw [if_neg h0, he]
    intro ps hps
    refine ⟨?_, ?_, ?_⟩
    · intro h1
      unfold Service.SendMessage
      simp only []
      rw [if_neg h0, hps]
      simp only []
      rw [if_pos h1]
    · intro h1 h2
      unfold Service.SendMessage
      simp only []
      rw [if_neg h0, hps]
      simp only []
      rw [if_neg (not_not.mpr h1), if_pos (by rw [h2]; exact Bool.false_ne_true)]
    · intro h1 h2 h3
      unfold Service.SendMessage
      simp only []
      rw [if_neg h0, hps]
      simp only []
      rw [if_neg (not_not.mpr h1), if_neg (not_not.mpr h2), if_pos h3]
  · intro e he
    rcases SendMessage_effect s id now u text with ⟨e', he'⟩ | ⟨ps, _, _, _, _, _, he'⟩
    · rw [he']; exact ⟨rfl, rfl, rfl⟩
    · rw [he'] at he; cases he

/-- C17 at concrete stores: a muted player, a user who is not seated, and
the counter of `S` after the rejection. -/
theorem send_rejections_witness :
    Service.SendMessage mutedStore "m1" 9 "u" "hi" = (mutedStore, .error ErrMuted) ∧
    Service.SendMessage mutedStore "m2" 9 "p1" "hi" = (mutedStore, .error ErrNoActiveSession) ∧
    (Service.SendMessage mutedStore "m1" 9 "u" "hi").1.seqOf "S" = mutedStore.seqOf "S" := by
  have h := send_rejections mutedStore "m1" 9 "u" "hi"
  have h1 := ((h.2.1 (by decide)).2 (Service.createdRecord "S" 1 "gm" dtoTwo) rfl).2.2 rfl rfl rfl
  exact ⟨h1, (send_rejections mutedStore "m2" 9 "p1" "hi").1 rfl, (h.2.2 _ (by rw [h1])).2.1⟩

/-! ## Mute and Unmute -/

/-- What a successful `Mute` or `Unmute` has found and done. -/
theorem setMuted_success (s s1 : memStore) (gm t S : String) (b : Bool)
    (h : Service.setMuted s gm t b = (s1, .ok S)) :
    ∃ ps m usr, S = s.GetUserActiveSessionID gm ∧ S ≠ "" ∧
      sessionIn s.sessions S = some ps ∧ ps.OwnerID = gm ∧ s.GetUserByID t = .ok usr ∧
      memberIn s.members S t = some m ∧ m.Role = Player ∧
      s1 = { s with members := s.members.map (withMuted S t b) } := by
  rcases setMuted_effect s gm t b with ⟨e, he⟩ | ⟨ps, m, h0, hps, hown, hm, hrole, he⟩
  · rw [he] at h; cases h
  · have hS : S = s.GetUserActiveSessionID gm := by
      rw [he] at h; exact (Except.ok.inj (Prod.mk.inj h).2).symm
    have hs1 : s1 = { s with members := s.members.map (withMuted S t b) } := by
      rw [he] at h; rw [hS]; exact (Prod.mk.inj h).1.symm
    cases hu : s.GetUserByID t with
    | ok usr => exact ⟨ps, m, usr, hS, hS ▸ h0, hS ▸ hps, hown, rfl, hS ▸ hm, hrole, hs1⟩
    | error e =>
      exfalso
      unfold Service.setMuted at h
      simp only [] at h
      rw [if_neg h0, GetPlaySessionByID_view, hps] at h
      simp only [] at h
      rw [if_neg (not_not.mpr hown), hu] at h
      cases h

/-- `Mute` and `Unmute` succeed on a seated owner and a player of the
session who has a user record. -/
theorem setMuted_of_facts (s : memStore) (gm t S : String) (b : Bool) (ps : PlaySessionDB)
    (m : PlaySessionMemberDB) (usr : User)
    (hS : s.GetUserActiveSessionID gm = S) (hne : S ≠ "")
    (hps : sessionIn s.sessions S = some ps) (hown : ps.OwnerID = gm)
    (hu : s.GetUserByID t = .ok usr) (hm : memberIn s.members S t = some m)
    (hrole : m.Role = Player) :
    Service.setMuted s gm t b =
      ({ s with members := s.members.map (withMuted S t b) }, .ok S) := by
  have hP : ¬ s.GetUserActiveSessionID gm = "" := by rw [hS]; exact hne
  have hmem : isMemberIn s.members S t = true := by rw [isMemberIn_eq_isSome, hm]; rfl
  unfold Service.setMuted
  simp only []
  rw [if_neg hP, hS, GetPlaySessionByID_view, hps]
  simp only []
  rw [if_neg (not_not.mpr hown), hu]
  simp only []
  rw [GetPlaySessionMember_view, hm]
  simp only []
  rw [if_neg (not_not.mpr hrole)]
  unfold memStore.SetMemberMuted
  rw [IsPlaySessionMember_view, hmem]
  rfl

theorem withMuted_twice (S t : String) (b c : Bool) (x : PlaySessionMemberDB) :
    withMuted S t c (withMuted S t b x) = withMuted S t c x := by
  unfold withMuted
  by_cases h : x.SessionID = S ∧ x.UserID = t
  · rw [if_pos h, if_pos h, if_pos h]
  · rw [if_neg h, if_neg h]

theorem map_withMuted_id (S t : String) (b : Bool) (l : List PlaySessionMemberDB)
    (h : ∀ x ∈ l, x.SessionID = S → x.UserID = t → x.Muted = b) :
    l.map (withMuted S t b) = l := by
  induction l with
  | nil => rfl
  | cons a rest ih =>
    rw [List.map_cons, ih (fun x hx => h x (List.mem_cons_of_mem _ hx))]
    congr 1
    unfold withMuted
    by_cases hk : a.SessionID = S ∧ a.UserID = t
    · rw [if_pos hk]
      have := h a (List.mem_cons_self _ _) hk.1 hk.2
      cases a
      simp only at this ⊢
      rw [this]
    · rw [if_neg hk]

/-- The member row of `t` in `S`, as the store returns it, after the flag has
been set. -/
theorem member_after_setMuted (s : memStore) (S t : String) (b : Bool)
    (m : PlaySessionMemberDB) (hm : memberIn s.members S t = some m) :
    ({ s with members := s.members.map (withMuted S t b) } : memStore).GetPlaySessionMember S t =
      some { SessionID := S, UserID := t, Role := m.Role, Muted := b } := by
  have hk := memberIn_keys _ _ _ _ hm
  rw [GetPlaySessionMember_view]
  show (match memberIn (s.members.map (withMuted S t b)) S t with
    | some mb => some _
    | none => none) = _
  rw [memberIn_map_withMuted, hm]
  show some _ = some _
  unfold withMuted
  rw [if_pos ⟨hk.2.1, hk.2.2⟩]

theorem member_other_setMuted (s : memStore) (S t : String) (b : Bool) (sid' u' : String)
    (hne : ¬ (sid' = S ∧ u' = t)) :
    ({ s with members := s.members.map (withMuted S t b) } : memStore).GetPlaySessionMember
      sid' u' = s.GetPlaySessionMember sid' u' := by
  rw [GetPlaySessionMember_view, GetPlaySessionMember_view]
  show (match memberIn (s.members.map (withMuted S t b)) sid' u' with
    | some mb => some _
    | none => none) = _
  rw [memberIn_map_withMuted]
  cases hq : memberIn s.members sid' u' with
  | none => rfl
  | some q =>
    have hk := memberIn_keys _ _ _ _ hq
    show some _ = some _
    unfold withMuted
    rw [if_neg (fun hc => hne ⟨hk.2.1.symm.trans hc.1, hk.2.2.symm.trans hc.2⟩)]

theorem SendMessage_of_facts (s : memStore) (id : String) (now : Int) (u text S : String)
    (ps : PlaySessionDB) (hS : s.GetUserActiveSessionID u = S) (hne : S ≠ "")
    (hps : sessionIn s.sessions S = some ps) (hact : ps.Status = Active)
    (hmem : isMemberIn s.members S u = true) :
    (s.IsMemberMuted S u = true →
      Service.SendMessage s id now u text = (s, .error ErrMuted)) ∧
    (s.IsMemberMuted S u = false →
      (Service.SendMessage s id now u text).2 = .ok (S, s.seqOf S + 1, now)) := by
  have hP : ¬ s.GetUserActiveSessionID u = "" := by rw [hS]; exact hne
  constructor
  · intro hm
    unfold Service.SendMessage
    simp only []
    rw [if_neg hP, hS, GetPlaySessionByID_view, hps]
    simp only []
    rw [if_neg (not_not.mpr hact), IsPlaySessionMember_view, if_neg (not_not.mpr hmem),
      if_pos hm]
  · intro hm
    unfold Service.SendMessage
    simp only []
    rw [if_neg hP, hS, GetPlaySessionByID_view, hps]
    simp only []
    rw [if_neg (not_not.mpr hact), IsPlaySessionMember_view, if_neg (not_not.mpr hmem),
      if_neg (by rw [hm]; exact Bool.false_ne_true)]
    rfl

theorem muted_after_setMuted (s : memStore) (S t : String) (b : Bool)
    (m : PlaySessionMemberDB) (hm : memberIn s.members S t = some m) :
    ({ s with members := s.members.map (withMuted S t b) } : memStore).IsMemberMuted S t = b := by
  have hk := memberIn_keys _ _ _ _ hm
  rw [IsMemberMuted_view]
  show (match memberIn (s.members.map (withMuted S t b)) S t with
    | some mb => mb.Muted
    | none => false) = b
  rw [memberIn_map_withMuted, hm]
  show (withMuted S t b m).Muted = b
  unfold withMuted
  rw [if_pos ⟨hk.2.1, hk.2.2⟩]

/-- What `Mute` and `Unmute` do. When `Mute(gm, t)` succeeds and returns `S`:
the store differs only in the member rows, the row of `t` in `S` is
`(S, t, Player, muted = true)` and every other row is as before; while `S`
is Active, a `SendMessage` by `t` seated at `S` fails with `Muted`. The
`Unmute(gm, t)` that follows succeeds and returns `S`, the row of `t` is
`(S, t, Player, muted = false)`, every other row is as it was before the
`Mute`, and while `S` is Active the next `SendMessage` by `t` seated at `S`
succeeds with the next number of `S`. If `t` was unmuted at first, the store
after `Mute` and `Unmute` is the store before them. -/
theorem mute_unmute_spec (s s1 : memStore) (gm t S : String)
    (h : Service.Mute s gm t = (s1, .ok S)) :
    S = s.GetUserActiveSessionID gm ∧
    s1 = { s with members := s.members.map (withMuted S t true) } ∧
    s1.GetPlaySessionMember S t =
      some { SessionID := S, UserID := t, Role := Player, Muted := true } ∧
    (∀ sid' u', ¬ (sid' = S ∧ u' = t) →
      s1.GetPlaySessionMember sid' u' = s.GetPlaySessionMember sid' u') ∧
    (∀ ps, s.GetPlaySessionByID S = .ok ps → ps.Status = Active →
      s.GetUserActiveSessionID t = S →
      ∀ id now text, Service.SendMessage s1 id now t text = (s1, .error ErrMuted)) ∧
    Service.Unmute s1 gm t =
      ({ s with members := s.members.map (withMuted S t false) }, .ok S) ∧
    (Service.Unmute s1 gm t).1.GetPlaySessionMember S t =
      some { SessionID := S, UserID := t, Role := Player, Muted := false } ∧
    (∀ sid' u', ¬ (sid' = S ∧ u' = t) →
      (Service.Unmute s1 gm t).1.GetPlaySessionMember sid' u' =
        s.GetPlaySessionMember sid' u') ∧
    (∀ ps, s.GetPlaySessionByID S = .ok ps → ps.Status = Active →
      s.GetUserActiveSessionID t = S →
      ∀ id now text, (Service.SendMessage (Service.Unmute s1 gm t).1 id now t text).2 =
        .ok (S, s.seqOf S + 1, now)) ∧
    ((∀ x ∈ s.members, x.SessionID = S → x.UserID = t → x.Muted = false) →
      (Service.Unmute s1 gm t).1 = s) := by
  obtain ⟨ps, m, usr, hS, hne, hps, hown, hu, hm, hrole, hs1⟩ :=
    setMuted_success s s1 gm t S true h
  have hm1 : memberIn s1.members S t = some (withMuted S t true m) := by
    rw [hs1]
    show memberIn (s.members.map _) S t = _
    rw [memberIn_map_withMuted, hm]; rfl
  have hun : Service.Unmute s1 gm t =
      ({ s with members := s.members.map (withMuted S t false) }, .ok S) := by
    have h2 := setMuted_of_facts s1 gm t S false ps (withMuted S t true m) usr
      (by rw [hs1]; exact hS.symm) hne (by rw [hs1]; exact hps) hown (by rw [hs1]; exact hu)
      hm1 (by rw [withMuted_Role]; exact hrole)
    show Service.setMuted s1 gm t false = _
    rw [h2, hs1]
    show (({ s with members := (s.members.map (withMuted S t true)).map (withMuted S t false) } :
      memStore), Except.ok S) = _
    rw [List.map_map]
    have : (withMuted S t false ∘ withMuted S t true) = withMuted S t false := by
      funext x; exact withMuted_twice S t true false x
    rw [this]
  have hmem : isMemberIn s.members S t = true := by rw [isMemberIn_eq_isSome, hm]; rfl
  refine ⟨hS, hs1, ?_, ?_, ?_, hun, ?_, ?_, ?_, ?_⟩
  · rw [hs1, member_after_setMuted s S t true m hm, hrole]
  · intro sid' u' hne'
    rw [hs1]; exact member_other_setMuted s S t true sid' u' hne'
  · intro ps' hps' hact hpt id now text
    rw [GetPlaySessionByID_ok_iff] at hps'
    have hf := SendMessage_of_facts s1 id now t text S ps' (by rw [hs1]; exact hpt) hne
      (by rw [hs1]; exact hps') hact
      (by rw [hs1]; show isMemberIn (s.members.map _) S t = true
          rw [isMemberIn_map_withMuted]; exact hmem)
    exact hf.1 (by rw [hs1]; exact muted_after_setMuted s S t true m hm)
  · rw [hun, member_after_setMuted s S t false m hm, hrole]
  · intro sid' u' hne'
    rw [hun]; exact member_other_setMuted s S t false sid' u' hne'
  · intro ps' hps' hact hpt id now text
    rw [GetPlaySessionByID_ok_iff] at hps'
    rw [hun]
    have hf := SendMessage_of_facts
      ({ s with members := s.members.map (withMuted S t false) }) id now t text S ps' hpt hne
      hps' hact
      (by show isMemberIn (s.members.map _) S t = true
          rw [isMemberIn_map_withMuted]; exact hmem)
    exact hf.2 (muted_after_setMuted s S t false m hm)
  · intro hall
    rw [hun]
    show ({ s with members := s.members.map (withMuted S t false) } : memStore) = s
    rw [map_withMuted_id S t false s.members hall]

/-- At a concrete store: `gm` mutes and unmutes the player `u` at the Active
table `S`. -/
theorem mute_unmute_spec_witness :
    Service.Mute seatedStore "gm" "u" = (mutedStore, .ok "S") ∧
    mutedStore.GetPlaySessionMember "S" "u" =
      some { SessionID := "S", UserID := "u", Role := Player, Muted := true } ∧
    Service.SendMessage mutedStore "m1" 9 "u" "hi" = (mutedStore, .error ErrMuted) ∧
    Service.Unmute mutedStore "gm" "u" = (seatedStore, .ok "S") ∧
    (Service.SendMessage (Service.Unmute mutedStore "gm" "u").1 "m1" 9 "u" "hi").2 =
      .ok ("S", 1, 9) := by
  have h := mute_unmute_spec seatedStore mutedStore "gm" "u" "S" rfl
  have h9 := h.2.2.2.2.2.2.2.2.2 (by decide)
  refine ⟨rfl, h.2.2.1, h.2.2.2.2.1 _ rfl rfl rfl "m1" 9 "hi", ?_,
    h.2.2.2.2.2.2.2.2.1 _ rfl rfl rfl "m1" 9 "hi"⟩
  have h6 := h.2.2.2.2.2.1
  rw [h6] at h9 ⊢
  exact congrArg (fun x => (x, Except.ok "S")) h9

/-- C18, on the code. In `stalePointerStore` the session `S` is Archived and
the pointers of `gm` and `u` reference it. `Mute(gm, u)` succeeds for `S` all
the same (it does not test the status) and sets the flag of `u`, and the
`SendMessage` of `u`, seated at `S`, then fails with `SessionArchived`, not
with `Muted`. -/
theorem muted_sender_at_ended_session :
    (Service.Mute stalePointerStore "gm" "u").2 = .ok "S" ∧
    (Service.Mute stalePointerStore "gm" "u").1.GetUserActiveSessionID "u" = "S" ∧
    (Service.Mute stalePointerStore "gm" "u").1.IsMemberMuted "S" "u" = true ∧
    (Service.SendMessage (Service.Mute stalePointerStore "gm" "u").1 "m1" 9 "u" "hi").2 =
      .error ErrSessionArchived ∧
    (Service.SendMessage (Service.Mute stalePointerStore "gm" "u").1 "m1" 9 "u" "hi").2 ≠
      .error ErrMuted := by
  refine ⟨rfl, rfl, rfl, rfl, ?_⟩
  intro h
  have h2 : (Service.SendMessage (Service.Mute stalePointerStore "gm" "u").1 "m1" 9 "u" "hi").2 =
      .error ErrSessionArchived := rfl
  rw [h2] at h
  cases h

/-! ## ListMessages -/

theorem listLoop_spec (after : Int) (L : Nat) (arr : List MessageRow) :
    ∀ out : List MessageRow, out.length < L →
      memStore.listLoop after (L : Int) out arr =
        out ++ (arr.filter (fun r => r.SeqID > after)).take (L - out.length) := by
  induction arr with
  | nil => intro out _; simp [memStore.listLoop]
  | cons r rest ih =>
    intro out hlt
    unfold memStore.listLoop
    simp only []
    by_cases hk : r.SeqID > after
    · rw [if_pos hk]
      have hf : (r :: rest).filter (fun r => decide (r.SeqID > after)) =
          r :: rest.filter (fun r => decide (r.SeqID > after)) := by
        rw [List.filter_cons]; simp [hk]
      have hsub : L - out.length = (L - (out.length + 1)) + 1 := by omega
      rw [hf, hsub, List.take_succ_cons]
      by_cases hge : ((out ++ [r]).length : Int) ≥ (L : Int)
      · rw [if_pos hge]
        have hl : (out ++ [r]).length = out.length + 1 := by simp
        have : L - (out.length + 1) = 0 := by
          rw [hl] at hge
          have : L ≤ out.length + 1 := by exact_mod_cast hge
          omega
        rw [this]
        simp
      · rw [if_neg hge]
        have hl : (out ++ [r]).length = out.length + 1 := by simp
        have hlt' : (out ++ [r]).length < L := by
          rw [hl] at hge ⊢
          have : ¬ L ≤ out.length + 1 := by exact_mod_cast hge
          omega
        rw [ih (out ++ [r]) hlt', hl]
        simp
    · rw [if_neg hk]
      have hf : (r :: rest).filter (fun r => decide (r.SeqID > after)) =
          rest.filter (fun r => decide (r.SeqID > after)) := by
        rw [List.filter_cons]; simp [hk]
      have hge : ¬ ((out.length : Int) ≥ (L : Int)) := by
        have : ¬ L ≤ out.length := by omega
        exact_mod_cast this
      rw [if_neg hge, hf]
      exact ih out hlt

theorem listLoop_mem (after limit : Int) (arr : List MessageRow) :
    ∀ (out : List MessageRow) (r : MessageRow),
      r ∈ memStore.listLoop after limit out arr → r ∈ out ∨ after < r.SeqID := by
  induction arr with
  | nil => intro out r h; left; simpa [memStore.listLoop] using h
  | cons a rest ih =>
    intro out r h
    unfold memStore.listLoop at h
    simp only [] at h
    by_cases hk : a.SeqID > after
    · rw [if_pos hk] at h
      have key : r ∈ out ++ [a] → r ∈ out ∨ after < r.SeqID := by
        intro hx
        rcases List.mem_append.mp hx with h1 | h1
        · exact Or.inl h1
        · right; rw [List.mem_singleton.mp h1]; exact hk
      by_cases hge : ((out ++ [a]).length : Int) ≥ limit
      · rw [if_pos hge] at h; exact key h
      · rw [if_neg hge] at h
        rcases ih _ r h with h1 | h1
        · exact key h1
        · exact Or.inr h1
    · rw [if_neg hk] at h
      by_cases hge : (out.length : Int) ≥ limit
      · rw [if_pos hge] at h; exact Or.inl h
      · rw [if_neg hge] at h
        exact ih _ r h

theorem lastSeq_cons (c : Int) (r : MessageRow) (rest : List MessageRow) :
    Service.lastSeq c (r :: rest) =
      Service.lastSeq (if r.SeqID > c then r.SeqID else c) rest := rfl

theorem lastSeq_ge (rows : List MessageRow) : ∀ c : Int, c ≤ Service.lastSeq c rows := by
  induction rows with
  | nil => intro c; exact le_refl _
  | cons r rest ih =>
    intro c
    rw [lastSeq_cons]
    have h := ih (if r.SeqID > c then r.SeqID else c)
    by_cases hk : r.SeqID > c
    · rw [if_pos hk] at h ⊢; omega
    · rw [if_neg hk] at h ⊢; exact h

theorem lastSeq_ge_rows (rows : List MessageRow) :
    ∀ c : Int, ∀ r ∈ rows, r.SeqID ≤ Service.lastSeq c rows := by
  induction rows with
  | nil => intro c r h; cases h
  | cons a rest ih =>
    intro c r h
    rw [lastSeq_cons]
    rcases List.mem_cons.mp h with h1 | h1
    · have h2 := lastSeq_ge rest (if a.SeqID > c then a.SeqID else c)
      rw [h1]
      by_cases hk : a.SeqID > c
      · rw [if_pos hk] at h2 ⊢; exact h2
      · rw [if_neg hk] at h2 ⊢; omega
    · exact ih _ r h1

theorem lastSeq_mem (rows : List MessageRow) :
    ∀ c : Int, Service.lastSeq c rows = c ∨
      Service.lastSeq c rows ∈ rows.map (fun r => r.SeqID) := by
  induction rows with
  | nil => intro c; left; rfl
  | cons a rest ih =>
    intro c
    rw [lastSeq_cons]
    by_cases hk : a.SeqID > c
    · rw [if_pos hk]
      right
      rcases ih a.SeqID with h | h
      · rw [h]; simp
      · rw [List.map_cons]; exact List.mem_cons_of_mem _ h
    · rw [if_neg hk]
      rcases ih c with h | h
      · left; exact h
      · right; rw [List.map_cons]; exact List.mem_cons_of_mem _ h

/-- A query that passes `MessagesQuery.Validate` has a cursor of at least 0
and a page size from 10 to 200, the absent ones being 0 and 50. -/
theorem validated_query_bounds (q : MessagesQuery) (h : q.Validate = []) :
    0 ≤ q.LastMessage.getD 0 ∧ 10 ≤ q.PageSize.getD 50 ∧ q.PageSize.getD 50 ≤ 200 := by
  unfold MessagesQuery.Validate at h
  rw [List.append_eq_nil] at h
  obtain ⟨h1, h2⟩ := h
  refine ⟨?_, ?_⟩
  · cases hq : q.LastMessage with
    | none => exact le_refl _
    | some n =>
      rw [hq] at h1
      simp only [] at h1
      by_cases hn : n < 0
      · rw [if_pos hn] at h1; cases h1
      · exact not_lt.mp hn
  · cases hq : q.PageSize with
    | none => exact ⟨by decide, by decide⟩
    | some n =>
      rw [hq] at h2
      simp only [] at h2
      by_cases hn : n < 10 ∨ n > 200
      · rw [if_pos hn] at h2; cases h2
      · show 10 ≤ n ∧ n ≤ 200
        omega

/-- What `ListMessages` returns for an existing session and a member, in
terms of the store's page. -/
theorem ListMessages_eq (s : memStore) (S u : String) (q : MessagesQuery) (ps : PlaySessionDB)
    (hps : s.GetPlaySessionByID S = .ok ps) (hmem : s.IsPlaySessionMember S u = true) :
    Service.ListMessages s S u q =
      match s.ListPlaySessionMessages S (q.LastMessage.getD 0) (q.PageSize.getD 50) with
      | none => (s, .error (.crash "makeslice: cap out of range"))
      | some rows => (s, .ok { Items := rows.map Service.toItem,
                               LastMessage := Service.lastSeq (q.LastMessage.getD 0) rows }) := by
  unfold Service.ListMessages
  rw [hps]
  simp only []
  rw [if_neg (not_not.mpr hmem)]
  cases q.LastMessage <;> cases q.PageSize <;> rfl

/-- C19. `ListMessages(S, u, cursor, pageSize)` never modifies the store; it
fails with `SessionNotFound` when `S` is absent and with `NotMember` when `u`
has no member row in `S`. For an existing `S` and a member `u` it returns, in
ascending `seq` order, the first `min(pageSize, n)` of the `n` messages of `S`
with `seq > cursor`, an absent cursor being 0 and an absent page size 50: the
messages with `seq > cursor` are `rows ++ rest` in ascending `seq`, and the
rows returned are `rows`. The page size is at least 1, as it is for every
query that passes `MessagesQuery.Validate` (`validated_query_bounds`), and the
store holds the messages of `S` in the order of their `seq`, as every store
does that is built by calls of the service and of the helper methods of the
store (`msgs_ascending`). -/
theorem list_messages_spec (s : memStore) (S u : String) (q : MessagesQuery) :
    (Service.ListMessages s S u q).1 = s ∧
    (∀ e, s.GetPlaySessionByID S = .error e →
      Service.ListMessages s S u q = (s, .error ErrSessionNotFound)) ∧
    (∀ ps, s.GetPlaySessionByID S = .ok ps →
      (s.IsPlaySessionMember S u = false →
        Service.ListMessages s S u q = (s, .error ErrNotMember)) ∧
      (s.IsPlaySessionMember S u = true → 1 ≤ q.PageSize.getD 50 →
        (s.msgsOf S).Pairwise (fun a b => a.SeqID < b.SeqID) →
        ∃ rows rest,
          Service.ListMessages s S u q =
            (s, .ok { Items := rows.map Service.toItem,
                      LastMessage := Service.lastSeq (q.LastMessage.getD 0) rows }) ∧
          (s.msgsOf S).filter (fun r => r.SeqID > q.LastMessage.getD 0) = rows ++ rest ∧
          (rows ++ rest).Pairwise (fun a b => a.SeqID < b.SeqID) ∧
          (rows.length : Int) = min (q.PageSize.getD 50) ((rows ++ rest).length : Int))) := by
  refine ⟨?_, ?_, ?_⟩
  · unfold Service.ListMessages
    cases s.GetPlaySessionByID S with
    | error e => rfl
    | ok ps =>
      simp only []
      split
      · rfl
      · split <;> rfl
  · intro e he
    unfold Service.ListMessages
    rw [he]
  · intro ps hps
    constructor
    · intro hmem
      unfold Service.ListMessages
      rw [hps]
      simp only []
      rw [if_pos (by rw [hmem]; exact Bool.false_ne_true)]
    · intro hmem hsize hord
      have hnn : 0 ≤ q.PageSize.getD 50 := by omega
      have hcast : ((q.PageSize.getD 50).toNat : Int) = q.PageSize.getD 50 :=
        Int.toNat_of_nonneg hnn
      have hpos : ([] : List MessageRow).length < (q.PageSize.getD 50).toNat := by
        have : (0 : Int) < ((q.PageSize.getD 50).toNat : Int) := by rw [hcast]; omega
        exact_mod_cast this
      have hloop := listLoop_spec (q.LastMessage.getD 0) (q.PageSize.getD 50).toNat
        (s.msgsOf S) [] hpos
      rw [hcast] at hloop
      have hsplit : (s.msgsOf S).filter (fun r => r.SeqID > q.LastMessage.getD 0) =
          ((s.msgsOf S).filter (fun r => r.SeqID > q.LastMessage.getD 0)).take
              (q.PageSize.getD 50).toNat ++
            ((s.msgsOf S).filter (fun r => r.SeqID > q.LastMessage.getD 0)).drop
              (q.PageSize.getD 50).toNat := (List.take_append_drop _ _).symm
      refine ⟨_, _, ?_, hsplit, ?_, ?_⟩
      · rw [ListMessages_eq s S u q ps hps hmem]
        unfold memStore.ListPlaySessionMessages
        rw [if_neg (by omega), hloop]
        simp
      · rw [← hsplit]
        exact hord.sublist (List.filter_sublist _)
      · rw [← hsplit, List.length_take]
        push_cast
        rw [hcast]

/-- C19 at a concrete store: three messages at `S`, cursor 1, page size 50,
as in `TestMessages_AfterSeq`. -/
theorem list_messages_spec_witness :
    chatStore.GetPlaySessionByID "S" = .ok (Service.createdRecord "S" 1 "gm" dtoTwo) ∧
    chatStore.IsPlaySessionMember "S" "u" = true ∧
    ({ LastMessage := some 1, PageSize := some 50 } : MessagesQuery).Validate = [] ∧
    ∃ rows rest,
      Service.ListMessages chatStore "S" "u" { LastMessage := some 1, PageSize := some 50 } =
        (chatStore, .ok { Items := rows.map Service.toItem,
                          LastMessage := Service.lastSeq 1 rows }) ∧
      (chatStore.msgsOf "S").filter (fun r => r.SeqID > 1) = rows ++ rest ∧
      (rows ++ rest).Pairwise (fun a b => a.SeqID < b.SeqID) ∧
      (rows.length : Int) = min 50 ((rows ++ rest).length : Int) :=
  ⟨rfl, rfl, rfl,
    ((list_messages_spec chatStore "S" "u" { LastMessage := some 1, PageSize := some 50 }).2.2
      (Service.createdRecord "S" 1 "gm" dtoTwo) rfl).2 rfl (by decide) (by decide)⟩

/-- Why the page size is taken to be at least 1: below it, where
`MessagesQuery.Validate` rejects the query, the loop of the store double tests
`len(out) >= limit` only after it has kept a row, so at page size 0 it returns
one row, and `make` panics at page size -1. -/
theorem list_messages_page_size_zero :
    ({ LastMessage := none, PageSize := some 0 } : MessagesQuery).Validate ≠ [] ∧
    (Service.ListMessages chatStore "S" "u" { LastMessage := none, PageSize := some 0 }).2 =
      .ok { Items := [{ ID := "m1", UserID := "gm", Text := "hi", CreatedAt := 5 }],
            LastMessage := 1 } ∧
    (Service.ListMessages chatStore "S" "u" { LastMessage := none, PageSize := some (-1) }).2 =
      .error (.crash "makeslice: cap out of range") :=
  ⟨by decide, rfl, rfl⟩

/-- C20. For every successful `ListMessages` call with input cursor `c` (0
when absent): the items are those of the rows the store returned; the cursor
returned is `c` when there is no row, it is the highest `seq` among the rows
when there is one, and it is never smaller than `c`. -/
theorem cursor_never_regresses (s : memStore) (S u : String) (q : MessagesQuery)
    (resp : MessagesResponse) (h : (Service.ListMessages s S u q).2 = .ok resp) :
    ∃ rows, s.ListPlaySessionMessages S (q.LastMessage.getD 0) (q.PageSize.getD 50) =
        some rows ∧
      resp.Items = rows.map Service.toItem ∧
      (rows = [] → resp.LastMessage = q.LastMessage.getD 0) ∧
      (rows ≠ [] → resp.LastMessage ∈ rows.map (fun r => r.SeqID) ∧
        ∀ r ∈ rows, r.SeqID ≤ resp.LastMessage) ∧
      q.LastMessage.getD 0 ≤ resp.LastMessage := by
  cases hps : s.GetPlaySessionByID S with
  | error e =>
    exfalso
    unfold Service.ListMessages at h
    rw [hps] at h
    cases h
  | ok ps =>
    cases hmem : s.IsPlaySessionMember S u with
    | false =>
      exfalso
      unfold Service.ListMessages at h
      rw [hps] at h
      simp only [] at h
      rw [if_pos (by rw [hmem]; exact Bool.false_ne_true)] at h
      cases h
    | true =>
      rw [ListMessages_eq s S u q ps hps hmem] at h
      cases hrows : s.ListPlaySessionMessages S (q.LastMessage.getD 0) (q.PageSize.getD 50) with
      | none => rw [hrows] at h; cases h
      | some rows =>
        rw [hrows] at h
        have hresp : resp = MessagesResponse.mk (rows.map Service.toItem)
            (Service.lastSeq (q.LastMessage.getD 0) rows) :=
          (Except.ok.inj h).symm
        have hgt : ∀ r ∈ rows, q.LastMessage.getD 0 < r.SeqID := by
          intro r hr
          unfold memStore.ListPlaySessionMessages at hrows
          split at hrows
          · cases hrows
          · have := Option.some.inj hrows
            rw [← this] at hr
            rcases listLoop_mem _ _ _ _ r hr with h1 | h1
            · cases h1
            · exact h1
        refine ⟨rows, rfl, by rw [hresp], ?_, ?_, ?_⟩
        · intro he; rw [hresp, he]; rfl
        · intro hne
          rw [hresp]
          refine ⟨?_, lastSeq_ge_rows rows _⟩
          rcases lastSeq_mem rows (q.LastMessage.getD 0) with h1 | h1
          · exfalso
            obtain ⟨r, hr⟩ := List.exists_mem_of_ne_nil rows hne
            have h2 := lastSeq_ge_rows rows (q.LastMessage.getD 0) r hr
            have h3 := hgt r hr
            omega
          · exact h1
        · rw [hresp]; exact lastSeq_ge rows _

/-- C20 at a concrete store: cursor 1 at the three messages of `S`. -/
theorem cursor_never_regresses_witness :
    ∃ rows, chatStore.ListPlaySessionMessages "S" 1 50 = some rows ∧
      [({ ID := "m2", UserID := "u", Text := "yo", CreatedAt := 6 } : MessageItem),
        { ID := "m3", UserID := "gm", Text := "go", CreatedAt := 7 }] =
        rows.map Service.toItem ∧
      (rows = [] → (3 : Int) = 1) ∧
      (rows ≠ [] → (3 : Int) ∈ rows.map (fun r => r.SeqID) ∧ ∀ r ∈ rows, r.SeqID ≤ 3) ∧
      (1 : Int) ≤ 3 :=
  cursor_never_regresses chatStore "S" "u" { LastMessage := some 1, PageSize := some 50 }
    { Items := [{ ID := "m2", UserID := "u", Text := "yo", CreatedAt := 6 },
                { ID := "m3", UserID := "gm", Text := "go", CreatedAt := 7 }],
      LastMessage := 3 } rfl

/-! ## CanConnect -/

/-- C21. `CanConnect(S, u)` never modifies the store and fails when `S` is
absent. For a session whose visibility is `Public` or `Private` (the two
values of `model.AllowedVisibility`, the only ones that
`CreatePlaySessionDTO.Validate` lets through to `Create`), whatever its
status, it returns whether `u` has a member row in `S`, so it returns true
only for a member of an existing session. -/
theorem can_connect_spec (s : memStore) (S u : String) :
    (Service.CanConnect s S u).1 = s ∧
    (∀ e, s.GetPlaySessionByID S = .error e →
      (Service.CanConnect s S u).2 = .error (.store e)) ∧
    (∀ ps, s.GetPlaySessionByID S = .ok ps →
      (ps.Visibility = VisibilityPublic ∨ ps.Visibility = VisibilityPrivate) →
      (Service.CanConnect s S u).2 = .ok (s.IsPlaySessionMember S u)) := by
  refine ⟨?_, ?_, ?_⟩
  · unfold Service.CanConnect
    cases s.GetPlaySessionByID S with
    | error e => rfl
    | ok ps =>
      simp only []
      split
      · rfl
      · split <;> rfl
  · intro e he
    unfold Service.CanConnect
    rw [he]
  · intro ps hps hvis
    unfold Service.CanConnect
    rw [hps]
    simp only []
    cases hm : s.IsPlaySessionMember S u with
    | true =>
      rw [if_neg (fun h => h.2 rfl), if_neg (fun h => h.2 rfl)]
    | false =>
      rcases hvis with h | h
      · have hne : ¬ ps.Visibility = VisibilityPrivate := by rw [h]; decide
        rw [if_neg (fun hc => hne hc.1), if_pos ⟨h, Bool.false_ne_true⟩]
      · rw [if_pos ⟨h, Bool.false_ne_true⟩]

/-- C21 at a concrete store: a member and a stranger at the public table. -/
theorem can_connect_spec_witness :
    (Service.CanConnect seatedStore "S" "u").2 = .ok true ∧
    (Service.CanConnect seatedStore "S" "p1").2 = .ok false :=
  ⟨((can_connect_spec seatedStore "S" "u").2.2 (Service.createdRecord "S" 1 "gm" dtoTwo) rfl
      (Or.inl rfl)).trans rfl,
   ((can_connect_spec seatedStore "S" "p1").2.2 (Service.createdRecord "S" 1 "gm" dtoTwo) rfl
      (Or.inl rfl)).trans rfl⟩

/-- Why the visibility is taken to be `Public` or `Private`: for any other
value, which `CreatePlaySessionDTO.Validate` rejects, `CanConnect` falls
through to `return true`; `p1` has no member row in the table `H` of
`hiddenStore`. -/
theorem can_connect_other_visibility :
    hiddenStore.GetPlaySessionByID "H" = .ok (Service.createdRecord "H" 1 "gm" dtoHidden) ∧
    hiddenStore.IsPlaySessionMember "H" "p1" = false ∧
    (Service.CanConnect hiddenStore "H" "p1").2 = .ok true :=
  ⟨rfl, rfl, rfl⟩

/-- C25, as the code has it. After `End(a)` has succeeded for a session `S`
whose visibility is `Public` or `Private`, `CanConnect(S, u)` returns whether
`u` has a member row in `S`, and the member rows are those from before the
`End`: it returns false for every user without a member row, and true for
every member. -/
theorem can_connect_after_end (s s' : memStore) (a S : String) (ps : PlaySessionDB)
    (h : Service.End s a = (s', .ok S))
    (hps : s.GetPlaySessionByID S = .ok ps)
    (hvis : ps.Visibility = VisibilityPublic ∨ ps.Visibility = VisibilityPrivate) (u : String) :
    s'.GetPlaySessionByID S = .ok { ps with Status := Archived } ∧
    s'.IsPlaySessionMember S u = s.IsPlaySessionMember S u ∧
    (Service.CanConnect s' S u).2 = .ok (s.IsPlaySessionMember S u) := by
  rcases End_effect s a with ⟨e, he⟩ | ⟨ps', _, hq, _, _, he⟩
  · rw [he] at h; cases h
  · rw [he] at h
    have h1 : s' = _ := (Prod.mk.inj h).1.symm
    have h2 : S = s.GetUserActiveSessionID a := (Except.ok.inj (Prod.mk.inj h).2).symm
    have hps' := (GetPlaySessionByID_ok_iff _ _ _).mp hps
    have hid := sessionIn_ID _ _ _ hps'
    have hget : s'.GetPlaySessionByID S = .ok { ps with Status := Archived } := by
      rw [h1, GetPlaySessionByID_ok_iff, ← h2]
      show sessionIn (s.sessions.map _) S = _
      rw [sessionIn_map_withStatus, hps']
      show some (withStatus S Archived ps) = _
      unfold withStatus
      rw [if_pos hid]
    have hmem : s'.IsPlaySessionMember S u = s.IsPlaySessionMember S u := by
      rw [h1]; rfl
    refine ⟨hget, hmem, ?_⟩
    unfold Service.CanConnect
    rw [hget]
    simp only []
    rw [hmem]
    cases hm : s.IsPlaySessionMember S u with
    | true =>
      rw [if_neg (fun h => h.2 rfl), if_neg (fun h => h.2 rfl)]
    | false =>
      rcases hvis with h | h
      · have hne : ¬ ps.Visibility = VisibilityPrivate := by rw [h]; decide
        rw [if_neg (fun hc => hne hc.1), if_pos ⟨h, Bool.false_ne_true⟩]
      · rw [if_pos ⟨h, Bool.false_ne_true⟩]

/-- C25 at a concrete store: after `End(gm)` the stranger `p1` is refused. -/
theorem can_connect_after_end_witness :
    (Service.CanConnect endedStore "S" "p1").2 = .ok false :=
  ((can_connect_after_end seatedStore endedStore "gm" "S"
    (Service.createdRecord "S" 1 "gm" dtoTwo) rfl rfl (Or.inl rfl) "p1").2.2).trans rfl

/-- C25 as stated fails: `End(gm)` succeeds for `S`, the session is
Archived, and `CanConnect(S, u)` returns true for the member `u` and for the
owner `gm`. -/
theorem can_connect_member_after_end :
    Service.End seatedStore "gm" = (endedStore, .ok "S") ∧
    endedStore.GetPlaySessionByID "S" =
      .ok { Service.createdRecord "S" 1 "gm" dtoTwo with Status := Archived } ∧
    (Service.CanConnect endedStore "S" "u").2 = .ok true ∧
    (Service.CanConnect endedStore "S" "gm").2 = .ok true :=
  ⟨rfl, rfl, rfl, rfl⟩

/-! ## GenerateSecureString -/

open security

theorem categories_in_allChars :
    (∀ c ∈ uppercaseLetters.data, c ∈ allChars.data) ∧
    (∀ c ∈ lowercaseLetters.data, c ∈ allChars.data) ∧
    (∀ c ∈ digits.data, c ∈ allChars.data) ∧
    (∀ c ∈ specialChars.data, c ∈ allChars.data) := by
  decide

theorem allChars_not_ambiguous : ∀ c ∈ allChars.data, c ∉ ambiguousChars.data := by
  decide

theorem randInt_ok (rd : Reader) (hr : ∀ k, rd.draws k ≠ none) (max : Nat) (hmax : 0 < max) :
    ∃ v, v < max ∧ randInt rd max = .ok (v, { rd with pos := rd.pos + 1 }) := by
  unfold randInt
  cases h : rd.draws rd.pos with
  | none => exact absurd h (hr _)
  | some v => exact ⟨v % max, Nat.mod_lt _ hmax, rfl⟩

theorem getRandomChar_ok (rd : Reader) (hr : ∀ k, rd.draws k ≠ none) (chars : String)
    (hlen : chars.length ≠ 0) :
    ∃ c, c ∈ chars.data ∧ getRandomChar rd chars = .ok (c, { rd with pos := rd.pos + 1 }) := by
  obtain ⟨v, hv, h⟩ := randInt_ok rd hr chars.length (Nat.pos_of_ne_zero hlen)
  unfold getRandomChar
  rw [if_neg hlen, h]
  simp only []
  have hv' : v < chars.data.length := hv
  rw [List.getElem?_eq_getElem hv']
  exact ⟨chars.data[v], List.getElem_mem _, rfl⟩

theorem swapBytes_ok (data : List Char) (i j : Nat) (hi : i < data.length)
    (hj : j < data.length) :
    ∃ d, swapBytes data i j = .ok d ∧ d.length = data.length ∧ ∀ c, c ∈ d ↔ c ∈ data := by
  unfold swapBytes
  rw [List.getElem?_eq_getElem hi, List.getElem?_eq_getElem hj]
  refine ⟨_, rfl, by simp, ?_⟩
  intro c
  constructor
  · intro h
    rcases List.mem_or_eq_of_mem_set h with h1 | h1
    · rcases List.mem_or_eq_of_mem_set h1 with h2 | h2
      · exact h2
      · rw [h2]; exact List.getElem_mem _
    · rw [h1]; exact List.getElem_mem _
  · intro h
    obtain ⟨k, hk, hc⟩ := List.mem_iff_getElem.mp h
    have hlen : ((data.set i data[j]).set j data[i]).length = data.length := by simp
    by_cases hki : k = i
    · have : ((data.set i data[j]).set j data[i])[j]? = some c := by
        rw [List.getElem?_set_self (by simpa using hj)]
        rw [← hc]; simp [hki]
      exact List.mem_iff_getElem?.mpr ⟨_, this⟩
    · by_cases hkj : k = j
      · have : ((data.set i data[j]).set j data[i])[i]? = some c := by
          have hij : j ≠ i := fun e => hki (hkj.trans e)
          rw [List.getElem?_set_ne hij, List.getElem?_set_self hi]
          rw [← hc]; simp [hkj]
        exact List.mem_iff_getElem?.mpr ⟨_, this⟩
      · have : ((data.set i data[j]).set j data[i])[k]? = some c := by
          rw [List.getElem?_set_ne (fun e => hkj e.symm),
            List.getElem?_set_ne (fun e => hki e.symm), List.getElem?_eq_getElem hk, hc]
        exact List.mem_iff_getElem?.mpr ⟨_, this⟩

theorem shuffleFrom_ok : ∀ (i : Nat) (rd : Reader) (data : List Char),
    (∀ k, rd.draws k ≠ none) → i < data.length →
    ∃ d rd1, shuffleFrom rd i data = .ok (d, rd1) ∧ d.length = data.length ∧
      ∀ c, c ∈ d ↔ c ∈ data := by
  intro i
  induction i with
  | zero => intro rd data _ _; exact ⟨data, rd, rfl, rfl, fun _ => Iff.rfl⟩
  | succ i ih =>
    intro rd data hr hi
    obtain ⟨j, hj, h1⟩ := randInt_ok rd hr (i + 1 + 1) (Nat.succ_pos _)
    obtain ⟨d1, h2, h3, h4⟩ := swapBytes_ok data (i + 1) j hi (by omega)
    obtain ⟨d, rd1, h5, h6, h7⟩ := ih { rd with pos := rd.pos + 1 } d1 hr (by omega)
    refine ⟨d, rd1, ?_, by omega, fun c => (h7 c).trans (h4 c)⟩
    rw [shuffleFrom, h1]
    simp only []
    rw [h2]
    exact h5

theorem fillRest_ok (length : Nat) : ∀ (fuel i : Nat) (rd : Reader) (result : List Char),
    (∀ k, rd.draws k ≠ none) → result.length = length → i + fuel = length →
    ∃ r rd1, fillRest rd length fuel i result = .ok (r, rd1) ∧ rd1.draws = rd.draws ∧
      r.length = length ∧ (∀ k, k < i → r[k]? = result[k]?) ∧
      (∀ k, i ≤ k → k < length → ∃ c, c ∈ allChars.data ∧ r[k]? = some c) := by
  intro fuel
  induction fuel with
  | zero =>
    intro i rd result _ hlen hi
    exact ⟨result, rd, rfl, rfl, hlen, fun _ _ => rfl, fun k h1 h2 => by omega⟩
  | succ fuel ih =>
    intro i rd result hr hlen hi
    have hil : i < length := by omega
    obtain ⟨c, hc, h1⟩ := getRandomChar_ok rd hr allChars (by decide)
    obtain ⟨r, rd1, h2, h3, h4, h5, h6⟩ := ih (i + 1) { rd with pos := rd.pos + 1 }
      (result.set i c) hr (by simpa using hlen) (by omega)
    refine ⟨r, rd1, ?_, h3, h4, ?_, ?_⟩
    · rw [fillRest, if_pos hil, h1]
      simp only []
      rw [if_pos (by omega), h2]
    · intro k hk
      rw [h5 k (by omega), List.getElem?_set_ne (by omega)]
    · intro k hk1 hk2
      by_cases hki : k = i
      · refine ⟨c, hc, ?_⟩
        rw [h5 k (by omega), hki, List.getElem?_set_self (by omega)]
      · exact h6 k (by omega) hk2


theorem fillCategories_ok (rd : Reader) (hr : ∀ k, rd.draws k ≠ none) (result : List Char)
    (hlen : 4 ≤ result.length) :
    ∃ r rd1 c0 c1 c2 c3,
      fillCategories rd [uppercaseLetters, lowercaseLetters, digits, specialChars] 0 result =
        .ok (r, rd1) ∧ rd1.draws = rd.draws ∧ r.length = result.length ∧
      c0 ∈ uppercaseLetters.data ∧ c1 ∈ lowercaseLetters.data ∧ c2 ∈ digits.data ∧
      c3 ∈ specialChars.data ∧
      r[0]? = some c0 ∧ r[1]? = some c1 ∧ r[2]? = some c2 ∧ r[3]? = some c3 := by
  obtain ⟨c0, hc0, h0⟩ := getRandomChar_ok rd hr uppercaseLetters (by decide)
  obtain ⟨c1, hc1, h1⟩ := getRandomChar_ok { rd with pos := rd.pos + 1 } hr
    lowercaseLetters (by decide)
  obtain ⟨c2, hc2, h2⟩ := getRandomChar_ok { rd with pos := rd.pos + 1 + 1 } hr
    digits (by decide)
  obtain ⟨c3, hc3, h3⟩ := getRandomChar_ok { rd with pos := rd.pos + 1 + 1 + 1 } hr
    specialChars (by decide)
  refine ⟨(((result.set 0 c0).set 1 c1).set 2 c2).set 3 c3,
    { rd with pos := rd.pos + 1 + 1 + 1 + 1 }, c0, c1, c2, c3, ?_, rfl, by simp,
    hc0, hc1, hc2, hc3, ?_, ?_, ?_, ?_⟩
  · rw [fillCategories, h0]
    simp only []
    rw [if_pos (by omega), fillCategories, h1]
    simp only []
    rw [if_pos (by simp; omega), fillCategories, h2]
    simp only []
    rw [if_pos (by simp; omega), fillCategories, h3]
    simp only []
    rw [if_pos (by simp; omega), fillCategories]
  · rw [List.getElem?_set_ne (by omega), List.getElem?_set_ne (by omega),
      List.getElem?_set_ne (by omega), List.getElem?_set_self (by omega)]
  · rw [List.getElem?_set_ne (by omega), List.getElem?_set_ne (by omega),
      List.getElem?_set_self (by simp; omega)]
  · rw [List.getElem?_set_ne (by omega), List.getElem?_set_self (by simp; omega)]
  · rw [List.getElem?_set_self (by simp; omega)]

/-- The bytes before the shuffle: the first four hold one character of each
category, the others a character of `allChars`. -/
theorem filled_good (r : List Char) (c0 c1 c2 c3 : Char)
    (hc0 : c0 ∈ uppercaseLetters.data) (hc1 : c1 ∈ lowercaseLetters.data)
    (hc2 : c2 ∈ digits.data) (hc3 : c3 ∈ specialChars.data)
    (h0 : r[0]? = some c0) (h1 : r[1]? = some c1) (h2 : r[2]? = some c2)
    (h3 : r[3]? = some c3)
    (hrest : ∀ k, 4 ≤ k → k < r.length → ∃ c, c ∈ allChars.data ∧ r[k]? = some c) :
    GoodBytes r := by
  have hin : ∀ k c, r[k]? = some c → c ∈ r := fun k c h => List.mem_iff_getElem?.mpr ⟨k, h⟩
  refine ⟨?_, ⟨c0, hin 0 c0 h0, hc0⟩, ⟨c1, hin 1 c1 h1, hc1⟩, ⟨c2, hin 2 c2 h2, hc2⟩,
    ⟨c3, hin 3 c3 h3, hc3⟩⟩
  intro c hc
  obtain ⟨k, hk, hkc⟩ := List.mem_iff_getElem.mp hc
  have hk2 : r[k]? = some c := by rw [List.getElem?_eq_getElem hk, hkc]
  by_cases h4 : 4 ≤ k
  · obtain ⟨c', hc', hk3⟩ := hrest k h4 hk
    rw [hk2] at hk3
    rw [Option.some.inj hk3]; exact hc'
  · have hcases : k = 0 ∨ k = 1 ∨ k = 2 ∨ k = 3 := by omega
    rcases hcases with e | e | e | e <;> rw [e] at hk2
    · rw [h0] at hk2; rw [← Option.some.inj hk2]; exact categories_in_allChars.1 c0 hc0
    · rw [h1] at hk2; rw [← Option.some.inj hk2]; exact categories_in_allChars.2.1 c1 hc1
    · rw [h2] at hk2; rw [← Option.some.inj hk2]; exact categories_in_allChars.2.2.1 c2 hc2
    · rw [h3] at hk2; rw [← Option.some.inj hk2]; exact categories_in_allChars.2.2.2 c3 hc3

theorem GoodBytes_of_same (d r : List Char) (h : ∀ c, c ∈ d ↔ c ∈ r) (hg : GoodBytes r) :
    GoodBytes d := by
  obtain ⟨h0, ⟨a, ha, ha'⟩, ⟨b, hb, hb'⟩, ⟨c, hc, hc'⟩, ⟨e, he, he'⟩⟩ := hg
  exact ⟨fun x hx => h0 x ((h x).mp hx), ⟨a, (h a).mpr ha, ha'⟩, ⟨b, (h b).mpr hb, hb'⟩,
    ⟨c, (h c).mpr hc, hc'⟩, ⟨e, (h e).mpr he, he'⟩⟩

theorem GenerateSecureString_ok (rd : Reader) (hr : ∀ k, rd.draws k ≠ none) (length : Int)
    (hlen : 4 ≤ length) :
    ∃ d, GenerateSecureString rd length = .ok (String.mk d) ∧ (d.length : Int) = length ∧
      GoodBytes d := by
  have hn : 4 ≤ length.toNat := by omega
  obtain ⟨r1, rd1, c0, c1, c2, c3, e1, hd1, hl1, hc0, hc1, hc2, hc3, g0, g1, g2, g3⟩ :=
    fillCategories_ok rd hr (List.replicate length.toNat (Char.ofNat 0)) (by simpa using hn)
  have hl1' : r1.length = length.toNat := by simpa using hl1
  obtain ⟨r2, rd2, e2, hd2, hl2, hlow, hhigh⟩ :=
    fillRest_ok length.toNat (length.toNat - 4) 4 rd1 r1 (by rw [hd1]; exact hr) hl1'
      (by omega)
  obtain ⟨d, rd3, e3, hl3, hsame⟩ := shuffleFrom_ok (r2.length - 1) rd2 r2
    (by rw [hd2, hd1]; exact hr) (by omega)
  have hgood : GoodBytes r2 :=
    filled_good r2 c0 c1 c2 c3 hc0 hc1 hc2 hc3
      (by rw [hlow 0 (by omega)]; exact g0) (by rw [hlow 1 (by omega)]; exact g1)
      (by rw [hlow 2 (by omega)]; exact g2) (by rw [hlow 3 (by omega)]; exact g3)
      (fun k h1 h2 => hhigh k h1 (by omega))
  refine ⟨d, ?_, by omega, GoodBytes_of_same d r2 hsame hgood⟩
  unfold GenerateSecureString
  rw [if_neg (by omega)]
  simp only []
  rw [e1]
  simp only []
  rw [e2]
  simp only []
  unfold shuffleBytes
  rw [e3]

/-- C29. `GenerateSecureString(n)` fails for every `n < 4`, whatever the random
source does; with a source none of whose reads fails it fails only then, and
for `n >= 4` it returns a string of exactly `n` characters, each from
`allChars` and so none of the ambiguous ones, among them an uppercase letter,
a lowercase letter, a digit and a special character. -/
theorem generate_secure_string_spec (draws : Nat → Option Nat) (n : Int)
    (hr : ∀ k, draws k ≠ none) :
    (∀ rd, n < 4 → ∃ e, GenerateSecureString rd n = .error e) ∧
    ((∃ e, GenerateSecureString { draws := draws, pos := 0 } n = .error e) ↔ n < 4) ∧
    (4 ≤ n → ∃ str, GenerateSecureString { draws := draws, pos := 0 } n = .ok str ∧
      (str.length : Int) = n ∧
      (∀ c ∈ str.data, c ∈ allChars.data ∧ c ∉ ambiguousChars.data) ∧
      (∃ c ∈ str.data, c ∈ uppercaseLetters.data) ∧
      (∃ c ∈ str.data, c ∈ lowercaseLetters.data) ∧
      (∃ c ∈ str.data, c ∈ digits.data) ∧
      (∃ c ∈ str.data, c ∈ specialChars.data)) := by
  have hshort : ∀ rd, n < 4 → ∃ e, GenerateSecureString rd n = .error e := by
    intro rd h
    refine ⟨"length has to be at least 4", ?_⟩
    unfold GenerateSecureString
    rw [if_pos h]
  refine ⟨hshort, ⟨?_, hshort _⟩, ?_⟩
  · rintro ⟨e, he⟩
    by_contra hge
    obtain ⟨d, hd, _, _⟩ := GenerateSecureString_ok { draws := draws, pos := 0 } hr n
      (by omega)
    rw [hd] at he
    cases he
  · intro hge
    obtain ⟨d, hd, hl, hall, hu, hlo, hdg, hsp⟩ :=
      GenerateSecureString_ok { draws := draws, pos := 0 } hr n hge
    exact ⟨String.mk d, hd, hl,
      fun c hc => ⟨hall c hc, allChars_not_ambiguous c (hall c hc)⟩, hu, hlo, hdg, hsp⟩

/-- C29 at a concrete source: eight characters from `steadyDraws`. -/
theorem generate_secure_string_spec_witness :
    GenerateSecureString { draws := steadyDraws, pos := 0 } 8 = .ok "w47&Eq\x7d*" ∧
    ∃ e, GenerateSecureString { draws := steadyDraws, pos := 0 } 3 = .error e :=
  ⟨rfl, (generate_secure_string_spec steadyDraws 3 (fun _ h => Option.noConfusion h)).1
    { draws := steadyDraws, pos := 0 } (by decide)⟩

/-! ## Failures of the store -/

/-- On `memStore` the service over `Storage` is `Service.Join`. -/
theorem Join_on_memStorage (s : memStore) (S u : String) :
    ServiceOn.Join memStorage s S u = Service.Join s S u := by
  unfold ServiceOn.Join Service.Join memStorage liftStore
  simp only []
  cases s.GetPlaySessionByID S with
  | error e => rfl
  | ok ps =>
    simp only []
    split
    · rfl
    · split
      · rfl
      · split
        · rfl
        · split
          · rfl
          · split
            · rfl
            · cases s.AddPlaySessionMember
                { SessionID := S, UserID := u, Role := Player, Muted := false } <;> rfl

/-- On `memStore` the service over `Storage` is `Service.Mute`. -/
theorem Mute_on_memStorage (s : memStore) (g t : String) :
    ServiceOn.Mute memStorage s g t = Service.Mute s g t := by
  unfold ServiceOn.Mute Service.Mute Service.setMuted memStorage liftStore
  simp only []
  split
  · rfl
  · cases s.GetPlaySessionByID (s.GetUserActiveSessionID g) with
    | error e => rfl
    | ok ps =>
      simp only []
      split
      · rfl
      · cases s.GetUserByID t with
        | error e => rfl
        | ok usr =>
          simp only []
          cases s.GetPlaySessionMember (s.GetUserActiveSessionID g) t with
          | none => rfl
          | some m =>
            simp only []
            split
            · rfl
            · cases s.SetMemberMuted (s.GetUserActiveSessionID g) t true <;> rfl

/-- C27. With the session table unreachable, `Join` of a free user at a
session with a free seat reports `ErrSessionNotFound`, and with the user table
unreachable `Mute` by the owner reports `ErrPlayerNotFound`: the error of the
store is dropped, while on the reachable store both calls succeed. -/
theorem store_failure_reported_as_not_found :
    sessionsDown.GetPlaySessionByID createdStore "S" = .error connRefused ∧
    ServiceOn.Join sessionsDown createdStore "S" "p1" =
      (createdStore, .error ErrSessionNotFound) ∧
    (ServiceOn.Join memStorage createdStore "S" "p1").2 = .ok () ∧
    usersDown.GetUserByID seatedStore "u" = .error connRefused ∧
    ServiceOn.Mute usersDown seatedStore "gm" "u" =
      (seatedStore, .error ErrPlayerNotFound) ∧
    (ServiceOn.Mute memStorage seatedStore "gm" "u").2 = .ok "S" :=
  ⟨rfl, rfl, rfl, rfl, rfl, rfl⟩

/-! ## Concurrent calls of Join -/

theorem steps_of_step (s s1 : memStore) (c c1 : JoinCall) (n : Nat)
    (h : JoinCall.step s c = (s1, c1)) :
    JoinCall.steps s c (n + 1) = JoinCall.steps s1 c1 n := by
  show JoinCall.steps (JoinCall.step s c).1 (JoinCall.step s c).2 n = _
  rw [h]

theorem steps_returned (s : memStore) (S u : String) (r : Except Err Unit) :
    ∀ n, JoinCall.steps s { sessionID := S, userID := u, pc := .returned r } n =
      (s, { sessionID := S, userID := u, pc := .returned r }) := by
  intro n
  induction n with
  | zero => rfl
  | succ n ih =>
    rw [steps_of_step s s { sessionID := S, userID := u, pc := .returned r }
      { sessionID := S, userID := u, pc := .returned r } n rfl]
    exact ih

/-- A call of `Join` that runs alone is `Service.Join`: after its six store
calls it has returned what `Service.Join` returns, with the same store. -/
theorem JoinCall_alone (s : memStore) (S u : String) :
    JoinCall.steps s (JoinCall.start S u) 6 =
      ((Service.Join s S u).1,
        { sessionID := S, userID := u, pc := .returned (Service.Join s S u).2 }) := by
  unfold Service.Join JoinCall.start
  cases hg : s.GetPlaySessionByID S with
  | error e =>
    have e1 : JoinCall.step s { sessionID := S, userID := u, pc := .getSession } =
        (s, { sessionID := S, userID := u, pc := .returned (.error ErrSessionNotFound) }) := by
      simp only [JoinCall.step, hg]
    rw [steps_of_step _ _ _ _ _ e1, steps_returned]
  | ok ps =>
    simp only []
    by_cases h1 : ps.Status ≠ Active
    · have e1 : JoinCall.step s { sessionID := S, userID := u, pc := .getSession } =
          (s, { sessionID := S, userID := u, pc := .returned (.error ErrSessionArchived) }) := by
        simp only [JoinCall.step, hg, if_pos h1]
      rw [steps_of_step _ _ _ _ _ e1, steps_returned, if_pos h1]
    · by_cases h2 : ps.Visibility = VisibilityPrivate ∧ ps.OwnerID ≠ u
      · have e1 : JoinCall.step s { sessionID := S, userID := u, pc := .getSession } =
            (s, { sessionID := S, userID := u, pc := .returned (.error ErrForbiddenJoin) }) := by
          simp only [JoinCall.step, hg, if_neg h1, if_pos h2]
        rw [steps_of_step _ _ _ _ _ e1, steps_returned, if_neg h1, if_pos h2]
      · have e1 : JoinCall.step s { sessionID := S, userID := u, pc := .getSession } =
            (s, { sessionID := S, userID := u, pc := .isMember ps }) := by
          simp only [JoinCall.step, hg, if_neg h1, if_neg h2]
        rw [steps_of_step _ _ _ _ _ e1, if_neg h1, if_neg h2]
        by_cases h3 : s.IsPlaySessionMember S u = true
        · have e2 : JoinCall.step s { sessionID := S, userID := u, pc := .isMember ps } =
              (s, { sessionID := S, userID := u, pc := .returned (.error ErrAlreadyMember) }) := by
            simp only [JoinCall.step, if_pos h3]
          rw [steps_of_step _ _ _ _ _ e2, steps_returned, if_pos h3]
        · have e2 : JoinCall.step s { sessionID := S, userID := u, pc := .isMember ps } =
              (s, { sessionID := S, userID := u, pc := .countMembers ps }) := by
            simp only [JoinCall.step, if_neg h3]
          rw [steps_of_step _ _ _ _ _ e2, if_neg h3]
          by_cases h4 : s.CountPlaySessionMembers S ≥ ps.Capacity
          · have e3 : JoinCall.step s { sessionID := S, userID := u, pc := .countMembers ps } =
                (s, { sessionID := S, userID := u,
                      pc := .returned (.error ErrCapacityExceeded) }) := by
              simp only [JoinCall.step, if_pos h4]
            rw [steps_of_step _ _ _ _ _ e3, steps_returned, if_pos h4]
          · have e3 : JoinCall.step s { sessionID := S, userID := u, pc := .countMembers ps } =
                (s, { sessionID := S, userID := u, pc := .isBanned }) := by
              simp only [JoinCall.step, if_neg h4]
            rw [steps_of_step _ _ _ _ _ e3, if_neg h4]
            by_cases h5 : s.IsBannedFromSession S u = true
            · have e4 : JoinCall.step s { sessionID := S, userID := u, pc := .isBanned } =
                  (s, { sessionID := S, userID := u,
                        pc := .returned (.error ErrForbiddenJoin) }) := by
                simp only [JoinCall.step, if_pos h5]
              rw [steps_of_step _ _ _ _ _ e4, steps_returned, if_pos h5]
            · have e4 : JoinCall.step s { sessionID := S, userID := u, pc := .isBanned } =
                  (s, { sessionID := S, userID := u, pc := .addMember }) := by
                simp only [JoinCall.step, if_neg h5]
              rw [steps_of_step _ _ _ _ _ e4, if_neg h5]
              cases ha : s.AddPlaySessionMember
                  { SessionID := S, UserID := u, Role := Player, Muted := false } with
              | error e =>
                have e5 : JoinCall.step s { sessionID := S, userID := u, pc := .addMember } =
                    (s, { sessionID := S, userID := u,
                          pc := .returned (.error (.store e)) }) := by
                  simp only [JoinCall.step, ha]
                rw [steps_of_step _ _ _ _ _ e5, steps_returned]
              | ok s1 =>
                have e5 : JoinCall.step s { sessionID := S, userID := u, pc := .addMember } =
                    (s1, { sessionID := S, userID := u, pc := .setActive }) := by
                  simp only [JoinCall.step, ha]
                rw [steps_of_step _ _ _ _ _ e5]
                rfl

/-- C28. At the table `S` of `createdStore`, which has two seats of which the
owner holds one, the calls `Join(S, p1)` and `Join(S, p2)` that take turns
after every store call both return without error and leave three member rows;
run one after the other, the second fails with `ErrCapacityExceeded`. -/
theorem concurrent_joins_exceed_capacity :
    createdStore.GetPlaySessionByID "S" = .ok (Service.createdRecord "S" 1 "gm" dtoTwo) ∧
    dtoTwo.Capacity = 2 ∧ createdStore.CountPlaySessionMembers "S" = 1 ∧
    (runSchedule createdStore twoJoins turnsSchedule).2.map JoinCall.result =
      [some (.ok ()), some (.ok ())] ∧
    (runSchedule createdStore twoJoins turnsSchedule).1.CountPlaySessionMembers "S" = 3 ∧
    (runSchedule createdStore twoJoins serialSchedule).2.map JoinCall.result =
      [some (.ok ()), some (.error ErrCapacityExceeded)] ∧
    (runSchedule createdStore twoJoins serialSchedule).1.CountPlaySessionMembers "S" = 2 :=
  ⟨rfl, rfl, rfl, rfl, rfl, rfl, rfl⟩

/-! ## internal/ws -/

open ws

theorem Close_ok (w : State) (c : Nat) (cl : Client) (room : Room)
    (hc : w.clients c = some cl) (hr : w.rooms cl.room = some room)
    (ho : cl.sendClosed = false) :
    ∃ w1, Client.Close w c = .ok w1 ∧ w1.clients c = some cl.closed ∧
      (∀ p, p ≠ c → w1.clients p = w.clients p) ∧
      w1.rooms cl.room =
        some { room with clients := room.clients.filter (fun p => p ≠ c) } ∧
      (∀ q, q ≠ cl.room → w1.rooms q = w.rooms q) ∧ w1.hub = w.hub ∧ w1.next = w.next := by
  have hrm : Room.Remove (w.setClient c { cl with connClosed := true }) cl.room c =
      .ok ((w.setClient c { cl with connClosed := true }).setRoom cl.room
        { room with clients := room.clients.filter (fun p => p ≠ c) }) := by
    unfold Room.Remove
    show (match w.rooms cl.room with
      | none => _
      | some room => _) = _
    rw [hr]
  refine ⟨((w.setClient c { cl with connClosed := true }).setRoom cl.room
      { room with clients := room.clients.filter (fun p => p ≠ c) }).setClient c
        { cl with connClosed := true, sendClosed := true }, ?_, ?_, ?_, ?_, ?_, rfl, rfl⟩
  · unfold Client.Close
    rw [hc]
    simp only []
    rw [hrm]
    simp only []
    rw [if_neg (by rw [ho]; exact Bool.false_ne_true)]
  · show (if c = c then some _ else _) = _
    rw [if_pos rfl]; rfl
  · intro p hp
    show (if p = c then some _ else (if p = c then some _ else w.clients p)) = _
    rw [if_neg hp, if_neg hp]
  · show (if cl.room = cl.room then some _ else _) = _
    rw [if_pos rfl]
  · intro q hq
    show (if q = cl.room then some _ else w.rooms q) = _
    rw [if_neg hq]

/-- A second `Close` of a client panics: the channel `Send` is closed again. -/
theorem Close_twice (w w1 : State) (c : Nat) (h : Client.Close w c = .ok w1) :
    Client.Close w1 c = .error "close of closed channel" := by
  unfold Client.Close at h
  cases hc : w.clients c with
  | none => rw [hc] at h; cases h
  | some cl =>
    rw [hc] at h
    simp only [] at h
    unfold Room.Remove at h
    cases hr : (w.setClient c { cl with connClosed := true }).rooms cl.room with
    | none => rw [hr] at h; cases h
    | some room =>
      rw [hr] at h
      simp only [] at h
      by_cases ho : cl.sendClosed = true
      · rw [if_pos ho] at h; cases h
      · rw [if_neg ho] at h
        have hw := Except.ok.inj h
        have h1 : w1.clients c = some cl.closed := by
          rw [← hw]
          show (if c = c then some _ else _) = _
          rw [if_pos rfl]; rfl
        have h2 : w1.rooms cl.room =
            some { room with clients := room.clients.filter (fun p => p ≠ c) } := by
          rw [← hw]
          show (if cl.room = cl.room then some _ else _) = _
          rw [if_pos rfl]
        unfold Client.Close
        rw [h1]
        simp only []
        unfold Room.Remove
        have h3 : (w1.setClient c { cl.closed with connClosed := true }).rooms cl.closed.room =
            some { room with clients := room.clients.filter (fun p => p ≠ c) } := h2
        rw [h3]
        simp only []
        exact if_pos rfl


/-- Closing in turn clients of the room `r` whose channels are open: no call
panics, exactly these clients are closed, and they leave the room. -/
theorem closeEach_ok (r : Nat) : ∀ (l : List Nat) (w : State) (room : Room),
    l.Nodup → w.rooms r = some room →
    (∀ c ∈ l, ∃ cl, w.clients c = some cl ∧ cl.room = r ∧ cl.sendClosed = false) →
    ∃ w1, closeEach l w = .ok w1 ∧
      (∀ c ∈ l, ∀ cl, w.clients c = some cl → w1.clients c = some cl.closed) ∧
      (∀ p, p ∉ l → w1.clients p = w.clients p) ∧
      w1.rooms r = some { room with clients := room.clients.filter (fun p => p ∉ l) } ∧
      (∀ q, q ≠ r → w1.rooms q = w.rooms q) ∧ w1.hub = w.hub ∧ w1.next = w.next := by
  intro l
  induction l with
  | nil =>
    intro w room _ hr _
    refine ⟨w, rfl, fun c hc => absurd hc (List.not_mem_nil c), fun _ _ => rfl, ?_,
      fun _ _ => rfl, rfl, rfl⟩
    rw [hr]
    simp
  | cons c rest ih =>
    intro w room hnd hr hall
    obtain ⟨cl, hc, hcr, ho⟩ := hall c (List.mem_cons_self c rest)
    have hnd' := List.nodup_cons.mp hnd
    obtain ⟨w1, e1, k1, k2, k3, k4, k5, k6⟩ := Close_ok w c cl room hc (by rw [hcr]; exact hr) ho
    rw [hcr] at k3 k4
    have hall1 : ∀ d ∈ rest, ∃ dl, w1.clients d = some dl ∧ dl.room = r ∧
        dl.sendClosed = false := by
      intro d hd
      have hne : d ≠ c := fun e => hnd'.1 (e ▸ hd)
      rw [k2 d hne]
      exact hall d (List.mem_cons_of_mem c hd)
    obtain ⟨w2, e2, m1, m2, m3, m4, m5, m6⟩ := ih w1 _ hnd'.2 k3 hall1
    refine ⟨w2, ?_, ?_, ?_, ?_, ?_, m5.trans k5, m6.trans k6⟩
    · rw [closeEach, e1]
      exact e2
    · intro d hd dl hdl
      rcases List.mem_cons.mp hd with e | hd'
      · rw [e] at hdl
        rw [hc] at hdl
        rw [e, m2 c hnd'.1, k1, Option.some.inj hdl]
      · have hne : d ≠ c := fun e => hnd'.1 (e ▸ hd')
        exact m1 d hd' dl (by rw [k2 d hne]; exact hdl)
    · intro p hp
      have hp1 : p ≠ c := fun e => hp (e ▸ List.mem_cons_self c rest)
      have hp2 : p ∉ rest := fun e => hp (List.mem_cons_of_mem c e)
      rw [m2 p hp2, k2 p hp1]
    · rw [m3]
      simp only [List.filter_filter]
      congr 2
      apply List.filter_congr
      intro p _
      simp [List.mem_cons, not_or, Bool.and_comm]
    · intro q hq
      rw [m4 q hq, k4 q hq]

/-- The loop of `Room.Broadcast` over clients whose channels are open: no
panic; a client whose channel has room gets the payload at the end of its
queue, the others are left as they are and handed to `go c.Close()`. -/
theorem broadcastLoop_ok (msg : String) : ∀ (l : List Nat) (w : State) (spawned : List Nat),
    l.Nodup → (∀ c ∈ l, ∃ cl, w.clients c = some cl ∧ cl.sendClosed = false) →
    ∃ w1, Room.broadcastLoop msg l w spawned =
        .ok (w1, spawned ++ l.filter (fun c => w.isFull c)) ∧
      (∀ c ∈ l, ∀ cl, w.clients c = some cl →
        w1.clients c = some (if cl.Send.length < cl.sendCap then cl.queued msg else cl)) ∧
      (∀ p, p ∉ l → w1.clients p = w.clients p) ∧
      w1.rooms = w.rooms ∧ w1.hub = w.hub ∧ w1.next = w.next := by
  intro l
  induction l with
  | nil =>
    intro w spawned _ _
    exact ⟨w, by simp [Room.broadcastLoop], fun c hc => absurd hc (List.not_mem_nil c),
      fun _ _ => rfl, rfl, rfl, rfl⟩
  | cons c rest ih =>
    intro w spawned hnd hall
    obtain ⟨cl, hc, ho⟩ := hall c (List.mem_cons_self c rest)
    have hnd' := List.nodup_cons.mp hnd
    by_cases hroom : cl.Send.length < cl.sendCap
    · have hfull : w.isFull c = false := by
        unfold State.isFull
        rw [hc]
        exact decide_eq_false (by omega)
      have hsame : ∀ d, d ≠ c →
          (w.setClient c { cl with Send := cl.Send ++ [msg] }).clients d = w.clients d := by
        intro d hd
        show (if d = c then some _ else w.clients d) = _
        rw [if_neg hd]
      have hall1 : ∀ d ∈ rest, ∃ dl,
          (w.setClient c { cl with Send := cl.Send ++ [msg] }).clients d = some dl ∧
            dl.sendClosed = false := by
        intro d hd
        rw [hsame d (fun e => hnd'.1 (e ▸ hd))]
        exact hall d (List.mem_cons_of_mem c hd)
      obtain ⟨w1, e1, m1, m2, m3, m4, m5⟩ := ih _ spawned hnd'.2 hall1
      have hfilter : rest.filter
            (fun d => (w.setClient c { cl with Send := cl.Send ++ [msg] }).isFull d) =
          rest.filter (fun d => w.isFull d) := by
        apply List.filter_congr
        intro d hd
        unfold State.isFull
        rw [hsame d (fun e => hnd'.1 (e ▸ hd))]
      refine ⟨w1, ?_, ?_, ?_, m3, m4, m5⟩
      · rw [Room.broadcastLoop, hc]
        simp only []
        rw [if_neg (by rw [ho]; exact Bool.false_ne_true), if_pos hroom, e1, hfilter,
          List.filter_cons_of_neg (by rw [hfull]; exact Bool.false_ne_true)]
      · intro d hd dl hdl
        rcases List.mem_cons.mp hd with e | hd'
        · rw [e] at hdl
          rw [hc] at hdl
          rw [e, m2 c hnd'.1, ← Option.some.inj hdl, if_pos hroom]
          show (if c = c then some _ else _) = _
          rw [if_pos rfl]; rfl
        · have hne : d ≠ c := fun e => hnd'.1 (e ▸ hd')
          exact m1 d hd' dl (by rw [hsame d hne]; exact hdl)
      · intro p hp
        have hp1 : p ≠ c := fun e => hp (e ▸ List.mem_cons_self c rest)
        have hp2 : p ∉ rest := fun e => hp (List.mem_cons_of_mem c e)
        rw [m2 p hp2, hsame p hp1]
    · have hfull : w.isFull c = true := by
        unfold State.isFull
        rw [hc]
        exact decide_eq_true (by omega)
      obtain ⟨w1, e1, m1, m2, m3, m4, m5⟩ := ih w (spawned ++ [c]) hnd'.2
        (fun d hd => hall d (List.mem_cons_of_mem c hd))
      refine ⟨w1, ?_, ?_, ?_, m3, m4, m5⟩
      · rw [Room.broadcastLoop, hc]
        simp only []
        rw [if_neg (by rw [ho]; exact Bool.false_ne_true), if_neg hroom, e1,
          List.filter_cons_of_pos hfull, List.append_assoc]
        rfl
      · intro d hd dl hdl
        rcases List.mem_cons.mp hd with e | hd'
        · rw [e] at hdl
          rw [hc] at hdl
          rw [e, m2 c hnd'.1, hc, ← Option.some.inj hdl, if_neg hroom]
        · exact m1 d hd' dl hdl
      · intro p hp
        have hp2 : p ∉ rest := fun e => hp (List.mem_cons_of_mem c e)
        exact m2 p hp2


theorem subscribers_of (w : State) (r : Nat) (room : Room) (h : w.rooms r = some room) :
    w.subscribers r = room.clients := by
  unfold State.subscribers
  rw [h]

theorem LiveRoom_lobby : LiveRoom lobby 1 ∧ LiveRoom lobby 4 ∧ LiveRoom slowLobby 1 := by
  refine ⟨⟨{ id := "ps:1", clients := [2, 3] }, rfl, by decide, ?_⟩,
    ⟨{ id := "ps:2", clients := [5] }, rfl, by decide, ?_⟩,
    ⟨{ id := "ps:1", clients := [2, 3] }, rfl, by decide, ?_⟩⟩
  · intro c hc
    have : c = 2 ∨ c = 3 := by simpa using hc
    rcases this with e | e <;> rw [e] <;> exact ⟨_, rfl, rfl, rfl⟩
  · intro c hc
    have : c = 5 := by simpa using hc
    rw [this]; exact ⟨_, rfl, rfl, rfl⟩
  · intro c hc
    have : c = 2 ∨ c = 3 := by simpa using hc
    rcases this with e | e <;> rw [e] <;> exact ⟨_, rfl, rfl, rfl⟩

/-- What `Room.Broadcast` and the goroutines it starts do to a live room. -/
theorem Broadcast_effect (w : State) (r : Nat) (room : Room) (msg : String)
    (hr : w.rooms r = some room) (hlive : LiveRoom w r) :
    ∃ w1 w2, Room.Broadcast w r msg = .ok (w1, room.clients.filter (fun c => w.isFull c)) ∧
      closeEach (room.clients.filter (fun c => w.isFull c)) w1 = .ok w2 ∧
      (∀ c ∈ room.clients, ∀ cl, w.clients c = some cl →
        w1.clients c = some (if cl.Send.length < cl.sendCap then cl.queued msg else cl)) ∧
      (∀ p, p ∉ room.clients → w1.clients p = w.clients p) ∧
      w1.rooms = w.rooms ∧ w1.hub = w.hub ∧ w1.next = w.next ∧
      (∀ c ∈ room.clients, w.isFull c = true → ∀ cl, w.clients c = some cl →
        w2.clients c = some cl.closed) ∧
      (∀ p, ¬ (p ∈ room.clients ∧ w.isFull p = true) → w2.clients p = w1.clients p) ∧
      w2.rooms r =
        some { room with clients := room.clients.filter (fun p => ¬ w.isFull p) } ∧
      (∀ q, q ≠ r → w2.rooms q = w.rooms q) ∧ w2.hub = w.hub ∧ w2.next = w.next := by
  obtain ⟨room', hr', hnd, hall⟩ := hlive
  rw [hr] at hr'
  cases Option.some.inj hr'
  obtain ⟨w1, e1, a1, a2, a3, a4, a5⟩ := broadcastLoop_ok msg room.clients w [] hnd
    (fun c hc => by
      obtain ⟨cl, h1, _, h3⟩ := hall c hc
      exact ⟨cl, h1, h3⟩)
  rw [List.nil_append] at e1
  have hfullcl : ∀ c ∈ room.clients.filter (fun c => w.isFull c),
      ∃ cl, w1.clients c = some cl ∧ cl.room = r ∧ cl.sendClosed = false := by
    intro c hc
    obtain ⟨hc1, hc2⟩ := List.mem_filter.mp hc
    obtain ⟨cl, h1, h2, h3⟩ := hall c hc1
    have hfull : ¬ cl.Send.length < cl.sendCap := by
      unfold State.isFull at hc2
      rw [h1] at hc2
      have := of_decide_eq_true hc2
      omega
    refine ⟨cl, ?_, h2, h3⟩
    rw [a1 c hc1 cl h1, if_neg hfull]
  obtain ⟨w2, e2, b1, b2, b3, b4, b5, b6⟩ := closeEach_ok r
    (room.clients.filter (fun c => w.isFull c)) w1 room (hnd.filter _)
    (by rw [a3]; exact hr) hfullcl
  refine ⟨w1, w2, ?_, e2, a1, a2, a3, a4, a5, ?_, ?_, ?_, ?_, b5.trans a4, b6.trans a5⟩
  · unfold Room.Broadcast
    rw [hr]
    exact e1
  · intro c hc hfull cl hcl
    have hfull' : ¬ cl.Send.length < cl.sendCap := by
      unfold State.isFull at hfull
      rw [hcl] at hfull
      have := of_decide_eq_true hfull
      omega
    exact b1 c (List.mem_filter.mpr ⟨hc, hfull⟩) cl (by rw [a1 c hc cl hcl, if_neg hfull'])
  · intro p hp
    exact b2 p (fun h => hp ((List.mem_filter.mp h).imp id id))
  · rw [b3]
    congr 2
    apply List.filter_congr
    intro p hp
    simp [List.mem_filter, hp]
  · intro q hq
    rw [b4 q hq, a3]


theorem isFull_iff (w : State) (c : Nat) (cl : Client) (h : w.clients c = some cl) :
    w.isFull c = true ↔ cl.sendCap ≤ cl.Send.length := by
  unfold State.isFull
  rw [h]
  exact decide_eq_true_iff

/-- C22. For a room all of whose subscribers are clients of it with an open
channel, `Room.Broadcast(msg)` returns without panic. A subscriber whose queue
has room holds afterwards its old queue followed by `msg`, no `Close` is
started for it, and it stays in the room. A subscriber whose queue is full
keeps its queue as it was, `go c.Close()` is started for it, and once the
started goroutines have run it is closed and no longer in the room. -/
theorem room_broadcast_spec (w : State) (r : Nat) (room : Room) (msg : String)
    (hr : w.rooms r = some room) (hlive : LiveRoom w r) :
    ∃ w1 spawned w2, Room.Broadcast w r msg = .ok (w1, spawned) ∧
      closeEach spawned w1 = .ok w2 ∧
      (∀ c ∈ room.clients, ∀ cl, w.clients c = some cl → cl.Send.length < cl.sendCap →
        w1.clients c = some (cl.queued msg) ∧ c ∉ spawned ∧
        w2.clients c = some (cl.queued msg) ∧ c ∈ w2.subscribers r) ∧
      (∀ c ∈ room.clients, ∀ cl, w.clients c = some cl → cl.sendCap ≤ cl.Send.length →
        w1.clients c = some cl ∧ c ∈ spawned ∧
        w2.clients c = some cl.closed ∧ c ∉ w2.subscribers r) := by
  obtain ⟨w1, w2, e1, e2, a1, _, _, _, _, b1, b2, b3, _, _, _⟩ :=
    Broadcast_effect w r room msg hr hlive
  refine ⟨w1, _, w2, e1, e2, ?_, ?_⟩
  · intro c hc cl hcl hroom
    have hnf : ¬ w.isFull c = true := by
      rw [isFull_iff w c cl hcl]; omega
    have h1 : w1.clients c = some (cl.queued msg) := by
      rw [a1 c hc cl hcl, if_pos hroom]
    refine ⟨h1, fun h => hnf (List.mem_filter.mp h).2, ?_, ?_⟩
    · rw [b2 c (fun h => hnf h.2), h1]
    · rw [subscribers_of w2 r _ b3]
      exact List.mem_filter.mpr ⟨hc, by simpa using hnf⟩
  · intro c hc cl hcl hfull
    have hf : w.isFull c = true := (isFull_iff w c cl hcl).mpr hfull
    refine ⟨?_, List.mem_filter.mpr ⟨hc, hf⟩, b1 c hc hf cl hcl, ?_⟩
    · rw [a1 c hc cl hcl, if_neg (by omega)]
    · rw [subscribers_of w2 r _ b3]
      intro h
      have := (List.mem_filter.mp h).2
      simp [hf] at this

/-- C22 at `slowLobby`: `gm` gets the payload, `u` with its full queue is
closed and leaves the room `ps:1`. -/
theorem room_broadcast_spec_witness :
    ∃ w1 spawned w2, Room.Broadcast slowLobby 1 "hi" = .ok (w1, spawned) ∧
      closeEach spawned w1 = .ok w2 ∧
      (∀ c ∈ [2, 3], ∀ cl, slowLobby.clients c = some cl → cl.Send.length < cl.sendCap →
        w1.clients c = some (cl.queued "hi") ∧ c ∉ spawned ∧
        w2.clients c = some (cl.queued "hi") ∧ c ∈ w2.subscribers 1) ∧
      (∀ c ∈ [2, 3], ∀ cl, slowLobby.clients c = some cl → cl.sendCap ≤ cl.Send.length →
        w1.clients c = some cl ∧ c ∈ spawned ∧
        w2.clients c = some cl.closed ∧ c ∉ w2.subscribers 1) :=
  room_broadcast_spec slowLobby 1 { id := "ps:1", clients := [2, 3] } "hi" rfl
    LiveRoom_lobby.2.2

/-- C23. `Hub.Broadcast(k, msg)` returns the state as it is when no room is
registered for `k`. When the live room `r` is registered for `k`, the call and
the goroutines it starts leave the registry, every other room object, every
client that is no subscriber of `r` and so the subscribers of every other
live room as they are; the call itself changes no room object, creates no
object, and changes nothing but the queue of a subscriber of `r`. -/
theorem hub_broadcast_frame (w : State) (k msg : String) :
    (w.hub k = none → Hub.Broadcast w k msg = .ok (w, [])) ∧
    (∀ r, w.hub k = some r → LiveRoom w r →
      ∃ w1 spawned w2, Hub.Broadcast w k msg = .ok (w1, spawned) ∧
        closeEach spawned w1 = .ok w2 ∧
        w1.hub = w.hub ∧ w1.rooms = w.rooms ∧ w1.next = w.next ∧
        w2.hub = w.hub ∧ w2.next = w.next ∧
        (∀ q, q ≠ r → w2.rooms q = w.rooms q) ∧
        (∀ p, p ∉ w.subscribers r → w1.clients p = w.clients p ∧ w2.clients p = w.clients p) ∧
        (∀ q, q ≠ r → LiveRoom w q → ∀ c ∈ w.subscribers q,
          w1.clients c = w.clients c ∧ w2.clients c = w.clients c) ∧
        (∀ c ∈ w.subscribers r, ∀ cl, w.clients c = some cl →
          ∃ queue, w1.clients c = some { cl with Send := queue })) := by
  constructor
  · intro h
    unfold Hub.Broadcast
    rw [h]
  · intro r hk hlive
    obtain ⟨room, hr, hnd, hall⟩ := hlive
    obtain ⟨w1, w2, e1, e2, a1, a2, a3, a4, a5, _, b2, _, b4, b5, b6⟩ :=
      Broadcast_effect w r room msg hr ⟨room, hr, hnd, hall⟩
    have hsub : w.subscribers r = room.clients := subscribers_of w r room hr
    have hout : ∀ p, p ∉ room.clients →
        w1.clients p = w.clients p ∧ w2.clients p = w.clients p := by
      intro p hp
      exact ⟨a2 p hp, by rw [b2 p (fun h => hp h.1), a2 p hp]⟩
    refine ⟨w1, _, w2, ?_, e2, a4, a3, a5, b5, b6, b4, ?_, ?_, ?_⟩
    · unfold Hub.Broadcast
      rw [hk]
      exact e1
    · intro p hp
      rw [hsub] at hp
      exact hout p hp
    · intro q hq hliveq c hc
      obtain ⟨roomq, hrq, _, hallq⟩ := hliveq
      rw [subscribers_of w q roomq hrq] at hc
      obtain ⟨cl, hcl, hclr, _⟩ := hallq c hc
      apply hout
      intro hin
      obtain ⟨cl', hcl', hclr', _⟩ := hall c hin
      rw [hcl] at hcl'
      rw [← Option.some.inj hcl', hclr] at hclr'
      exact hq hclr'
    · intro c hc cl hcl
      rw [hsub] at hc
      rw [a1 c hc cl hcl]
      by_cases hroom : cl.Send.length < cl.sendCap
      · rw [if_pos hroom]; exact ⟨cl.Send ++ [msg], rfl⟩
      · rw [if_neg hroom]; exact ⟨cl.Send, rfl⟩

/-- C23 at `slowLobby`: nothing happens for the key `ps:3`, and a broadcast
to `ps:1` leaves the client `x` of the room `ps:2` as it is. -/
theorem hub_broadcast_frame_witness :
    Hub.Broadcast slowLobby "ps:3" "hi" = .ok (slowLobby, []) ∧
    ∃ w1 spawned w2, Hub.Broadcast slowLobby "ps:1" "hi" = .ok (w1, spawned) ∧
      closeEach spawned w1 = .ok w2 ∧ w2.hub = slowLobby.hub ∧
      w2.rooms 4 = slowLobby.rooms 4 ∧ w2.clients 5 = slowLobby.clients 5 := by
  refine ⟨(hub_broadcast_frame slowLobby "ps:3" "hi").1 rfl, ?_⟩
  obtain ⟨w1, spawned, w2, h1, h2, _, _, _, h3, _, h4, _, h5, _⟩ :=
    (hub_broadcast_frame slowLobby "ps:1" "hi").2 1 rfl LiveRoom_lobby.2.2
  exact ⟨w1, spawned, w2, h1, h2, h3, h4 4 (by decide),
    (h5 4 (by decide) ⟨{ id := "ps:2", clients := [5] }, rfl, by decide,
      fun c hc => by
        have : c = 5 := by simpa using hc
        rw [this]; exact ⟨_, rfl, rfl, rfl⟩⟩ 5 (by decide)).2⟩

/-- C24. `Hub.CloseRoom(k)` returns the state as it is when no room is
registered for `k`. When the live room `r` is registered for `k`, it returns
without panic; afterwards every subscriber of `r` is closed, `r` has no
subscriber, no room is registered for `k`, and the other keys of the
registry, the other room objects, and every client that was no subscriber of
`r` (so the subscribers of every other live room) are as before. -/
theorem close_room_spec (w : State) (k : String) :
    (w.hub k = none → Hub.CloseRoom w k = .ok w) ∧
    (∀ r, w.hub k = some r → LiveRoom w r →
      ∃ w1, Hub.CloseRoom w k = .ok w1 ∧
        (∀ c ∈ w.subscribers r, ∃ cl, w.clients c = some cl ∧ w1.clients c = some cl.closed) ∧
        w1.subscribers r = [] ∧ w1.hub k = none ∧
        (∀ k2, k2 ≠ k → w1.hub k2 = w.hub k2) ∧
        (∀ q, q ≠ r → w1.rooms q = w.rooms q) ∧
        (∀ p, p ∉ w.subscribers r → w1.clients p = w.clients p) ∧
        (∀ q, q ≠ r → LiveRoom w q → ∀ c ∈ w.subscribers q, w1.clients c = w.clients c)) := by
  constructor
  · intro h
    unfold Hub.CloseRoom
    rw [h]
  · intro r hk hlive
    obtain ⟨room, hr, hnd, hall⟩ := hlive
    obtain ⟨w1, e1, b1, b2, b3, b4, b5, _⟩ := closeEach_ok r room.clients w room hnd hr hall
    have hsub : w.subscribers r = room.clients := subscribers_of w r room hr
    refine ⟨{ w1 with hub := fun k2 => if k2 = k then none else w1.hub k2 }, ?_, ?_, ?_, ?_,
      ?_, b4, ?_, ?_⟩
    · unfold Hub.CloseRoom
      rw [hk]
      simp only []
      rw [hr]
      simp only []
      rw [e1]
    · intro c hc
      rw [hsub] at hc
      obtain ⟨cl, hcl, _, _⟩ := hall c hc
      exact ⟨cl, hcl, b1 c hc cl hcl⟩
    · show State.subscribers _ r = []
      unfold State.subscribers
      show (match w1.rooms r with
        | some room => room.clients
        | none => []) = []
      rw [b3]
      simp
    · show (if k = k then none else w1.hub k) = none
      rw [if_pos rfl]
    · intro k2 hk2
      show (if k2 = k then none else w1.hub k2) = _
      rw [if_neg hk2, b5]
    · intro p hp
      rw [hsub] at hp
      exact b2 p hp
    · intro q hq hliveq c hc
      obtain ⟨roomq, hrq, _, hallq⟩ := hliveq
      rw [subscribers_of w q roomq hrq] at hc
      obtain ⟨cl, hcl, hclr, _⟩ := hallq c hc
      apply b2
      intro hin
      obtain ⟨cl', hcl', hclr', _⟩ := hall c hin
      rw [hcl] at hcl'
      rw [← Option.some.inj hcl', hclr] at hclr'
      exact hq hclr'

/-- C24 at `lobby`: closing the room `ps:1` closes `gm` and `u` and leaves
the room `ps:2` with its client `x`; closing `ps:3` does nothing. -/
theorem close_room_spec_witness :
    Hub.CloseRoom lobby "ps:3" = .ok lobby ∧
    ∃ w1, Hub.CloseRoom lobby "ps:1" = .ok w1 ∧
      (∀ c ∈ [2, 3], ∃ cl, lobby.clients c = some cl ∧ w1.clients c = some cl.closed) ∧
      w1.subscribers 1 = [] ∧ w1.hub "ps:1" = none ∧ w1.hub "ps:2" = some 4 ∧
      w1.rooms 4 = lobby.rooms 4 ∧ w1.clients 5 = lobby.clients 5 := by
  refine ⟨(close_room_spec lobby "ps:3").1 rfl, ?_⟩
  obtain ⟨w1, h1, h2, h3, h4, h5, h6, h7, _⟩ :=
    (close_room_spec lobby "ps:1").2 1 rfl LiveRoom_lobby.1
  exact ⟨w1, h1, h2, h3, h4, (h5 "ps:2" (by decide)).trans rfl, h6 4 (by decide),
    h7 5 (by decide)⟩

/-- C26. In `lobby` the first `Close` of the client `gm` closes its socket and
its channel and takes it out of the room `ps:1`; a second `Close` panics with
`close of closed channel`. So does a `Close` of `u` (as deferred by each of
its pumps) after `CloseRoom("ps:1")` has closed it. -/
theorem second_close_panics :
    Client.Close lobby 2 = .ok gmClosed ∧
    gmClosed.clients 2 =
      some { connClosed := true, room := 1, uid := "gm", Send := [], sendCap := 64,
             sendClosed := true } ∧
    gmClosed.subscribers 1 = [3] ∧
    Client.Close gmClosed 2 = .error "close of closed channel" ∧
    Hub.CloseRoom lobby "ps:1" = .ok roomClosed ∧
    Client.Close roomClosed 3 = .error "close of closed channel" :=
  ⟨rfl, rfl, rfl, rfl, rfl, rfl⟩

/-! ## The rooms of the hub stay live -/

open ws

theorem LiveRoom_of_same (w w1 : State) (r : Nat) (h : LiveRoom w r)
    (hr : w1.rooms r = w.rooms r)
    (hc : ∀ c ∈ w.subscribers r, w1.clients c = w.clients c) : LiveRoom w1 r := by
  obtain ⟨room, h1, h2, h3⟩ := h
  rw [subscribers_of w r room h1] at hc
  refine ⟨room, hr.trans h1, h2, ?_⟩
  intro c hcin
  rw [hc c hcin]
  exact h3 c hcin

theorem HubInv_NewHub : HubInv NewHub :=
  ⟨fun _ _ h => Option.noConfusion h, fun _ _ h => Option.noConfusion h,
    fun _ _ h => Option.noConfusion h, fun _ _ h => Option.noConfusion h⟩

theorem EnsureRoom_inv (w : State) (k : String) (h : HubInv w) :
    HubInv (Hub.EnsureRoom w k).1 ∧
      ∃ room, (Hub.EnsureRoom w k).1.rooms (Hub.EnsureRoom w k).2 = some room := by
  obtain ⟨h1, h2, h3, h4⟩ := h
  unfold Hub.EnsureRoom
  cases hk : w.hub k with
  | some r => exact ⟨⟨h1, h2, h3, h4⟩, h4 k r hk⟩
  | none =>
    simp only []
    have hnew : (if w.next = w.next then some ({ id := k, clients := [] } : Room)
        else w.rooms w.next) = some { id := k, clients := [] } := if_pos rfl
    refine ⟨⟨?_, ?_, ?_, ?_⟩, ⟨_, hnew⟩⟩
    · intro c cl hc
      exact Nat.lt_succ_of_lt (h1 c cl hc)
    · intro r room hr
      change (if r = w.next then some _ else w.rooms r) = some room at hr
      by_cases e : r = w.next
      · rw [e]; exact Nat.lt_succ_self _
      · rw [if_neg e] at hr
        exact Nat.lt_succ_of_lt (h2 r room hr)
    · intro r room hr
      change (if r = w.next then some _ else w.rooms r) = some room at hr
      by_cases e : r = w.next
      · rw [e]
        exact ⟨{ id := k, clients := [] }, hnew, List.nodup_nil,
          fun c hc => absurd hc (List.not_mem_nil c)⟩
      · rw [if_neg e] at hr
        refine LiveRoom_of_same w _ r (h3 r room hr) ?_ (fun _ _ => rfl)
        show (if r = w.next then some _ else w.rooms r) = _
        rw [if_neg e]
    · intro k2 r hk2
      change (if k2 = k then some w.next else w.hub k2) = some r at hk2
      by_cases e : k2 = k
      · rw [if_pos e] at hk2
        rw [← Option.some.inj hk2]
        exact ⟨_, hnew⟩
      · rw [if_neg e] at hk2
        obtain ⟨room, hr⟩ := h4 k2 r hk2
        have hne : r ≠ w.next := Nat.ne_of_lt (h2 r room hr)
        refine ⟨room, ?_⟩
        show (if r = w.next then some _ else w.rooms r) = _
        rw [if_neg hne]
        exact hr

theorem NewClient_inv (w : State) (r : Nat) (u : String) (h : HubInv w) :
    HubInv (NewClient w r u).1 ∧
      (NewClient w r u).1.clients (NewClient w r u).2 =
        some { connClosed := false, room := r, uid := u, Send := [], sendCap := 64,
               sendClosed := false } ∧
      (NewClient w r u).1.rooms = w.rooms ∧ (NewClient w r u).1.hub = w.hub := by
  obtain ⟨h1, h2, h3, h4⟩ := h
  unfold NewClient
  simp only []
  refine ⟨⟨?_, ?_, ?_, h4⟩, ?_, rfl, rfl⟩
  · intro c cl hc
    change (if c = w.next then some _ else w.clients c) = some cl at hc
    by_cases e : c = w.next
    · rw [e]; exact Nat.lt_succ_self _
    · rw [if_neg e] at hc
      exact Nat.lt_succ_of_lt (h1 c cl hc)
  · intro q room hq
    exact Nat.lt_succ_of_lt (h2 q room hq)
  · intro q room hq
    change w.rooms q = some room at hq
    refine LiveRoom_of_same w _ q (h3 q room hq) rfl ?_
    intro c hc
    obtain ⟨room2, hr, _, hall⟩ := h3 q room hq
    rw [subscribers_of w q room2 hr] at hc
    obtain ⟨cl, hcl, _, _⟩ := hall c hc
    have hne : c ≠ w.next := Nat.ne_of_lt (h1 c cl hcl)
    show (if c = w.next then some _ else w.clients c) = _
    rw [if_neg hne]
  · exact if_pos rfl

theorem Add_inv (w : State) (r c : Nat) (cl : Client) (room : Room) (h : HubInv w)
    (hr : w.rooms r = some room) (hc : w.clients c = some cl) (hroom : cl.room = r)
    (ho : cl.sendClosed = false) :
    ∃ w1, Room.Add w r c = .ok w1 ∧ HubInv w1 := by
  obtain ⟨h1, h2, h3, h4⟩ := h
  obtain ⟨room', hr', hnd, hall⟩ := h3 r room hr
  rw [hr] at hr'
  cases Option.some.inj hr'
  have hnew : (w.setRoom r { room with
      clients := if c ∈ room.clients then room.clients else room.clients ++ [c] }).rooms r =
      some { room with
        clients := if c ∈ room.clients then room.clients else room.clients ++ [c] } :=
    if_pos rfl
  refine ⟨w.setRoom r { room with
    clients := if c ∈ room.clients then room.clients else room.clients ++ [c] }, ?_,
    h1, ?_, ?_, ?_⟩
  · unfold Room.Add
    rw [hr]
  · intro q room2 hq
    change (if q = r then some _ else w.rooms q) = some room2 at hq
    by_cases e : q = r
    · rw [e]; exact h2 r room hr
    · rw [if_neg e] at hq
      exact h2 q room2 hq
  · intro q room2 hq
    by_cases e : q = r
    · rw [e]
      refine ⟨_, hnew, ?_, ?_⟩
      · show (if c ∈ room.clients then room.clients else room.clients ++ [c]).Nodup
        by_cases hin : c ∈ room.clients
        · rw [if_pos hin]; exact hnd
        · rw [if_neg hin]
          exact List.Nodup.append hnd (List.nodup_singleton c)
            (by
              intro x hx hx2
              rw [List.mem_singleton] at hx2
              exact hin (hx2 ▸ hx))
      · intro d hd
        change d ∈ (if c ∈ room.clients then room.clients else room.clients ++ [c]) at hd
        by_cases hin : c ∈ room.clients
        · rw [if_pos hin] at hd
          exact hall d hd
        · rw [if_neg hin] at hd
          rcases List.mem_append.mp hd with hd1 | hd1
          · exact hall d hd1
          · rw [List.mem_singleton] at hd1
            rw [hd1]
            exact ⟨cl, hc, hroom, ho⟩
    · change (if q = r then some _ else w.rooms q) = some room2 at hq
      rw [if_neg e] at hq
      refine LiveRoom_of_same w _ q (h3 q room2 hq) ?_ (fun _ _ => rfl)
      show (if q = r then some _ else w.rooms q) = _
      rw [if_neg e]
  · intro k q hk
    change w.hub k = some q at hk
    by_cases e : q = r
    · rw [e]; exact ⟨_, hnew⟩
    · obtain ⟨room2, hq⟩ := h4 k q hk
      refine ⟨room2, ?_⟩
      show (if q = r then some _ else w.rooms q) = _
      rw [if_neg e]
      exact hq

/-- Accepting a socket never panics and keeps the rooms live. -/
theorem connect_inv (w : State) (k u : String) (h : HubInv w) :
    ∃ w1 c, connect w k u = .ok (w1, c) ∧ HubInv w1 := by
  obtain ⟨a1, room, a2⟩ := EnsureRoom_inv w k h
  obtain ⟨b1, b2, b3, _⟩ := NewClient_inv (Hub.EnsureRoom w k).1 (Hub.EnsureRoom w k).2 u a1
  obtain ⟨w1, c1, c2⟩ := Add_inv _ (Hub.EnsureRoom w k).2
    (NewClient (Hub.EnsureRoom w k).1 (Hub.EnsureRoom w k).2 u).2 _ room b1
    (by rw [b3]; exact a2) b2 rfl rfl
  refine ⟨w1, (NewClient (Hub.EnsureRoom w k).1 (Hub.EnsureRoom w k).2 u).2, ?_, c2⟩
  unfold connect
  simp only []
  rw [c1]

/-- A `Close` that does not panic keeps the rooms live. -/
theorem Close_inv (w w1 : State) (c : Nat) (h : HubInv w) (hclose : Client.Close w c = .ok w1) :
    HubInv w1 := by
  obtain ⟨h1, h2, h3, h4⟩ := h
  cases hc : w.clients c with
  | none =>
    unfold Client.Close at hclose
    rw [hc] at hclose
    cases hclose
  | some cl =>
    cases hr : w.rooms cl.room with
    | none =>
      unfold Client.Close at hclose
      rw [hc] at hclose
      simp only [] at hclose
      unfold Room.Remove at hclose
      have : (w.setClient c { cl with connClosed := true }).rooms cl.room = none := hr
      rw [this] at hclose
      cases hclose
    | some room =>
      by_cases ho : cl.sendClosed = true
      · unfold Client.Close at hclose
        rw [hc] at hclose
        simp only [] at hclose
        unfold Room.Remove at hclose
        have : (w.setClient c { cl with connClosed := true }).rooms cl.room = some room := hr
        rw [this] at hclose
        simp only [] at hclose
        rw [if_pos ho] at hclose
        cases hclose
      · have ho' : cl.sendClosed = false := by
          cases hb : cl.sendClosed with
          | true => exact absurd hb ho
          | false => rfl
        obtain ⟨w2, e, k1, k2, k3, k4, k5, k6⟩ := Close_ok w c cl room hc hr ho'
        rw [e] at hclose
        cases Except.ok.inj hclose
        refine ⟨?_, ?_, ?_, ?_⟩
        · intro p pl hp
          rw [k6]
          by_cases e1 : p = c
          · rw [e1]; exact h1 c cl hc
          · rw [k2 p e1] at hp
            exact h1 p pl hp
        · intro q room2 hq
          rw [k6]
          by_cases e1 : q = cl.room
          · rw [e1]; exact h2 cl.room room hr
          · rw [k4 q e1] at hq
            exact h2 q room2 hq
        · intro q room2 hq
          by_cases e1 : q = cl.room
          · obtain ⟨roomq, hrq, hnd, hall⟩ := h3 cl.room room hr
            rw [hr] at hrq
            cases Option.some.inj hrq
            rw [e1]
            refine ⟨_, k3, hnd.filter _, ?_⟩
            intro d hd
            obtain ⟨hd1, hd2⟩ := List.mem_filter.mp hd
            have hne : d ≠ c := by simpa using hd2
            rw [k2 d hne]
            exact hall d hd1
          · rw [k4 q e1] at hq
            obtain ⟨roomq, hrq, hnd, hall⟩ := h3 q room2 hq
            refine ⟨roomq, (k4 q e1).trans hrq, hnd, ?_⟩
            intro d hd
            obtain ⟨dl, hdl, hdr, hdo⟩ := hall d hd
            have hne : d ≠ c := by
              intro e2
              rw [e2, hc] at hdl
              rw [← Option.some.inj hdl] at hdr
              exact e1 hdr.symm
            rw [k2 d hne]
            exact ⟨dl, hdl, hdr, hdo⟩
        · intro k q hk
          rw [k5] at hk
          by_cases e1 : q = cl.room
          · rw [e1]; exact ⟨_, k3⟩
          · obtain ⟨room2, hq⟩ := h4 k q hk
            exact ⟨room2, (k4 q e1).trans hq⟩

theorem closeEach_inv : ∀ (l : List Nat) (w w1 : State), HubInv w → closeEach l w = .ok w1 →
    HubInv w1 := by
  intro l
  induction l with
  | nil =>
    intro w w1 h e
    cases Except.ok.inj e
    exact h
  | cons c rest ih =>
    intro w w1 h e
    rw [closeEach] at e
    cases hc : Client.Close w c with
    | error x => rw [hc] at e; cases e
    | ok w2 =>
      rw [hc] at e
      exact ih w2 w1 (Close_inv w w2 c h hc) e

theorem broadcastLoop_inv (msg : String) : ∀ (l : List Nat) (w w1 : State) (sp sp1 : List Nat),
    HubInv w → Room.broadcastLoop msg l w sp = .ok (w1, sp1) → HubInv w1 := by
  intro l
  induction l with
  | nil =>
    intro w w1 sp sp1 h e
    rw [Room.broadcastLoop] at e
    cases (Prod.mk.inj (Except.ok.inj e)).1
    exact h
  | cons c rest ih =>
    intro w w1 sp sp1 h e
    rw [Room.broadcastLoop] at e
    cases hc : w.clients c with
    | none => rw [hc] at e; cases e
    | some cl =>
      rw [hc] at e
      simp only [] at e
      by_cases ho : cl.sendClosed = true
      · rw [if_pos ho] at e; cases e
      · rw [if_neg ho] at e
        by_cases hroom : cl.Send.length < cl.sendCap
        · rw [if_pos hroom] at e
          refine ih _ w1 sp sp1 ?_ e
          obtain ⟨h1, h2, h3, h4⟩ := h
          refine ⟨?_, h2, ?_, h4⟩
          · intro p pl hp
            change (if p = c then some _ else w.clients p) = some pl at hp
            by_cases e1 : p = c
            · rw [e1]; exact h1 c cl hc
            · rw [if_neg e1] at hp
              exact h1 p pl hp
          · intro q room2 hq
            obtain ⟨roomq, hrq, hnd, hall⟩ := h3 q room2 hq
            refine ⟨roomq, hrq, hnd, ?_⟩
            intro d hd
            obtain ⟨dl, hdl, hdr, hdo⟩ := hall d hd
            show ∃ x, (if d = c then some _ else w.clients d) = some x ∧ _
            by_cases e1 : d = c
            · rw [if_pos e1]
              rw [e1, hc] at hdl
              cases Option.some.inj hdl
              exact ⟨_, rfl, hdr, hdo⟩
            · rw [if_neg e1]
              exact ⟨dl, hdl, hdr, hdo⟩
        · rw [if_neg hroom] at e
          exact ih w w1 _ sp1 h e

/-- Every call on the hub that does not panic keeps the rooms live. -/
theorem hubStep_inv (w w1 : State) (op : HubOp) (h : HubInv w) (e : hubStep w op = .ok w1) :
    HubInv w1 := by
  cases op with
  | connect k u =>
    obtain ⟨w2, c, e2, h2⟩ := connect_inv w k u h
    rw [hubStep, e2] at e
    cases Except.ok.inj e
    exact h2
  | broadcast k msg =>
    rw [hubStep] at e
    cases hb : Hub.Broadcast w k msg with
    | error x => rw [hb] at e; cases e
    | ok p =>
      obtain ⟨w2, sp⟩ := p
      rw [hb] at e
      simp only [] at e
      refine closeEach_inv sp w2 w1 ?_ e
      unfold Hub.Broadcast at hb
      cases hk : w.hub k with
      | none =>
        rw [hk] at hb
        cases (Prod.mk.inj (Except.ok.inj hb)).1
        exact h
      | some r =>
        rw [hk] at hb
        simp only [] at hb
        unfold Room.Broadcast at hb
        cases hr : w.rooms r with
        | none => rw [hr] at hb; cases hb
        | some room =>
          rw [hr] at hb
          exact broadcastLoop_inv msg room.clients w w2 [] sp h hb
  | closeRoom k =>
    rw [hubStep] at e
    unfold Hub.CloseRoom at e
    cases hk : w.hub k with
    | none =>
      rw [hk] at e
      cases Except.ok.inj e
      exact h
    | some r =>
      rw [hk] at e
      simp only [] at e
      cases hr : w.rooms r with
      | none => rw [hr] at e; cases e
      | some room =>
        rw [hr] at e
        simp only [] at e
        cases hc : closeEach room.clients w with
        | error x => rw [hc] at e; cases e
        | ok w2 =>
          rw [hc] at e
          cases Except.ok.inj e
          obtain ⟨h1, h2, h3, h4⟩ := closeEach_inv room.clients w w2 h hc
          refine ⟨h1, h2, ?_, ?_⟩
          · intro q room2 hq
            exact LiveRoom_of_same w2 _ q (h3 q room2 hq) rfl (fun _ _ => rfl)
          · intro k2 q hk2
            change (if k2 = k then none else w2.hub k2) = some q at hk2
            by_cases e1 : k2 = k
            · rw [if_pos e1] at hk2; cases hk2
            · rw [if_neg e1] at hk2
              exact h4 k2 q hk2
  | close c => exact Close_inv w w1 c h e

/-- In every state reached by calls on the hub without a panic, from a state
with the invariant (such as `NewHub`), the invariant holds: every room object
is live and every registered key names a room object. -/
theorem HubInv_run : ∀ (ops : List HubOp) (w w1 : State), HubInv w →
    hubRun w ops = .ok w1 → HubInv w1 := by
  intro ops
  induction ops with
  | nil =>
    intro w w1 h e
    cases Except.ok.inj e
    exact h
  | cons op rest ih =>
    intro w w1 h e
    rw [hubRun] at e
    cases hs : hubStep w op with
    | error x => rw [hs] at e; cases e
    | ok w2 =>
      rw [hs] at e
      exact ih w2 w1 (hubStep_inv w w2 op h hs) e

/-! ## Stores built by the service and the helper methods -/

/-- A call that moves neither the messages nor the counters keeps `MsgInv`. -/
theorem MsgInv_of_tables (s s1 : memStore) (h : MsgInv s) (hm : s1.msgs = s.msgs)
    (hq : s1.seq = s.seq) : MsgInv s1 := by
  intro S
  have h1 : s1.msgsOf S = s.msgsOf S := by unfold memStore.msgsOf; rw [hm]
  have h2 : s1.seqOf S = s.seqOf S := by unfold memStore.seqOf; rw [hq]
  rw [h1, h2]
  exact h S

theorem MsgInv_newMem : MsgInv newMem := by
  intro S
  exact ⟨List.Pairwise.nil, fun r hr => absurd hr (List.not_mem_nil r)⟩

/-- Every call but `SendMessage` leaves the messages and the counters alone. -/
theorem step_msgs (s : memStore) (op : Op)
    (hop : ∀ id now u t, op ≠ .sendMessage id now u t) :
    (step s op).msgs = s.msgs ∧ (step s op).seq = s.seq := by
  cases op with
  | create id now o dto =>
    show (Service.Create s id now o dto).1.msgs = _ ∧ (Service.Create s id now o dto).1.seq = _
    rcases Create_effect s id now o dto with ⟨e, he⟩ | ⟨_, ⟨_, e, he⟩ | ⟨_, he⟩⟩ <;>
      rw [he] <;> exact ⟨rfl, rfl⟩
  | join S U =>
    show (Service.Join s S U).1.msgs = _ ∧ (Service.Join s S U).1.seq = _
    rcases Join_effect s S U with ⟨e, he⟩ | ⟨ps, _, _, _, _, _, he⟩
    · rw [he]; exact ⟨rfl, rfl⟩
    · rw [he]
      have hf := setActive_fields ({ s with members := s.members ++
            [({ SessionID := S, UserID := U, Role := Player, Muted := false } :
               PlaySessionMemberDB)] }) U S
      exact ⟨hf.2.2.2.2.2, hf.2.2.2.2.1⟩
  | leave u =>
    show (Service.Leave s u).1.msgs = _ ∧ (Service.Leave s u).1.seq = _
    rcases Leave_effect s u with ⟨e, he⟩ | ⟨q, _, _, _, _, _, he⟩ <;>
      rw [he] <;> exact ⟨rfl, rfl⟩
  | sendMessage id now u t => exact absurd rfl (hop id now u t)
  | mute g t =>
    show (Service.setMuted s g t true).1.msgs = _ ∧ (Service.setMuted s g t true).1.seq = _
    rcases setMuted_effect s g t true with ⟨e, he⟩ | ⟨q, m, _, _, _, _, _, he⟩ <;>
      rw [he] <;> exact ⟨rfl, rfl⟩
  | unmute g t =>
    show (Service.setMuted s g t false).1.msgs = _ ∧ (Service.setMuted s g t false).1.seq = _
    rcases setMuted_effect s g t false with ⟨e, he⟩ | ⟨q, m, _, _, _, _, _, he⟩ <;>
      rw [he] <;> exact ⟨rfl, rfl⟩
  | remove g t =>
    show (Service.Remove s g t).1.msgs = _ ∧ (Service.Remove s g t).1.seq = _
    rcases Remove_effect s g t with ⟨e, he⟩ | ⟨q, _, _, _, _, _, he⟩
    · rw [he]; exact ⟨rfl, rfl⟩
    · rw [he]
      have hf := removed_fields s (s.GetUserActiveSessionID g) t
      exact ⟨hf.2.2.2.2, hf.2.2.2.1⟩
  | endSession g =>
    show (Service.End s g).1.msgs = _ ∧ (Service.End s g).1.seq = _
    rcases End_effect s g with ⟨e, he⟩ | ⟨q, _, _, _, _, he⟩ <;>
      rw [he] <;> exact ⟨rfl, rfl⟩

theorem MsgInv_step (s : memStore) (op : Op) (h : MsgInv s) : MsgInv (step s op) := by
  by_cases hop : ∃ id now u t, op = .sendMessage id now u t
  · obtain ⟨id, now, u, t, rfl⟩ := hop
    intro S
    show ((Service.SendMessage s id now u t).1.msgsOf S).Pairwise _ ∧
      ∀ r ∈ (Service.SendMessage s id now u t).1.msgsOf S,
        r.SeqID ≤ (Service.SendMessage s id now u t).1.seqOf S
    rcases SendMessage_seq s id now u t S with ⟨e, he⟩ | ⟨s1, sid, row, he, hrow, hseq, hmsgs⟩
    · rw [he]; exact h S
    · rw [he]
      show (s1.msgsOf S).Pairwise _ ∧ ∀ r ∈ s1.msgsOf S, r.SeqID ≤ s1.seqOf S
      rw [hseq, hmsgs]
      obtain ⟨h1, h2⟩ := h S
      by_cases hk : sid = S
      · rw [if_pos hk, if_pos hk.symm]
        constructor
        · rw [List.pairwise_append]
          refine ⟨h1, List.pairwise_singleton _ _, ?_⟩
          intro a ha b hb
          rw [List.mem_singleton] at hb
          rw [hb, hrow, hk]
          have := h2 a ha
          omega
        · intro r hr
          rcases List.mem_append.mp hr with hr1 | hr1
          · have := h2 r hr1
            omega
          · rw [List.mem_singleton] at hr1
            rw [hr1, hrow, hk]
      · rw [if_neg hk, if_neg (fun e => hk e.symm)]
        exact ⟨h1, h2⟩
  · have hop2 : ∀ id now u t, op ≠ .sendMessage id now u t :=
      fun id now u t e => hop ⟨id, now, u, t, e⟩
    obtain ⟨h1, h2⟩ := step_msgs s op hop2
    exact MsgInv_of_tables s _ h h1 h2

theorem addUser_fields (m : memStore) (id : String) :
    (m.addUser id).sessions = m.sessions ∧ (m.addUser id).members = m.members ∧
    (m.addUser id).msgs = m.msgs ∧ (m.addUser id).seq = m.seq :=
  ⟨rfl, rfl, rfl, rfl⟩

theorem MsgInv_storeStep (s : memStore) (op : StoreOp) (h : MsgInv s) :
    MsgInv (storeStep s op) := by
  cases op with
  | call op => exact MsgInv_step s op h
  | addUser id => exact MsgInv_of_tables s _ h rfl rfl
  | setActive u sid =>
    have hf := setActive_fields s u sid
    exact MsgInv_of_tables s _ h hf.2.2.2.2.2 hf.2.2.2.2.1
  | ban sid u =>
    have hf := ban_fields s sid u
    exact MsgInv_of_tables s _ h hf.2.2.2.2.2 hf.2.2.2.2.1

theorem MsgInv_storeRun (ops : List StoreOp) : ∀ s, MsgInv s → MsgInv (storeRun s ops) := by
  induction ops with
  | nil => intro s h; exact h
  | cons op rest ih =>
    intro s h
    show MsgInv (storeRun (storeStep s op) rest)
    exact ih _ (MsgInv_storeStep s op h)

/-- In every store built from the empty one by calls of the service and of the
helper methods of the store, the messages of every session are held in
ascending `seq`. -/
theorem msgs_ascending (ops : List StoreOp) (S : String) :
    ((storeRun newMem ops).msgsOf S).Pairwise (fun a b => a.SeqID < b.SeqID) :=
  (MsgInv_storeRun ops newMem MsgInv_newMem S).1


theorem withStatus_fields (sid status : String) (x : PlaySessionDB) :
    (withStatus sid status x).Visibility = x.Visibility ∧
    (withStatus sid status x).OwnerID = x.OwnerID := by
  unfold withStatus
  split <;> exact ⟨rfl, rfl⟩

/-- A call of the service adds a member row only under a session that the
store holds, and drops no session. -/
theorem NoOrphan_step (s : memStore) (op : Op) (h : NoOrphan s) : NoOrphan (step s op) := by
  cases op with
  | create id now o dto =>
    show NoOrphan (Service.Create s id now o dto).1
    rcases Create_effect s id now o dto with ⟨e, he⟩ | ⟨hnone, ⟨_, e, he⟩ | ⟨_, he⟩⟩
    · rw [he]; exact h
    · rw [he]
      intro sid hsid u
      change sessionIn (s.sessions ++ [_]) sid = none at hsid
      rw [sessionIn_append_one] at hsid
      cases hs : sessionIn s.sessions sid with
      | some q => rw [hs] at hsid; cases hsid
      | none => exact h sid hs u
    · rw [he]
      intro sid hsid u
      change sessionIn (s.sessions ++ [_]) sid = none at hsid
      rw [sessionIn_append_one] at hsid
      cases hs : sessionIn s.sessions sid with
      | some q => rw [hs] at hsid; cases hsid
      | none =>
        rw [hs] at hsid
        have hne : ¬ id = sid := by
          intro e
          have hid : (Service.createdRecord id now o dto).ID = sid := e
          simp only [] at hsid
          rw [if_pos hid] at hsid
          cases hsid
        show isMemberIn (s.members ++ [_]) sid u = false
        rw [isMemberIn_append_one, h sid hs u]
        simp [hne]
  | join S U =>
    show NoOrphan (Service.Join s S U).1
    rcases Join_effect s S U with ⟨e, he⟩ | ⟨ps, hps, _, _, _, _, he⟩
    · rw [he]; exact h
    · rw [he]
      have hf := setActive_fields ({ s with members := s.members ++
            [({ SessionID := S, UserID := U, Role := Player, Muted := false } :
               PlaySessionMemberDB)] }) U S
      intro sid hsid u
      rw [hf.2.1] at hsid
      rw [hf.2.2.1]
      change sessionIn s.sessions sid = none at hsid
      have hne : ¬ S = sid := by
        intro e; rw [e, hsid] at hps; cases hps
      show isMemberIn (s.members ++ [_]) sid u = false
      rw [isMemberIn_append_one, h sid hsid u]
      simp [hne]
  | leave u =>
    show NoOrphan (Service.Leave s u).1
    rcases Leave_effect s u with ⟨e, he⟩ | ⟨q, _, _, _, _, _, he⟩
    · rw [he]; exact h
    · rw [he]
      intro sid hsid v
      show isMemberIn (s.members.filter _) sid v = false
      rw [isMemberIn_delete, h sid hsid v]
      rfl
  | sendMessage id now u t =>
    show NoOrphan (Service.SendMessage s id now u t).1
    rcases SendMessage_effect s id now u t with ⟨e, he⟩ | ⟨q, _, _, _, _, _, he⟩
    · rw [he]; exact h
    · rw [he]; exact h
  | mute g t =>
    show NoOrphan (Service.setMuted s g t true).1
    rcases setMuted_effect s g t true with ⟨e, he⟩ | ⟨q, m, _, _, _, _, _, he⟩
    · rw [he]; exact h
    · rw [he]
      intro sid hsid v
      show isMemberIn (s.members.map _) sid v = false
      rw [isMemberIn_map_withMuted]
      exact h sid hsid v
  | unmute g t =>
    show NoOrphan (Service.setMuted s g t false).1
    rcases setMuted_effect s g t false with ⟨e, he⟩ | ⟨q, m, _, _, _, _, _, he⟩
    · rw [he]; exact h
    · rw [he]
      intro sid hsid v
      show isMemberIn (s.members.map _) sid v = false
      rw [isMemberIn_map_withMuted]
      exact h sid hsid v
  | remove g t =>
    show NoOrphan (Service.Remove s g t).1
    rcases Remove_effect s g t with ⟨e, he⟩ | ⟨q, _, _, _, _, _, he⟩
    · rw [he]; exact h
    · rw [he]
      have hf := removed_fields s (s.GetUserActiveSessionID g) t
      intro sid hsid v
      rw [hf.1] at hsid
      rw [hf.2.1, isMemberIn_delete, h sid hsid v]
      rfl
  | endSession g =>
    show NoOrphan (Service.End s g).1
    rcases End_effect s g with ⟨e, he⟩ | ⟨q, _, _, _, _, he⟩
    · rw [he]; exact h
    · rw [he]
      intro sid hsid v
      change sessionIn (s.sessions.map _) sid = none at hsid
      rw [sessionIn_map_withStatus] at hsid
      cases hs : sessionIn s.sessions sid with
      | some q2 => rw [hs] at hsid; cases hsid
      | none => exact h sid hs v

theorem NoOrphan_storeRun (ops : List StoreOp) : ∀ s, NoOrphan s → NoOrphan (storeRun s ops) := by
  induction ops with
  | nil => intro s h; exact h
  | cons op rest ih =>
    intro s h
    show NoOrphan (storeRun (storeStep s op) rest)
    refine ih _ ?_
    cases op with
    | call op => exact NoOrphan_step s op h
    | addUser id => exact h
    | setActive u sid =>
      have hf := setActive_fields s u sid
      intro sid2 hsid v
      change sessionIn (s.setActive u sid).sessions sid2 = none at hsid
      show isMemberIn (s.setActive u sid).members sid2 v = false
      rw [hf.2.1] at hsid
      rw [hf.2.2.1]
      exact h sid2 hsid v
    | ban sid u =>
      have hf := ban_fields s sid u
      intro sid2 hsid v
      change sessionIn (s.ban sid u).sessions sid2 = none at hsid
      show isMemberIn (s.ban sid u).members sid2 v = false
      rw [hf.2.1] at hsid
      rw [hf.2.2.1]
      exact h sid2 hsid v

/-- In every store built from the empty one by calls of the service and of the
helper methods, an id under which no session is held has no member row: the
id that `Create` draws is fresh. -/
theorem fresh_id_has_no_member (ops : List StoreOp) (id : String)
    (h : ∀ ps, (storeRun newMem ops).GetPlaySessionByID id ≠ .ok ps) (u : String) :
    (storeRun newMem ops).IsPlaySessionMember id u = false := by
  have hinv : NoOrphan (storeRun newMem ops) :=
    NoOrphan_storeRun ops newMem (fun _ _ _ => rfl)
  rw [IsPlaySessionMember_view]
  apply hinv
  cases hs : sessionIn (storeRun newMem ops).sessions id with
  | none => rfl
  | some ps => exact absurd ((GetPlaySessionByID_ok_iff _ _ _).mpr hs) (h ps)


/-! ## Private sessions -/

/-- What `Join` returns at a Private session whose only member is its owner. -/
theorem Join_private (s : memStore) (S o u : String) (ps : PlaySessionDB)
    (hps : sessionIn s.sessions S = some ps) (hvis : ps.Visibility = VisibilityPrivate)
    (hown : ps.OwnerID = o) (hmem : ∀ v, isMemberIn s.members S v = true ↔ v = o) :
    Service.Join s S u =
      (s, .error (if ps.Status ≠ Active then ErrSessionArchived
        else if u = o then ErrAlreadyMember else ErrForbiddenJoin)) := by
  unfold Service.Join
  rw [(GetPlaySessionByID_ok_iff _ _ _).mpr hps]
  simp only []
  by_cases hact : ps.Status ≠ Active
  · rw [if_pos hact, if_pos hact]
  · rw [if_neg hact, if_neg hact]
    by_cases hu : u = o
    · have hm : s.IsPlaySessionMember S u = true := by
        rw [IsPlaySessionMember_view]; exact (hmem u).mpr hu
      rw [if_neg (fun h => h.2 (hown.trans hu.symm)), if_pos hm, if_pos hu]
    · rw [if_pos ⟨hvis, fun h => hu (h.symm.trans hown)⟩, if_neg hu]

/-- No call of the service changes the members of a Private session whose only
member is its owner, nor its visibility or owner. -/
theorem PrivInv_step (S o : String) (s : memStore) (op : Op) (h : PrivInv S o s) :
    PrivInv S o (step s op) := by
  obtain ⟨ps, hps, hvis, hown, hmem⟩ := h
  cases op with
  | create id now o2 dto =>
    show PrivInv S o (Service.Create s id now o2 dto).1
    have hne : ∀ (hnone : sessionIn s.sessions id = none), ¬ id = S := by
      intro hnone e; rw [e, hps] at hnone; cases hnone
    have hsess : sessionIn (s.sessions ++ [Service.createdRecord id now o2 dto]) S =
        some ps := by
      rw [sessionIn_append_one, hps]
    rcases Create_effect s id now o2 dto with ⟨e, he⟩ | ⟨hnone, ⟨_, e, he⟩ | ⟨_, he⟩⟩
    · rw [he]; exact ⟨ps, hps, hvis, hown, hmem⟩
    · rw [he]; exact ⟨ps, hsess, hvis, hown, hmem⟩
    · rw [he]
      refine ⟨ps, hsess, hvis, hown, ?_⟩
      intro v
      show isMemberIn (s.members ++ [_]) S v = true ↔ _
      rw [isMemberIn_append_one]
      have : ¬ (id = S ∧ o2 = v) := fun e => hne hnone e.1
      simp only [this, decide_False, Bool.or_false]
      exact hmem v
  | join S2 U =>
    show PrivInv S o (Service.Join s S2 U).1
    rcases Join_effect s S2 U with ⟨e, he⟩ | ⟨ps2, hps2, _, hnm, _, _, he⟩
    · rw [he]; exact ⟨ps, hps, hvis, hown, hmem⟩
    · have hne : ¬ S2 = S := by
        intro e
        have hj := Join_private s S o U ps hps hvis hown hmem
        rw [e] at he
        rw [he] at hj
        cases (Prod.mk.inj hj).2
      rw [he]
      have hf := setActive_fields ({ s with members := s.members ++
            [({ SessionID := S2, UserID := U, Role := Player, Muted := false } :
               PlaySessionMemberDB)] }) U S2
      refine ⟨ps, ?_, hvis, hown, ?_⟩
      · rw [hf.2.1]; exact hps
      · intro v
        rw [hf.2.2.1]
        show isMemberIn (s.members ++ [_]) S v = true ↔ _
        rw [isMemberIn_append_one]
        have : ¬ (S2 = S ∧ U = v) := fun e => hne e.1
        simp only [this, decide_False, Bool.or_false]
        exact hmem v
  | leave u =>
    show PrivInv S o (Service.Leave s u).1
    rcases Leave_effect s u with ⟨e, he⟩ | ⟨q, _, hq, _, hm, hno, he⟩
    · rw [he]; exact ⟨ps, hps, hvis, hown, hmem⟩
    · rw [he]
      refine ⟨ps, hps, hvis, hown, ?_⟩
      intro v
      show isMemberIn (s.members.filter _) S v = true ↔ _
      rw [isMemberIn_delete]
      have hne : ¬ (S = s.GetUserActiveSessionID u ∧ v = u) := by
        rintro ⟨e1, _⟩
        rw [← e1] at hq hm
        rw [hps] at hq
        have hu : u = o := (hmem u).mp hm
        exact hno ((Option.some.inj hq) ▸ (hown.trans hu.symm))
      simp only [hne, decide_False, Bool.not_false, Bool.and_true]
      exact hmem v
  | sendMessage id now u t =>
    show PrivInv S o (Service.SendMessage s id now u t).1
    rcases SendMessage_effect s id now u t with ⟨e, he⟩ | ⟨q, _, _, _, _, _, he⟩
    · rw [he]; exact ⟨ps, hps, hvis, hown, hmem⟩
    · rw [he]; exact ⟨ps, hps, hvis, hown, hmem⟩
  | mute g t =>
    show PrivInv S o (Service.setMuted s g t true).1
    rcases setMuted_effect s g t true with ⟨e, he⟩ | ⟨q, m, _, _, _, _, _, he⟩
    · rw [he]; exact ⟨ps, hps, hvis, hown, hmem⟩
    · rw [he]
      refine ⟨ps, hps, hvis, hown, ?_⟩
      intro v
      show isMemberIn (s.members.map _) S v = true ↔ _
      rw [isMemberIn_map_withMuted]
      exact hmem v
  | unmute g t =>
    show PrivInv S o (Service.setMuted s g t false).1
    rcases setMuted_effect s g t false with ⟨e, he⟩ | ⟨q, m, _, _, _, _, _, he⟩
    · rw [he]; exact ⟨ps, hps, hvis, hown, hmem⟩
    · rw [he]
      refine ⟨ps, hps, hvis, hown, ?_⟩
      intro v
      show isMemberIn (s.members.map _) S v = true ↔ _
      rw [isMemberIn_map_withMuted]
      exact hmem v
  | remove g t =>
    show PrivInv S o (Service.Remove s g t).1
    rcases Remove_effect s g t with ⟨e, he⟩ | ⟨q, _, hq, _, hto, hm, he⟩
    · rw [he]; exact ⟨ps, hps, hvis, hown, hmem⟩
    · rw [he]
      have hf := removed_fields s (s.GetUserActiveSessionID g) t
      refine ⟨ps, ?_, hvis, hown, ?_⟩
      · rw [hf.1]; exact hps
      · intro v
        rw [hf.2.1, isMemberIn_delete]
        have hne : ¬ (S = s.GetUserActiveSessionID g ∧ v = t) := by
          rintro ⟨e1, _⟩
          rw [← e1] at hq hm
          rw [hps] at hq
          have ht : t = o := (hmem t).mp hm
          exact hto ((Option.some.inj hq) ▸ (ht.trans hown.symm))
        simp only [hne, decide_False, Bool.not_false, Bool.and_true]
        exact hmem v
  | endSession g =>
    show PrivInv S o (Service.End s g).1
    rcases End_effect s g with ⟨e, he⟩ | ⟨q, _, _, _, _, he⟩
    · rw [he]; exact ⟨ps, hps, hvis, hown, hmem⟩
    · rw [he]
      refine ⟨withStatus (s.GetUserActiveSessionID g) Archived ps, ?_, ?_, ?_, hmem⟩
      · show sessionIn (s.sessions.map _) S = _
        rw [sessionIn_map_withStatus, hps]; rfl
      · rw [(withStatus_fields _ _ ps).1]; exact hvis
      · rw [(withStatus_fields _ _ ps).2]; exact hown

theorem PrivInv_storeRun (S o : String) (ops : List StoreOp) :
    ∀ s, PrivInv S o s → PrivInv S o (storeRun s ops) := by
  induction ops with
  | nil => intro s h; exact h
  | cons op rest ih =>
    intro s h
    show PrivInv S o (storeRun (storeStep s op) rest)
    refine ih _ ?_
    cases op with
    | call op => exact PrivInv_step S o s op h
    | addUser id => exact h
    | setActive u sid =>
      have hf := setActive_fields s u sid
      show PrivInv S o (s.setActive u sid)
      unfold PrivInv
      rw [hf.2.1, hf.2.2.1]
      exact h
    | ban sid u =>
      have hf := ban_fields s sid u
      show PrivInv S o (s.ban sid u)
      unfold PrivInv
      rw [hf.2.1, hf.2.2.1]
      exact h

/-- A session that is Active or Archived stays in the store and stays Active
or Archived under every call of the service and of the helper methods. -/
theorem status_storeRun (sid : String) (ops : List StoreOp) :
    ∀ (s : memStore) (ps : PlaySessionDB), sessionIn s.sessions sid = some ps →
      (ps.Status = Active ∨ ps.Status = Archived) →
      ∃ ps1, sessionIn (storeRun s ops).sessions sid = some ps1 ∧
        (ps1.Status = Active ∨ ps1.Status = Archived) := by
  induction ops with
  | nil => intro s ps h1 h2; exact ⟨ps, h1, h2⟩
  | cons op rest ih =>
    intro s ps h1 h2
    show ∃ ps1, sessionIn (storeRun (storeStep s op) rest).sessions sid = some ps1 ∧ _
    cases op with
    | call op =>
      obtain ⟨ps2, h3, h4⟩ := step_status s op sid ps h1
      refine ih _ ps2 h3 ?_
      rcases h4 with h4 | ⟨_, _, h4⟩
      · rw [h4]; exact h2
      · exact Or.inr h4
    | addUser id => exact ih _ ps h1 h2
    | setActive u sid2 =>
      refine ih _ ps ?_ h2
      show sessionIn (s.setActive u sid2).sessions sid = some ps
      rw [(setActive_fields s u sid2).2.1]; exact h1
    | ban sid2 u =>
      refine ih _ ps ?_ h2
      show sessionIn (s.ban sid2 u).sessions sid = some ps
      rw [(ban_fields s sid2 u).2.1]; exact h1

/-- C30. Let `Create` by `o` of a Private session succeed and return `S`, the
id drawn being fresh (no member row of the store names it). Then, after every
sequence of calls of the service and of the helper methods of the store, `S`
is still a Private session of `o`, Active or Archived, its members are exactly
`o`, and `Join(S, u)` fails for every user with the store unchanged: with
`SessionArchived` once `S` has been ended, and while `S` is Active with
`AlreadyMember` for the owner and `ForbiddenJoin` for anybody else. -/
theorem private_session_members (s s1 : memStore) (id : String) (now : Int) (o : String)
    (dto : CreatePlaySessionDTO) (S : String)
    (hvis : dto.Visibility = VisibilityPrivate)
    (hfresh : ∀ v, s.IsPlaySessionMember id v = false)
    (hc : Service.Create s id now o dto = (s1, .ok S))
    (ops : List StoreOp) (u : String) :
    ∃ ps, (storeRun s1 ops).GetPlaySessionByID S = .ok ps ∧
      ps.OwnerID = o ∧ ps.Visibility = VisibilityPrivate ∧
      (ps.Status = Active ∨ ps.Status = Archived) ∧
      ((storeRun s1 ops).IsPlaySessionMember S u = true ↔ u = o) ∧
      Service.Join (storeRun s1 ops) S u =
        (storeRun s1 ops, .error (if ps.Status = Archived then ErrSessionArchived
          else if u = o then ErrAlreadyMember else ErrForbiddenJoin)) := by
  have h0 : PrivInv S o s1 ∧ ∃ ps0, sessionIn s1.sessions S = some ps0 ∧
      ps0.Status = Active := by
    rcases Create_effect s id now o dto with ⟨e, he⟩ | ⟨hnone, ⟨_, e, he⟩ | ⟨_, he⟩⟩
    · rw [he] at hc; cases (Prod.mk.inj hc).2
    · rw [he] at hc; cases (Prod.mk.inj hc).2
    · rw [he] at hc
      have h1 := (Prod.mk.inj hc).1
      have h2 : id = S := by
        have := (Prod.mk.inj hc).2
        exact Except.ok.inj this
      rw [← h1, ← h2]
      have hsess : sessionIn (s.sessions ++ [Service.createdRecord id now o dto]) id =
          some (Service.createdRecord id now o dto) := by
        rw [sessionIn_append_one, hnone]
        exact if_pos rfl
      refine ⟨⟨Service.createdRecord id now o dto, hsess, hvis, rfl, ?_⟩, _, hsess, rfl⟩
      intro v
      show isMemberIn (s.members ++ [_]) id v = true ↔ _
      rw [isMemberIn_append_one]
      have hf := hfresh v
      rw [IsPlaySessionMember_view] at hf
      rw [hf]
      simp only [Bool.false_or, decide_eq_true_eq, true_and]
      exact ⟨fun e => e.symm, fun e => e.symm⟩
  obtain ⟨hpriv, ps0, hps0, hact0⟩ := h0
  obtain ⟨ps, hps, hv, hown, hmem⟩ := PrivInv_storeRun S o ops s1 hpriv
  obtain ⟨ps1, hps1, hst⟩ := status_storeRun S ops s1 ps0 hps0 (Or.inl hact0)
  rw [hps] at hps1
  cases Option.some.inj hps1
  refine ⟨ps, (GetPlaySessionByID_ok_iff _ _ _).mpr hps, hown, hv, hst, ?_, ?_⟩
  · rw [IsPlaySessionMember_view]
    exact hmem u
  · rw [Join_private _ S o u ps hps hv hown hmem]
    rcases hst with h | h
    · have hna : ¬ ps.Status = Archived := by rw [h]; decide
      rw [if_neg (not_not.mpr h), if_neg hna]
    · have hna : ps.Status ≠ Active := by rw [h]; decide
      rw [if_pos hna, if_pos h]

/-- C30 at a concrete sequence: after `privateOps`, in which `gm` is seated by
hand and ends the private table `P`, the members of `P` are still `gm` alone
and `Join(P, p1)` fails with `SessionArchived`. -/
theorem private_session_members_witness :
    ((storeRun (Service.Create usersStore "P" 1 "gm" dtoPrivate).1
        privateOps).GetPlaySessionByID "P" =
      .ok { Service.createdRecord "P" 1 "gm" dtoPrivate with Status := Archived }) ∧
    (Service.Join (storeRun (Service.Create usersStore "P" 1 "gm" dtoPrivate).1 privateOps)
      "P" "p1").2 = .error ErrSessionArchived ∧
    ∃ ps, (storeRun (Service.Create usersStore "P" 1 "gm" dtoPrivate).1
        privateOps).GetPlaySessionByID "P" = .ok ps ∧
      ps.OwnerID = "gm" ∧ ps.Visibility = VisibilityPrivate ∧
      (ps.Status = Active ∨ ps.Status = Archived) ∧
      ((storeRun (Service.Create usersStore "P" 1 "gm" dtoPrivate).1
        privateOps).IsPlaySessionMember "P" "p1" = true ↔ "p1" = "gm") ∧
      Service.Join (storeRun (Service.Create usersStore "P" 1 "gm" dtoPrivate).1 privateOps)
          "P" "p1" =
        (storeRun (Service.Create usersStore "P" 1 "gm" dtoPrivate).1 privateOps,
          .error (if ps.Status = Archived then ErrSessionArchived
            else if "p1" = "gm" then ErrAlreadyMember else ErrForbiddenJoin)) :=
  ⟨rfl, rfl,
    private_session_members usersStore (Service.Create usersStore "P" 1 "gm" dtoPrivate).1
      "P" 1 "gm" dtoPrivate "P" rfl (fun _ => rfl) rfl privateOps "p1"⟩

/-- C30 as stated fails once the session has ended: `gm` creates the Private
table `P`, is seated at it and ends it; after that `Join(P, p1)` and
`Join(P, gm)` fail with `SessionArchived`, not with `ForbiddenJoin` and
`AlreadyMember`. The members of `P` are still `gm` alone. -/
theorem join_ended_private_session :
    (Service.Create usersStore "P" 1 "gm" dtoPrivate).2 = .ok "P" ∧
    Service.End privateStore "gm" = (privateEndedStore, .ok "P") ∧
    privateEndedStore.GetPlaySessionByID "P" =
      .ok { Service.createdRecord "P" 1 "gm" dtoPrivate with Status := Archived } ∧
    Service.Join privateEndedStore "P" "p1" = (privateEndedStore, .error ErrSessionArchived) ∧
    Service.Join privateEndedStore "P" "gm" = (privateEndedStore, .error ErrSessionArchived) ∧
    privateEndedStore.IsPlaySessionMember "P" "gm" = true ∧
    privateEndedStore.IsPlaySessionMember "P" "p1" = false :=
  ⟨rfl, rfl, rfl, rfl, rfl, rfl, rfl⟩

end Session
